import Mathlib

/-!
# Jarvis agent: remote-delivery dispatcher and lifecycle

Shallow embedding of the concurrent core of the Jarvis monitoring agent
(`jarvis-agent-windows/api_client.go`, `main.go`, the plugin `Stop` methods) as
labelled transition systems over explicit state.

Go channels are records (buffer, capacity, closed flag); a goroutine is a
program counter; one `Event` is one atomic action of one goroutine.  A `select`
statement takes a `pick : Nat` standing for the runtime's pseudo-random choice
among the cases that can proceed; `default` is taken only when none can.
-/

namespace Jarvis

/-! ## Go runtime primitives -/

/-- Outcome of one atomic action: it completes, it cannot proceed in this state
(the goroutine stays blocked), or the runtime panics. -/
inductive Res (α : Type) where
  | ok (a : α)
  | blocked
  | panic (msg : String)
deriving Repr, DecidableEq

/-- A Go channel: buffered values, buffer capacity, closed flag. -/
structure Chan (α : Type) where
  buf : List α
  cap : Nat
  closed : Bool
deriving Repr, DecidableEq

/-- The channel built by `make(chan T, cap)`. -/
def Chan.make {α : Type} (cap : Nat) : Chan α := { buf := [], cap := cap, closed := false }

/-- A send case of a `select` can proceed: the buffer has room, or the channel is
closed (in which case proceeding panics). -/
def Chan.canSend {α : Type} (ch : Chan α) : Bool :=
  ch.closed || decide (ch.buf.length < ch.cap)

/-- A receive case of a `select` can proceed: a value is buffered, or the channel
is closed (the receive then yields the zero value with `ok = false`). -/
def Chan.canRecv {α : Type} (ch : Chan α) : Bool :=
  !ch.buf.isEmpty || ch.closed

/-- The statement `ch <- v`. -/
def Chan.send {α : Type} (ch : Chan α) (v : α) : Res (Chan α) :=
  if ch.closed then .panic "send on closed channel"
  else if ch.buf.length < ch.cap then .ok { ch with buf := ch.buf ++ [v] }
  else .blocked

/-- The builtin `close(ch)` on a non-nil channel. -/
def Chan.close {α : Type} (ch : Chan α) : Res (Chan α) :=
  if ch.closed then .panic "close of closed channel"
  else .ok { ch with closed := true }

/-- The builtin `close(ch)` on a channel variable, `none` being the nil channel. -/
def closeChan {α : Type} : Option (Chan α) → Res (Chan α)
  | none => .panic "close of nil channel"
  | some ch => ch.close

/-- The method `wg.Done()` on a `sync.WaitGroup` counter. -/
def wgDone (counter : Int) : Res Int :=
  if counter - 1 < 0 then .panic "sync: negative WaitGroup counter" else .ok (counter - 1)

/-! ## Dispatcher data model (`api_client.go`, `config.go`) -/

/-- The struct `APIHeader` of `config.go`. -/
structure APIHeader where
  Key : String
  Value : String
deriving Repr, DecidableEq

/-- The struct `APILogRemote` of `config.go`: the destination config of a request. -/
structure APILogRemote where
  Enabled : Bool
  APIURL : String
  APIKey : String
  APIMethod : String
  APITimeout : Int
  APISkipVerify : Bool
  APIAuthType : String
  APIUsername : String
  APIPassword : String
  APIHeaders : List APIHeader
  APIBody : List String
  APIQuery : List String
deriving Repr, DecidableEq

/-- The struct `APIRequest`.  An `interface{}` value is `none` for nil and
`some j` for a value with JSON text `j`; `ResponseCh` is the index of the
response channel in the heap of response channels, `none` for a nil channel. -/
structure APIRequest where
  Payload : Option String
  Result : Option String
  ResponseCh : Option Nat
  Config : APILogRemote
deriving Repr, DecidableEq

/-- The struct `APIResponse`. -/
structure APIResponse where
  Error : Option String
  Data : Option String
deriving Repr, DecidableEq

/-- A response channel (`make(chan APIResponse, 1)`) together with its history:
`sent` lists every send performed on it (worker index and value) and `closedBy`
every close (`some i` for worker `i`, `none` for `SendRequest` itself). -/
structure RespChan where
  ch : Chan APIResponse
  sent : List (Nat × APIResponse)
  closedBy : List (Option Nat)
deriving Repr, DecidableEq

/-- A response channel just made by `SendRequest`: open, empty, untouched. -/
def RespChan.fresh : RespChan :=
  { ch := Chan.make 1, sent := [], closedBy := [] }

/-- A response channel closed by `SendRequest` itself without any send. -/
def RespChan.dropped : RespChan :=
  { ch := { buf := [], cap := 1, closed := true }, sent := [], closedBy := [none] }

/-- A response channel on which worker `i` sent `r` and which it then closed. -/
def RespChan.answered (i : Nat) (r : APIResponse) : RespChan :=
  { ch := { buf := [r], cap := 1, closed := true }, sent := [(i, r)], closedBy := [some i] }

/-- The struct `APIClient`: `requestCh` is `none` once the field is nil, `wg` is
the value of the shared WaitGroup counter, `cancelled` says that `ctx.Done()` is
closed. -/
structure APIClient where
  requestCh : Option (Chan APIRequest)
  workers : Nat
  wg : Int
  cancelled : Bool
deriving Repr, DecidableEq

/-- Program counter of one `processRequests` goroutine. -/
inductive Worker where
  | idle
  | calling (req : APIRequest)
  | writing (req : APIRequest) (resp : APIResponse)
  | exited
deriving Repr, DecidableEq

/-- Program counter of the goroutine that calls `Close`. -/
inductive Closer where
  | idle
  | afterCancel
  | afterClose
  | waiting
deriving Repr, DecidableEq

/-- The dispatcher with its goroutines and the heap of response channels. -/
structure World where
  client : APIClient
  pool : List Worker
  chans : List RespChan
  closer : Closer
deriving Repr, DecidableEq

/-- The requests buffered in the request queue (none behind a nil field). -/
def World.queue (w : World) : List APIRequest :=
  match w.client.requestCh with
  | none => []
  | some ch => ch.buf

/-- The constructor `NewAPIClient(workers, wg)` followed by `Start`: a 1000-slot request queue, a
fresh context, and `workers` goroutines, each counted on the WaitGroup whose
counter was `wg0`. -/
def NewAPIClient (workers : Nat) (wg0 : Nat) : World :=
  { client := { requestCh := some (Chan.make 1000), workers := workers,
                wg := (wg0 : Int) + workers, cancelled := false },
    pool := List.replicate workers Worker.idle,
    chans := [],
    closer := Closer.idle }

/-! ## `SendRequest` -/

/-- The three arms of the `select` in `SendRequest`. -/
inductive SendCase where
  | ctxDone
  | enqueue
  | dflt
deriving Repr, DecidableEq

/-- The communication cases of `SendRequest`'s `select` that can proceed. -/
def sendReady (c : APIClient) : List SendCase :=
  (if c.cancelled then [SendCase.ctxDone] else []) ++
  (match c.requestCh with
   | none => []
   | some ch => if ch.canSend then [SendCase.enqueue] else [])

/-- The arm a `select` runs: one of the cases that can proceed, `default`
when there is none. -/
def chooseCase {γ : Type} (ready : List γ) (dflt : γ) (pick : Nat) : γ :=
  ready.getD (pick % ready.length) dflt

/-- The method `APIClient.SendRequest`: returns the new state and the response
channel handed back to the caller. -/
def SendRequest (w : World) (payload : Option String) (config : APILogRemote)
    (pick : Nat) : Res (World × Nat) :=
  let responseCh := w.chans.length
  match chooseCase (sendReady w.client) SendCase.dflt pick with
  | SendCase.ctxDone =>
      .ok ({ w with chans := w.chans ++ [RespChan.dropped] }, responseCh)
  | SendCase.enqueue =>
      match w.client.requestCh with
      | none => .blocked
      | some ch =>
          match ch.send { Payload := payload, Result := none,
                          ResponseCh := some responseCh, Config := config } with
          | .ok ch1 =>
              .ok ({ w with client := { w.client with requestCh := some ch1 },
                            chans := w.chans ++ [RespChan.fresh] }, responseCh)
          | .blocked => .blocked
          | .panic m => .panic m
  | SendCase.dflt =>
      .ok ({ w with chans := w.chans ++ [RespChan.dropped] }, responseCh)

/-! ## Worker goroutines (`processRequests`) -/

/-- The two communication cases of the outer `select` of `processRequests`. -/
inductive LoopCase where
  | ctxDone
  | recv
deriving Repr, DecidableEq

/-- The cases of the outer `select` that can proceed.  The field `c.requestCh`
is read when the `select` is entered; a receive on a nil channel never proceeds. -/
def loopReady (c : APIClient) : List LoopCase :=
  (if c.cancelled then [LoopCase.ctxDone] else []) ++
  (match c.requestCh with
   | none => []
   | some ch => if ch.canRecv then [LoopCase.recv] else [])

/-- A `return` of `processRequests`: the deferred `c.wg.Done()` runs and the
goroutine ends. -/
def workerReturn (w : World) (i : Nat) : Res World :=
  match wgDone w.client.wg with
  | .ok n => .ok { w with client := { w.client with wg := n },
                          pool := w.pool.set i Worker.exited }
  | .blocked => .blocked
  | .panic m => .panic m

/-- Worker `i` at the outer `select` (lines 64-70): it returns on `ctx.Done()`,
or receives from the request queue and starts the outbound call; a receive from
a closed and drained queue yields `ok = false` and the worker returns. -/
def workerSelect (w : World) (i : Nat) (pick : Nat) : Res World :=
  match w.pool[i]? with
  | some Worker.idle =>
      match chooseCase ((loopReady w.client).map some) none pick with
      | none => .blocked
      | some LoopCase.ctxDone => workerReturn w i
      | some LoopCase.recv =>
          match w.client.requestCh with
          | none => .blocked
          | some ch =>
              match ch.buf with
              | [] => workerReturn w i
              | req :: rest =>
                  .ok { w with client := { w.client with requestCh := some { ch with buf := rest } },
                               pool := w.pool.set i (Worker.calling req) }
  | _ => .blocked

/-- Worker `i` when `s_Request` returns `(resp, err)` (lines 72-77): the inner
`select` returns if `ctx.Done()` can proceed, and otherwise takes `default`, where
a request with a nil response channel is simply finished. -/
def workerCallDone (w : World) (i : Nat) (resp err : Option String) : Res World :=
  match w.pool[i]? with
  | some (Worker.calling req) =>
      if w.client.cancelled then workerReturn w i
      else
        match req.ResponseCh with
        | none => .ok { w with pool := w.pool.set i Worker.idle }
        | some _ =>
            .ok { w with pool := w.pool.set i (Worker.writing req { Error := err, Data := resp }) }
  | _ => .blocked

/-- Worker `i` in the `default` arm (lines 79-83): it sends the response on the
request's channel, closes the channel and goes back to the outer `select`. -/
def workerRespond (w : World) (i : Nat) : Res World :=
  match w.pool[i]? with
  | some (Worker.writing req resp) =>
      match req.ResponseCh with
      | none => .blocked
      | some id =>
          match w.chans[id]? with
          | none => .blocked
          | some rc =>
              match rc.ch.send resp with
              | .ok ch1 =>
                  match ch1.close with
                  | .ok ch2 =>
                      .ok { w with chans := w.chans.set id
                                     { ch := ch2, sent := rc.sent ++ [(i, resp)],
                                       closedBy := rc.closedBy ++ [some i] },
                                   pool := w.pool.set i Worker.idle }
                  | .blocked => .blocked
                  | .panic m => .panic m
              | .blocked => .blocked
              | .panic m => .panic m
  | _ => .blocked

/-! ## `Close` -/

/-- Line 174 of `Close`: `c.cancel()`. -/
def closeCancel (w : World) : Res World :=
  match w.closer with
  | Closer.idle =>
      .ok { w with client := { w.client with cancelled := true }, closer := Closer.afterCancel }
  | _ => .blocked

/-- Lines 175-176 of `Close`: the nil test and `close(c.requestCh)`. -/
def closeChannel (w : World) : Res World :=
  match w.closer with
  | Closer.afterCancel =>
      match w.client.requestCh with
      | none => .ok { w with closer := Closer.waiting }
      | some ch =>
          match ch.close with
          | .ok ch1 =>
              .ok { w with client := { w.client with requestCh := some ch1 },
                           closer := Closer.afterClose }
          | .blocked => .blocked
          | .panic m => .panic m
  | _ => .blocked

/-- Line 177 of `Close`: `c.requestCh = nil`. -/
def closeClear (w : World) : Res World :=
  match w.closer with
  | Closer.afterClose =>
      .ok { w with client := { w.client with requestCh := none }, closer := Closer.waiting }
  | _ => .blocked

/-- Line 180 of `Close`: `c.wg.Wait()` returns once the counter is zero, and
`Close` returns to its caller. -/
def closeWait (w : World) : Res World :=
  match w.closer with
  | Closer.waiting =>
      if w.client.wg = 0 then .ok { w with closer := Closer.idle } else .blocked
  | _ => .blocked

/-! ## Executions of the dispatcher -/

/-- One atomic action of one goroutine of the dispatcher. -/
inductive Event where
  | send (payload : Option String) (config : APILogRemote) (pick : Nat)
  | select (i : Nat) (pick : Nat)
  | callDone (i : Nat) (resp err : Option String)
  | respond (i : Nat)
  | closeCancel
  | closeChannel
  | closeClear
  | closeWait
deriving Repr, DecidableEq

/-- The effect of one event. -/
def step (w : World) : Event → Res World
  | Event.send payload config pick =>
      match SendRequest w payload config pick with
      | .ok (w1, _) => .ok w1
      | .blocked => .blocked
      | .panic m => .panic m
  | Event.select i pick => workerSelect w i pick
  | Event.callDone i resp err => workerCallDone w i resp err
  | Event.respond i => workerRespond w i
  | Event.closeCancel => closeCancel w
  | Event.closeChannel => closeChannel w
  | Event.closeClear => closeClear w
  | Event.closeWait => closeWait w

/-- The effect of a sequence of events, in order. -/
def run (w : World) : List Event → Res World
  | [] => .ok w
  | e :: es =>
      match step w e with
      | .ok w1 => run w1 es
      | .blocked => .blocked
      | .panic m => .panic m

/-- The states a dispatcher can be in: those reached from `NewAPIClient` by any
interleaving of events. -/
inductive Reachable : World → Prop where
  | init (workers wg0 : Nat) : Reachable (NewAPIClient workers wg0)
  | next {w w1 : World} (e : Event) : Reachable w → step w e = .ok w1 → Reachable w1

/-- The method `APIClient.Close` run from call to return with no other goroutine
interleaved: `blocked` when `wg.Wait()` cannot return. -/
def Close (w : World) : Res World :=
  match closeCancel w with
  | .ok w1 =>
      match closeChannel w1 with
      | .ok w2 =>
          match w2.closer with
          | Closer.afterClose =>
              match closeClear w2 with
              | .ok w3 => closeWait w3
              | .blocked => .blocked
              | .panic m => .panic m
          | _ => closeWait w2
      | .blocked => .blocked
      | .panic m => .panic m
  | .blocked => .blocked
  | .panic m => .panic m

/-- Whether a worker goroutine is still running (1) or has returned (0). -/
def Worker.alive : Worker → Nat
  | Worker.exited => 0
  | _ => 1

/-- The number of worker goroutines of a pool that have not returned. -/
def liveWorkers (pool : List Worker) : Nat :=
  (pool.map Worker.alive).sum

/-- A destination config used in examples. -/
def sampleConfig : APILogRemote :=
  { Enabled := true, APIURL := "http://collector/api", APIKey := "", APIMethod := "POST",
    APITimeout := 5, APISkipVerify := false, APIAuthType := "", APIUsername := "",
    APIPassword := "", APIHeaders := [], APIBody := [], APIQuery := [] }

/-- A request as `SendRequest` builds it, for response channel `id`. -/
def sampleRequest (id : Nat) : APIRequest :=
  { Payload := some "status", Result := none, ResponseCh := some id, Config := sampleConfig }

/-- A dispatcher with three workers whose request queue holds 1000 requests. -/
def fullWorld : World :=
  { client := { requestCh := some (Chan.mk ((List.range 1000).map sampleRequest) 1000 false),
                workers := 3, wg := 3, cancelled := false },
    pool := List.replicate 3 Worker.idle,
    chans := List.replicate 1000 RespChan.fresh,
    closer := Closer.idle }

/-- A one-worker dispatcher whose worker has dequeued the only request and is
performing the outbound call. -/
def busyWorld : World :=
  { client := { requestCh := some (Chan.mk [] 1000 false), workers := 1, wg := 1,
                cancelled := false },
    pool := [Worker.calling (sampleRequest 0)],
    chans := [RespChan.fresh],
    closer := Closer.idle }

/-- A one-worker dispatcher right after `cancel()`: request 0 is still queued and
the worker has not yet reached its `select`. -/
def cancelledWorld : World :=
  { client := { requestCh := some (Chan.mk [sampleRequest 0] 1000 false), workers := 1,
                wg := 1, cancelled := true },
    pool := [Worker.idle],
    chans := [RespChan.fresh],
    closer := Closer.afterCancel }

/-- A one-worker dispatcher whose worker is in the outbound call of request 0
when `cancel()` runs. -/
def midCallWorld : World :=
  { client := { requestCh := some (Chan.mk [] 1000 false), workers := 1, wg := 1,
                cancelled := true },
    pool := [Worker.calling (sampleRequest 0)],
    chans := [RespChan.fresh],
    closer := Closer.afterCancel }

/-- A one-worker dispatcher on which `Close` has returned. -/
def closedWorld : World :=
  { client := { requestCh := none, workers := 1, wg := 0, cancelled := true },
    pool := [Worker.exited],
    chans := [],
    closer := Closer.idle }

/-! ## Plugin monitor units (`jarvis-plugins`)

Only the state that `Stop` touches is kept: the `stop` channel made by `New`
(`make(chan struct{})`).  The config, logger and HTTP client pointers are left
out. -/

/-- The struct `ServiceMonitorPlugin`. -/
structure ServiceMonitorPlugin where
  stop : Option (Chan Unit)
  services : List String
  sleepTime : Int
deriving Repr, DecidableEq

/-- The struct `MetricPlugin`. -/
structure MetricPlugin where
  stop : Option (Chan Unit)
deriving Repr, DecidableEq

/-- The struct `APIClientPlugin`. -/
structure APIClientPlugin where
  stop : Option (Chan Unit)
deriving Repr, DecidableEq

/-- The constructor `New` of `servicemonitor.go`. -/
def ServiceMonitorPlugin.New : ServiceMonitorPlugin :=
  { stop := some (Chan.make 0), services := [], sleepTime := 0 }

/-- The constructor `New` of `metric_plugin.go`. -/
def MetricPlugin.New : MetricPlugin := { stop := some (Chan.make 0) }

/-- The constructor `New` of `apiclient.go`. -/
def APIClientPlugin.New : APIClientPlugin := { stop := some (Chan.make 0) }

/-- The method `ServiceMonitorPlugin.Stop`: `close(p.stop)`. -/
def ServiceMonitorPlugin.Stop (p : ServiceMonitorPlugin) : Res ServiceMonitorPlugin :=
  match closeChan p.stop with
  | .ok ch => .ok { p with stop := some ch }
  | .blocked => .blocked
  | .panic m => .panic m

/-- The method `MetricPlugin.Stop`: `close(p.stop)`. -/
def MetricPlugin.Stop (p : MetricPlugin) : Res MetricPlugin :=
  match closeChan p.stop with
  | .ok ch => .ok { p with stop := some ch }
  | .blocked => .blocked
  | .panic m => .panic m

/-- The method `APIClientPlugin.Stop`: `close(p.stop)`. -/
def APIClientPlugin.Stop (p : APIClientPlugin) : Res APIClientPlugin :=
  match closeChan p.stop with
  | .ok ch => .ok { p with stop := some ch }
  | .blocked => .blocked
  | .panic m => .panic m

/-- A monitor unit behind the `Plugin` interface. -/
inductive Plugin where
  | serviceMonitor (p : ServiceMonitorPlugin)
  | metric (p : MetricPlugin)
  | apiClient (p : APIClientPlugin)
deriving Repr, DecidableEq

/-- The `stop` channel of a unit. -/
def Plugin.stop : Plugin → Option (Chan Unit)
  | Plugin.serviceMonitor p => p.stop
  | Plugin.metric p => p.stop
  | Plugin.apiClient p => p.stop

/-- The interface method `Stop`, dispatched on the unit. -/
def Plugin.Stop : Plugin → Res Plugin
  | Plugin.serviceMonitor p =>
      match p.Stop with
      | .ok q => .ok (Plugin.serviceMonitor q)
      | .blocked => .blocked
      | .panic m => .panic m
  | Plugin.metric p =>
      match p.Stop with
      | .ok q => .ok (Plugin.metric q)
      | .blocked => .blocked
      | .panic m => .panic m
  | Plugin.apiClient p =>
      match p.Stop with
      | .ok q => .ok (Plugin.apiClient q)
      | .blocked => .blocked
      | .panic m => .panic m

/-- Calling `Stop` twice in a row. -/
def Plugin.stopTwice (u : Plugin) : Res Plugin :=
  match u.Stop with
  | .ok u1 => u1.Stop
  | .blocked => .blocked
  | .panic m => .panic m

/-! ## Lifecycle of the Windows agent (`jarvis-agent-windows/main.go`)

The process state is the shared WaitGroup counter, the root context, the
shutdown timer and the program counter of every monitor goroutine.  The three
monitors `monitorServices`, `monitorSystem` and `monitorWebsites` build their own
dispatcher (`NewAPIClient(3, wg)`) and close it in a deferred call;
`monitorWindowsLogs` does the same and calls `Close` before it returns; the
web-API monitor gets a dispatcher built by `main`, which nobody closes. -/

namespace Lifecycle

/-- What `main` reads of `Config`: the `Enabled` flags, `len(config.Webapi)`, and
whether the syslog client was enabled and could be built. -/
structure Config where
  ServiceMonitor : Bool
  SystemMonitor : Bool
  WebMonitor : Bool
  Webapi : Nat
  Windowslogs : Bool
  Syslog : Bool
deriving Repr, DecidableEq

/-- The monitor units `main` can start. -/
inductive Kind where
  | service
  | system
  | web
  | webapi
  | winlogs
deriving Repr, DecidableEq

/-- Program counter of a monitor goroutine: not enabled; counted by `wg.Add(1)`
and handed to `go`; in its loop, dispatcher built; out of its loop and inside
`apiClient.Close()`; returned, deferred calls run. -/
inductive Phase where
  | off
  | spawned
  | looping
  | closing
  | finished
deriving Repr, DecidableEq

/-- A monitor unit: its program counter and the number of running workers of its
dispatcher. -/
structure UnitSt where
  phase : Phase
  workers : Nat
deriving Repr, DecidableEq

/-- The process: `counter` is the WaitGroup `wg`, `cancelled` the root context,
`timer` says that the shutdown timer is running, `loggers` counts the log
consumer goroutines, `exit` is the exit code once the process has ended. -/
structure Proc where
  counter : Int
  cancelled : Bool
  timer : Bool
  loggers : Nat
  service : UnitSt
  system : UnitSt
  web : UnitSt
  webapi : UnitSt
  winlogs : UnitSt
  exit : Option Nat
deriving Repr, DecidableEq

/-- The unit of a given kind. -/
def Proc.unit (s : Proc) : Kind → UnitSt
  | Kind.service => s.service
  | Kind.system => s.system
  | Kind.web => s.web
  | Kind.webapi => s.webapi
  | Kind.winlogs => s.winlogs

/-- Update of the unit of a given kind. -/
def Proc.setUnit (s : Proc) (k : Kind) (u : UnitSt) : Proc :=
  match k with
  | Kind.service => { s with service := u }
  | Kind.system => { s with system := u }
  | Kind.web => { s with web := u }
  | Kind.webapi => { s with webapi := u }
  | Kind.winlogs => { s with winlogs := u }

/-- The constructor `NewLogger(wg, config)`: `wg.Add(1)` and `go processSyslog()` when the syslog
client is there, then `wg.Add(1)` and `go processLogs()`.  Both consumers return
only after `logger.Close()`, which `main` defers. -/
def NewLogger (syslog : Bool) (s : Proc) : Proc :=
  let s1 := if syslog then { s with counter := s.counter + 1, loggers := s.loggers + 1 } else s
  { s1 with counter := s1.counter + 1, loggers := s1.loggers + 1 }

/-- The statement `wg.Add(1)` followed by the `go` statement of unit `k`, whose
function defers `wg.Done()`. -/
def spawn (s : Proc) (k : Kind) : Proc :=
  Proc.setUnit { s with counter := s.counter + 1 } k { phase := Phase.spawned, workers := 0 }

/-- Lines 44-100 of `main`: the state in which `main` reaches `wg.Wait()`. -/
def main (cfg : Config) : Proc :=
  let u0 : UnitSt := { phase := Phase.off, workers := 0 }
  let s0 : Proc := { counter := 1, cancelled := false, timer := false, loggers := 0,
                     service := u0, system := u0, web := u0, webapi := u0, winlogs := u0,
                     exit := none }
  let s1 := NewLogger cfg.Syslog s0
  let s2 := if cfg.ServiceMonitor then spawn s1 Kind.service else s1
  let s3 := if cfg.SystemMonitor then spawn s2 Kind.system else s2
  let s4 := if cfg.WebMonitor then spawn s3 Kind.web else s3
  let s5 := if 0 < cfg.Webapi then
      Proc.setUnit { s4 with counter := s4.counter + 1 + 3 } Kind.webapi
        { phase := Phase.looping, workers := 3 }
    else s4
  if cfg.Windowslogs then spawn s5 Kind.winlogs else s5

/-- The number of `wg.Done()` calls a unit runs when it returns: the deferred one
of the wrapper in `main`, and for `monitorWindowsLogs` its own deferred one too. -/
def donesOnReturn : Kind → Nat
  | Kind.winlogs => 2
  | _ => 1

/-- The effect of `n` calls of `wg.Done()`. -/
def wgDoneTimes : Nat → Int → Res Int
  | 0, c => .ok c
  | n + 1, c =>
      match wgDone c with
      | .ok c1 => wgDoneTimes n c1
      | .blocked => .blocked
      | .panic m => .panic m

/-- Whether unit `k` can leave its loop: the service, web and event-log monitors
only on `ctx.Done()`; the system monitor also after a caller-side timeout; the
web-API monitor also when no API is enabled. -/
def canLeave (s : Proc) : Kind → Bool
  | Kind.system => true
  | Kind.webapi => true
  | _ => s.cancelled

/-- One atomic action of the process. -/
inductive Ev where
  | start (k : Kind)
  | leave (k : Kind)
  | workerExit (k : Kind)
  | closeReturn (k : Kind)
  | signal
  | quiesced
  | timeout
deriving Repr, DecidableEq

/-- The effect of one action.
* `start k`: the spawned goroutine of `k` runs `NewAPIClient(3, wg)` and enters
  its loop (the web-API monitor is never in this phase: `main` builds its
  dispatcher).
* `leave k`: `k` leaves its loop; the web-API monitor returns and runs its
  deferred `wg.Done()`, the others call `apiClient.Close()`, which cancels the
  dispatcher and waits in `wg.Wait()`.
* `workerExit k`: a worker of `k`'s cancelled dispatcher returns.
* `closeReturn k`: `wg.Wait()` in `Close` sees the counter at zero, `Close`
  returns and the deferred `wg.Done()` calls of `k` run.
* `signal`: SIGINT or SIGTERM arrives; `cancel()` and the 10 s timer.
* `quiesced`: `wg.Wait()` in `main` sees the counter at zero; exit code 0.
* `timeout`: the timer fires; `os.Exit(1)`. -/
def step (s : Proc) (e : Ev) : Res Proc :=
  match s.exit with
  | some _ => .blocked
  | none =>
    match e with
    | Ev.start k =>
        match (s.unit k).phase with
        | Phase.spawned =>
            .ok (Proc.setUnit { s with counter := s.counter + 3 } k
                  { phase := Phase.looping, workers := 3 })
        | _ => .blocked
    | Ev.leave k =>
        match (s.unit k).phase with
        | Phase.looping =>
            if canLeave s k then
              match k with
              | Kind.webapi =>
                  match wgDone s.counter with
                  | .ok c => .ok (Proc.setUnit { s with counter := c } k
                                   { (s.unit k) with phase := Phase.finished })
                  | .blocked => .blocked
                  | .panic m => .panic m
              | _ => .ok (s.setUnit k { (s.unit k) with phase := Phase.closing })
            else .blocked
        | _ => .blocked
    | Ev.workerExit k =>
        match (s.unit k).phase, (s.unit k).workers with
        | Phase.closing, n + 1 =>
            match wgDone s.counter with
            | .ok c => .ok (Proc.setUnit { s with counter := c } k
                             { (s.unit k) with workers := n })
            | .blocked => .blocked
            | .panic m => .panic m
        | _, _ => .blocked
    | Ev.closeReturn k =>
        match (s.unit k).phase with
        | Phase.closing =>
            if s.counter = 0 then
              match wgDoneTimes (donesOnReturn k) s.counter with
              | .ok c => .ok (Proc.setUnit { s with counter := c } k
                               { (s.unit k) with phase := Phase.finished })
              | .blocked => .blocked
              | .panic m => .panic m
            else .blocked
        | _ => .blocked
    | Ev.signal =>
        if s.timer then .blocked else .ok { s with cancelled := true, timer := true }
    | Ev.quiesced =>
        if s.counter = 0 then .ok { s with exit := some 0 } else .blocked
    | Ev.timeout =>
        if s.timer then .ok { s with exit := some 1 } else .blocked

/-- The effect of a sequence of actions, in order. -/
def run (s : Proc) : List Ev → Res Proc
  | [] => .ok s
  | e :: es =>
      match step s e with
      | .ok s1 => run s1 es
      | .blocked => .blocked
      | .panic m => .panic m

/-- Whether a monitor goroutine has been started and has not returned (1 or 0). -/
def Phase.active : Phase → Nat
  | Phase.off => 0
  | Phase.finished => 0
  | _ => 1

/-- The goroutines of a unit that have been started and have not returned: the
monitor itself and the workers of its dispatcher. -/
def UnitSt.tasks (u : UnitSt) : Nat := u.phase.active + u.workers

/-- The number of started goroutines that have not yet completed. -/
def Proc.tasks (s : Proc) : Nat :=
  s.loggers + s.service.tasks + s.system.tasks + s.web.tasks + s.webapi.tasks + s.winlogs.tasks

/-- The monitor units that have been started and have not signalled completion. -/
def Proc.unitsRunning (s : Proc) : Nat :=
  s.service.phase.active + s.system.phase.active + s.web.phase.active +
    s.webapi.phase.active + s.winlogs.phase.active

/-- The exit code of the process at the end of a run, if it has ended. -/
def exitOf : Res Proc → Option Nat
  | .ok s => s.exit
  | _ => none

/-- The WaitGroup counter minus the number of started, uncompleted goroutines at
the end of a run. -/
def surplusOf : Res Proc → Option Int
  | .ok s => some (s.counter - s.tasks)
  | _ => none

/-- A configuration with every monitor disabled. -/
def quietConfig : Config :=
  { ServiceMonitor := false, SystemMonitor := false, WebMonitor := false, Webapi := 0,
    Windowslogs := false, Syslog := false }

/-- A configuration whose only unit is the web-API monitor, with one endpoint. -/
def webapiConfig : Config :=
  { ServiceMonitor := false, SystemMonitor := false, WebMonitor := false, Webapi := 1,
    Windowslogs := false, Syslog := false }

/-- A configuration whose only unit is the event-log monitor. -/
def winlogsConfig : Config :=
  { ServiceMonitor := false, SystemMonitor := false, WebMonitor := false, Webapi := 0,
    Windowslogs := true, Syslog := false }

/-- The counter is one above the number of started, uncompleted goroutines (the
`wg.Add(1)` of line 46 is never undone), a log consumer is running, the exit
code, if any, is 1, and a unit that has not built its dispatcher has no workers. -/
structure Inv (s : Proc) : Prop where
  counter : s.counter = (s.tasks : Int) + 1
  logger : 1 ≤ s.loggers
  exit : s.exit = none ∨ s.exit = some 1
  fresh : ∀ k, (s.unit k).phase = Phase.spawned → (s.unit k).workers = 0

end Lifecycle

/-! ## Shutdown of the plugin-based agent (`jarvis-agent-linux/main.go`) -/

/-- The constant `ExitSuccess`. -/
def ExitSuccess : Nat := 0

/-- The constant `ExitFailure`. -/
def ExitFailure : Nat := 1

/-- The function `terminate`: `os.Exit(ExitFailure)`. -/
def terminate : Nat := ExitFailure

/-- The method `PluginManager.StopAll`: `Stop` on every loaded unit. -/
def StopAll : List Plugin → Res (List Plugin)
  | [] => .ok []
  | u :: us =>
      match u.Stop with
      | .ok u1 =>
          match StopAll us with
          | .ok us1 => .ok (u1 :: us1)
          | .blocked => .blocked
          | .panic m => .panic m
      | .blocked => .blocked
      | .panic m => .panic m

/-- The signal handler of `main` (lines 67-72): `StopAll`, then `terminate()`.
Returns the exit code of the process. -/
def onSignal (units : List Plugin) : Res Nat :=
  match StopAll units with
  | .ok _ => .ok terminate
  | .blocked => .blocked
  | .panic m => .panic m

/-! ## Syslog client (`jarvis-agent-windows/syslog_client.go`) -/

/-- A `time.Time` value, kept as the text that `Format(time.RFC3339)` gives for it. -/
structure Time where
  RFC3339 : String
deriving Repr, DecidableEq

/-- A connection returned by `net.Dial` or `tls.Dial`. -/
structure Conn where
  network : String
  address : String
  tls : Bool
deriving Repr, DecidableEq

/-- The field `conn net.Conn` of `SyslogClient`: the nil interface, an interface
holding a nil `*tls.Conn` (what the assignment from a failed `tls.Dial` leaves),
or a connection. -/
inductive ConnRef where
  | nil
  | typedNil
  | live (c : Conn)
deriving Repr, DecidableEq

/-- The struct `SyslogClient`; `tlsConfig` is `InsecureSkipVerify` when set. -/
structure SyslogClient where
  protocol : String
  address : String
  conn : ConnRef
  tlsConfig : Option Bool
deriving Repr, DecidableEq

/-- A call into the network made by the client. -/
inductive NetEffect where
  | dial (network address : String) (tls : Bool)
  | write (bytes : String)
  | close
deriving Repr, DecidableEq

/-- The outcomes of the network calls of one `Write`: the error of the dial and
of `conn.Write`, if they are made and fail. -/
structure NetEnv where
  dialErr : Option String
  writeErr : Option String
deriving Repr, DecidableEq

/-- The method `SyslogClient.connect`: the new client, the calls made and the
error returned. -/
def SyslogClient.connect (c : SyslogClient) (dialErr : Option String) :
    SyslogClient × List NetEffect × Option String :=
  if c.protocol = "tcp" ∨ c.protocol = "tcp+tls" then
    if c.protocol = "tcp+tls" then
      match dialErr with
      | some e => ({ c with conn := ConnRef.typedNil },
                   [NetEffect.dial "tcp" c.address true], some e)
      | none => ({ c with conn := ConnRef.live (Conn.mk "tcp" c.address true) },
                 [NetEffect.dial "tcp" c.address true], none)
    else
      match dialErr with
      | some e => ({ c with conn := ConnRef.nil },
                   [NetEffect.dial "tcp" c.address false], some e)
      | none => ({ c with conn := ConnRef.live (Conn.mk "tcp" c.address false) },
                 [NetEffect.dial "tcp" c.address false], none)
  else if c.protocol = "udp" then
    match dialErr with
    | some e => ({ c with conn := ConnRef.nil },
                 [NetEffect.dial "udp" c.address false], some e)
    | none => ({ c with conn := ConnRef.live (Conn.mk "udp" c.address false) },
               [NetEffect.dial "udp" c.address false], none)
  else (c, [], some ("unsupported protocol: " ++ c.protocol))

/-- The message built by `fmt.Sprintf` in `Write` (format `<%d>%s %s %s: %s` and a
newline). -/
def syslogMessage (priority : Int) (timestamp : Time) (hostname tag content : String) :
    String :=
  "<" ++ toString priority ++ ">" ++ timestamp.RFC3339 ++ " " ++ hostname ++ " " ++ tag ++
    ": " ++ content ++ "\n"

/-- Lines 60-75 of `Write`: format the message, hand it to `c.conn.Write`, and on
an error close and clear the connection. -/
def SyslogClient.send (c : SyslogClient) (writeErr : Option String) (before : List NetEffect)
    (msg : String) : Res (SyslogClient × List NetEffect × Option String) :=
  match c.conn with
  | ConnRef.live _ =>
      match writeErr with
      | some e => .ok ({ c with conn := ConnRef.nil },
                       before ++ [NetEffect.write msg, NetEffect.close], some e)
      | none => .ok (c, before ++ [NetEffect.write msg], none)
  | _ => .panic "invalid memory address or nil pointer dereference"

/-- The method `SyslogClient.Write`: the new client, the network calls made in
order, and the error returned. -/
def SyslogClient.Write (c : SyslogClient) (env : NetEnv) (priority : Int) (timestamp : Time)
    (hostname tag content : String) : Res (SyslogClient × List NetEffect × Option String) :=
  match c.conn with
  | ConnRef.nil =>
      match c.connect env.dialErr with
      | (c1, fx, some e) => .ok (c1, fx, some e)
      | (c1, fx, none) =>
          c1.send env.writeErr fx (syslogMessage priority timestamp hostname tag content)
  | _ => c.send env.writeErr [] (syslogMessage priority timestamp hostname tag content)

/-! ## Local log sink (`logger.go`) -/

/-- The struct `LogMessage`. -/
structure LogMessage where
  Source : String
  Level : String
  Message : String
deriving Repr, DecidableEq

/-- A `select` with one send case and a `default` arm: the channel after the
send, or `none` when `default` ran. -/
def Chan.trySend {α : Type} (ch : Chan α) (v : α) : Res (Option (Chan α)) :=
  if ch.canSend then
    match ch.send v with
    | .ok ch1 => .ok (some ch1)
    | .blocked => .blocked
    | .panic m => .panic m
  else .ok none

/-- The struct `Logger` of the Windows agent; `syslogClient` is `none` for nil. -/
structure Logger where
  logChan : Chan LogMessage
  syslogChan : Chan LogMessage
  syslogClient : Option SyslogClient
deriving Repr, DecidableEq

/-- The function `getPriority`. -/
def getPriority (level : String) : Int :=
  match level with
  | "ERROR" => 3
  | "WARN" => 4
  | "INFO" => 6
  | "DEBUG" => 7
  | _ => 6

/-- The line `Log` prints when the buffer is full. -/
def bufferFullLine (source level message : String) : String :=
  "[" ++ source ++ "][" ++ level ++ "] " ++ message ++ " (buffer full)\n"

/-- The method `Logger.Log` of the Windows agent: the new logger and the text
written directly to standard output. -/
def Logger.Log (l : Logger) (source level message : String) : Res (Logger × List String) :=
  let logMsg : LogMessage := { Source := source, Level := level, Message := message }
  match l.logChan.trySend logMsg with
  | .ok sent =>
      let l1 : Logger := match sent with
        | some ch => { l with logChan := ch }
        | none => l
      let out : List String := match sent with
        | some _ => []
        | none => [bufferFullLine source level message]
      match l1.syslogClient with
      | some _ =>
          match l1.syslogChan.trySend logMsg with
          | .ok (some ch) => .ok ({ l1 with syslogChan := ch }, out)
          | .ok none => .ok (l1, out)
          | .blocked => .blocked
          | .panic m => .panic m
      | none => .ok (l1, out)
  | .blocked => .blocked
  | .panic m => .panic m

namespace Linux

/-- The struct `Logger` of the plugin-based agent. -/
structure Logger where
  logChan : Chan LogMessage
deriving Repr, DecidableEq

/-- The constructor `NewLogger`: a buffer of 1000 records. -/
def NewLogger : Logger := { logChan := Chan.make 1000 }

/-- The method `Logger.Log` of the plugin-based agent: the new logger and the
text written directly to standard output. -/
def Logger.Log (l : Logger) (source level message : String) : Res (Logger × List String) :=
  match l.logChan.trySend { Source := source, Level := level, Message := message } with
  | .ok (some ch) => .ok ({ l with logChan := ch }, [])
  | .ok none => .ok (l, [bufferFullLine source level message])
  | .blocked => .blocked
  | .panic m => .panic m

end Linux

/-- A logger of the Windows agent whose buffer holds 1000 records and which has
no syslog client. -/
def fullLogger : Logger :=
  { logChan := Chan.mk (List.replicate 1000 (LogMessage.mk "Service" "INFO" "up")) 1000 false,
    syslogChan := Chan.make 1000,
    syslogClient := none }

/-- A TCP syslog client with a connection. -/
def tcpClient : SyslogClient :=
  { protocol := "tcp", address := "logs:514",
    conn := ConnRef.live (Conn.mk "tcp" "logs:514" false), tlsConfig := none }

/-- A TLS syslog client whose connection field is nil. -/
def clearedTlsClient : SyslogClient :=
  { protocol := "tcp+tls", address := "logs:6514", conn := ConnRef.nil, tlsConfig := some false }

/-! ## Plugin registry (`jarvis-agent-linux/plugin.go`) -/

/-- What loading the shared object at `path` does, stage by stage: the error of
`plugin.Open`, the error of `Lookup("New")`, whether the symbol has the type
`func() Plugin`, whether the constructor returns a non-nil unit, the error of the
unit's `Init`, and the unit's `Name()`. -/
structure PluginFile where
  path : String
  openErr : Option String
  lookupErr : Option String
  signatureOk : Bool
  constructed : Bool
  initErr : Option String
  name : String
deriving Repr, DecidableEq

/-- The struct `PluginManager`: the map `plugins` from unit name to unit, a unit
being identified by the file it was constructed from. -/
structure PluginManager where
  plugins : List (String × String)
deriving Repr, DecidableEq

/-- The constructor `NewPluginManager`: an empty registry. -/
def NewPluginManager : PluginManager := { plugins := [] }

/-- The map assignment `m[k] = v`. -/
def mapSet (m : List (String × String)) (k v : String) : List (String × String) :=
  m.filter (fun p => p.1 != k) ++ [(k, v)]

/-- The method `PluginManager.LoadPlugin`: the new manager and the error returned. -/
def LoadPlugin (pm : PluginManager) (f : PluginFile) : PluginManager × Option String :=
  match f.openErr with
  | some e => (pm, some ("failed to open plugin " ++ f.path ++ ": " ++ e))
  | none =>
    match f.lookupErr with
    | some e => (pm, some ("failed to find New function in plugin " ++ f.path ++ ": " ++ e))
    | none =>
      if !f.signatureOk then
        (pm, some ("plugin " ++ f.path ++ " 'New' function has wrong signature"))
      else if !f.constructed then
        (pm, some ("plugin " ++ f.path ++ " constructor returned nil"))
      else
        match f.initErr with
        | some e => (pm, some ("failed to initialize plugin " ++ f.path ++ ": " ++ e))
        | none => ({ pm with plugins := mapSet pm.plugins f.name f.path }, none)

/-- The loop of `LoadPluginsFromDir` over the files found: the new manager, the
paths handed to `LoadPlugin`, and the warnings logged. -/
def loadAll (pm : PluginManager) : List PluginFile → PluginManager × List String × List String
  | [] => (pm, [], [])
  | f :: fs =>
      match LoadPlugin pm f with
      | (pm1, some e) =>
          match loadAll pm1 fs with
          | (pm2, tried, warns) =>
              (pm2, f.path :: tried, ("Failed to load plugin " ++ f.path ++ ": " ++ e) :: warns)
      | (pm1, none) =>
          match loadAll pm1 fs with
          | (pm2, tried, warns) => (pm2, f.path :: tried, warns)

/-- The method `PluginManager.LoadPluginsFromDir`, given what `filepath.Glob`
returned: the new manager, the paths handed to `LoadPlugin`, the warnings logged,
and the error returned. -/
def LoadPluginsFromDir (pm : PluginManager) (glob : Except String (List PluginFile)) :
    PluginManager × List String × List String × Option String :=
  match glob with
  | .error e => (pm, [], [], some ("failed to read plugin directory: " ++ e))
  | .ok files =>
      match loadAll pm files with
      | (pm1, tried, warns) => (pm1, tried, warns, none)

/-- Whether every stage of loading the file succeeds. -/
def PluginFile.loads (f : PluginFile) : Bool :=
  f.openErr.isNone && f.lookupErr.isNone && f.signatureOk && f.constructed && f.initErr.isNone

/-- A plugin file that loads and registers the unit `Metric`. -/
def goodFile : PluginFile :=
  { path := "plugins/metric.so", openErr := none, lookupErr := none, signatureOk := true,
    constructed := true, initErr := none, name := "Metric" }

/-- A plugin file whose `New` symbol has the wrong type. -/
def badFile : PluginFile :=
  { path := "plugins/broken.so", openErr := none, lookupErr := none, signatureOk := false,
    constructed := true, initErr := none, name := "Broken" }

/-! ## The outbound call (`s_Request` in `api_client.go`) -/

/-- The request handed to `client.Do`: method, URL (the parsed URL, as a string),
body and headers, the header map holding one value per canonical name. -/
structure HTTPRequest where
  Method : String
  URL : String
  Body : Option String
  Header : List (String × String)
deriving Repr, DecidableEq

/-- What `client.Do` returns when the call completes at the transport level: the
status code and the bytes of the body. -/
structure HTTPResponse where
  StatusCode : Int
  Body : String
deriving Repr, DecidableEq

/-- The outcomes of the library calls of one `s_Request`: the error of
`json.Marshal`, the error of `http.NewRequest` (invalid method, URL that does not
parse), what `client.Do` returns, what decoding the body gives (`none` for JSON
null), the canonical form of a header name used by `Header.Set`, and the URL
that `http.NewRequest` stores for a URL string (what `url.Parse` gives, with an
empty port removed). -/
structure CallEnv where
  marshalErr : Option String
  newRequestErr : Option String
  transport : Except String HTTPResponse
  decode : Except String (Option String)
  canonical : String → String
  parseURL : String → String

/-- The method `Header.Set`: the value stored under the canonical name replaces
any earlier one. -/
def headerSet (canonical : String → String) (h : List (String × String)) (k v : String) :
    List (String × String) :=
  mapSet h (canonical k) v

/-- The loop of lines 123-125: `Header.Set` for every configured header, in order. -/
def configuredHeaders (canonical : String → String) (hs : List APIHeader) :
    List (String × String) :=
  hs.foldl (fun h x => headerSet canonical h x.Key x.Value) []

/-- The method of the request `http.NewRequest` builds: `GET` for the empty
string, and the given method otherwise. -/
def requestMethod (method : String) : String :=
  if method = "" then "GET" else method

/-- Lines 107-130 of `s_Request`: the outbound request, or the error returned
before any call is made. -/
def buildRequest (env : CallEnv) (req : APIRequest) : Except String HTTPRequest :=
  match req.Payload, env.marshalErr with
  | some _, some e => .error ("error marshaling payload: " ++ e)
  | body, _ =>
      match env.newRequestErr with
      | some e => .error ("error creating request: " ++ e)
      | none =>
          let h0 := configuredHeaders env.canonical req.Config.APIHeaders
          let h1 := if req.Config.APIAuthType = "apikey" then
              headerSet env.canonical h0 "Authorization" ("Bearer " ++ req.Config.APIKey)
            else h0
          .ok { Method := requestMethod req.Config.APIMethod,
                URL := env.parseURL req.Config.APIURL, Body := body, Header := h1 }

/-- The function `s_Request`: the pair (result, error) it returns. -/
def s_Request (env : CallEnv) (req : APIRequest) : Option String × Option String :=
  match buildRequest env req with
  | .error e => (none, some e)
  | .ok _ =>
      match env.transport with
      | .error e => (none, some ("error sending request: " ++ e))
      | .ok resp =>
          if resp.StatusCode < 200 ∨ resp.StatusCode ≥ 300 then
            (none, some ("API request failed with status " ++ toString resp.StatusCode ++ ": " ++
              resp.Body))
          else
            match req.Result with
            | none => (none, none)
            | some _ =>
                match env.decode with
                | .error e => (none, some ("error parsing response: " ++ e))
                | .ok v => (v, none)

/-- Library outcomes of a call that is answered with status 200 and a body that
is not JSON; header names and URLs are kept as written. -/
def garbledEnv : CallEnv :=
  { marshalErr := none, newRequestErr := none,
    transport := .ok (HTTPResponse.mk 200 "<html>"),
    decode := .error "invalid character", canonical := fun k => k, parseURL := fun u => u }

/-- A request that asks for the response body to be decoded. -/
def decodingRequest : APIRequest :=
  { Payload := some "status", Result := some "result", ResponseCh := some 0,
    Config := sampleConfig }

/-- A destination config with basic credentials. -/
def basicConfig : APILogRemote :=
  { sampleConfig with APIAuthType := "basic", APIUsername := "agent", APIPassword := "secret" }

/-- A destination config of auth type `bearer` with a token. -/
def bearerConfig : APILogRemote :=
  { sampleConfig with APIAuthType := "bearer", APIKey := "token" }

/-- A destination config of auth type `apikey` with a key and one header. -/
def apikeyConfig : APILogRemote :=
  { sampleConfig with APIAuthType := "apikey", APIKey := "k1",
                      APIHeaders := [APIHeader.mk "Content-Type" "application/json"] }

/-! ## Configuration of the Windows agent (`config.go`) -/

/-- The struct `JarvisAgent`. -/
structure JarvisAgent where
  Name : String
  ID : String
deriving Repr, DecidableEq

/-- The struct `Windowslogs`. -/
structure Windowslogs where
  Enabled : Bool
  APILogRemote : Bool
  Channels : List String
deriving Repr, DecidableEq

/-- The struct `Syslog`. -/
structure Syslog where
  Enabled : Bool
  Protocol : String
  Server : String
  Tag : String
  SkipVerify : Bool
deriving Repr, DecidableEq

/-- The struct `ServiceMonitor`. -/
structure ServiceMonitor where
  Enabled : Bool
  APILogRemote : Bool
  SleepTime : Int
  Services : List String
deriving Repr, DecidableEq

/-- The struct `SystemMonitor`. -/
structure SystemMonitor where
  Enabled : Bool
  APILogRemote : Bool
  SleepTime : Int
  CPU : Bool
  Memory : Bool
  Disk : Bool
  Network : Bool
  Temperature : Bool
deriving Repr, DecidableEq

/-- The struct `WebAPI`; `Body` is `none` for a nil interface value and the map
`Query` is a list of pairs. -/
structure WebAPI where
  Enabled : Bool
  Name : String
  Subject : String
  Endpoint : String
  Method : String
  Headers : List APIHeader
  Query : List (String × String)
  Body : Option String
  AuthType : String
  Username : String
  Password : String
  APIKey : String
  Timeout : Int
  SkipVerify : Bool
  SleepTime : Int
  APILogRemote : Bool
deriving Repr, DecidableEq

/-- The struct `WebMonitor`. -/
structure WebMonitor where
  APILogRemote : Bool
  Enabled : Bool
  SleepTime : Int
  Timeout : Int
  SkipVerify : Bool
  URLs : List String
deriving Repr, DecidableEq

/-- The struct `Config` of the Windows agent. -/
structure Config where
  ServiceMonitor : Jarvis.ServiceMonitor
  Syslog : Jarvis.Syslog
  Windowslogs : Jarvis.Windowslogs
  Filelogs : List String
  Webapi : List Jarvis.WebAPI
  SystemMonitor : Jarvis.SystemMonitor
  APILogRemote : Jarvis.APILogRemote
  WebMonitor : Jarvis.WebMonitor
  JarvisAgent : Jarvis.JarvisAgent
deriving Repr, DecidableEq

/-! ## Messages, payloads and what a monitor does (`logger.go`) -/

/-- The struct `BaseMessage` without its timestamp (`time.Now()`), its field
`Type` written `MsgType`; a value of the map `Data` is held by its JSON text. -/
structure BaseMessage where
  AgentID : String
  AgentName : String
  Source : String
  MsgType : String
  Level : String
  Message : String
  Data : List (String × String)
deriving Repr, DecidableEq

/-- The function `CreateBaseMessage`. -/
def CreateBaseMessage (config : Config) (source msgType level message : String) :
    BaseMessage :=
  { AgentID := config.JarvisAgent.ID, AgentName := config.JarvisAgent.Name, Source := source,
    MsgType := msgType, Level := level, Message := message, Data := [] }

/-- The struct `ServiceStatus` without its timestamp. -/
structure ServiceStatus where
  Name : String
  Status : String
deriving Repr, DecidableEq

/-- The struct `WebStatus` without its timestamp; `Response` is the elapsed time
as `%v` prints it. -/
structure WebStatus where
  URL : String
  Status : String
  StatusCode : Int
  Response : String
deriving Repr, DecidableEq

/-- The struct `SystemMetrics` without its timestamp: each section holds the
sampled values as text, `none` for a section left at its zero value; the CPU
section pairs the usage values with the count. -/
structure SystemMetrics where
  CPU : Option (String × Int)
  Memory : Option String
  Network : Option String
  Temperature : Option String
deriving Repr, DecidableEq

/-- The values handed to `SendRequest` as payload by the agent. -/
inductive Payload where
  | serviceStatus (s : ServiceStatus)
  | webStatus (s : WebStatus)
  | metrics (m : SystemMetrics)
  | message (m : BaseMessage)
deriving Repr, DecidableEq

/-- What a monitor function does that the rest of the agent can observe:
`log` is a call of `logger.Log`, `printf` a call of `log.Printf` with the
formatted line, `submit` a call of `apiClient.SendRequest`. -/
inductive Effect where
  | log (source level message : String)
  | printf (line : String)
  | submit (payload : Payload) (config : APILogRemote)
deriving Repr, DecidableEq

/-- An effect is a delivery request handed to the dispatcher. -/
def Effect.isSubmit : Effect → Bool
  | .submit _ _ => true
  | _ => false

/-- An effect is a call of `logger.Log`. -/
def Effect.isLog : Effect → Bool
  | .log _ _ _ => true
  | _ => false

/-! ## Waiting on the channel returned by `SendRequest` -/

/-- The cases a caller may put in the `select` that waits for a response. -/
inductive WaitCase where
  | response
  | shutdown
  | timeout
deriving Repr, DecidableEq

/-- What the waiting caller finds at a moment of its wait: the state of the
response channel, whether the shutdown signal (`ctx.Done()` or `stopChan`) is
raised, the whole seconds elapsed since the wait began, and the choice the runtime
makes among the cases that can proceed. -/
structure WaitEnv where
  ch : Chan APIResponse
  shutdown : Bool
  elapsed : Nat
  pick : Nat
deriving Repr, DecidableEq

/-- The cases among `cases` that can proceed; `time.After(5 * time.Second)`
delivers once five seconds have elapsed. -/
def waitReady (cases : List WaitCase) (env : WaitEnv) : List WaitCase :=
  cases.filter fun c =>
    match c with
    | .response => env.ch.canRecv
    | .shutdown => env.shutdown
    | .timeout => decide (5 ≤ env.elapsed)

/-- A blocking `select` over `cases` (a plain receive `<-responseCh` is the one
with the single case `response`): the case that runs, `none` while none can
proceed. -/
def await (cases : List WaitCase) (env : WaitEnv) : Option WaitCase :=
  chooseCase ((waitReady cases env).map some) none env.pick

/-- The value a receive on the response channel yields: the buffered response,
or the zero value when the channel is closed and empty. -/
def received (ch : Chan APIResponse) : APIResponse :=
  ch.buf.headD { Error := none, Data := none }

/-- The functions that wait on a channel returned by `SendRequest`. -/
inductive Caller where
  | checkService
  | checkWebsite
  | monitorSystem
  | processEvent
  | SendLogMessage
deriving Repr, DecidableEq

/-- The cases of each caller's wait, as written in its source: four callers use
a `select` over the response, the shutdown signal and `time.After`, and
`SendLogMessage` uses the plain receive `response := <-responseCh`. -/
def Caller.waitCases : Caller → List WaitCase
  | .checkService => [.response, .shutdown, .timeout]
  | .checkWebsite => [.response, .shutdown, .timeout]
  | .monitorSystem => [.response, .shutdown, .timeout]
  | .processEvent => [.response, .shutdown, .timeout]
  | .SendLogMessage => [.response]

/-- Whether a function call has returned or is still blocked in its wait. -/
inductive Flow where
  | returned
  | waiting
deriving Repr, DecidableEq

/-- How one pass through the body of a monitor loop ends: the loop goes on to
its next iteration, the monitor function returns, or the pass is still blocked. -/
inductive Loop where
  | continues
  | returns
  | waiting
deriving Repr, DecidableEq

/-- The function `SendLogMessage`. -/
def SendLogMessage (config : Config) (msg : BaseMessage) (env : WaitEnv) :
    List Effect × Flow :=
  if !config.APILogRemote.Enabled then ([], .returned)
  else
    match await (Caller.waitCases .SendLogMessage) env with
    | none => ([.submit (.message msg) config.APILogRemote], .waiting)
    | some _ =>
        match (received env.ch).Error with
        | some e =>
            ([.submit (.message msg) config.APILogRemote,
              .printf ("[API][ERROR] Failed to send event: " ++ e)], .returned)
        | none => ([.submit (.message msg) config.APILogRemote], .returned)

/-! ## The service monitor (`servicemonitor.go`) -/

/-- The function `getServiceStateString`. -/
def getServiceStateString (state : Nat) : String :=
  if state = 4 then "Running"
  else if state = 1 then "Stopped"
  else if state = 2 then "Starting"
  else if state = 3 then "Stopping"
  else if state = 5 then "Pausing"
  else if state = 6 then "Paused"
  else if state = 7 then "Resuming"
  else "Unknown"

/-- The outcomes of the library calls of one `checkService`: the errors of
`mgr.Connect` and `OpenService`, what `Query` returns (the state), what
`json.Marshal` gives for the status, and the wait on the response channel. -/
structure ServiceEnv where
  connectErr : Option String
  openErr : Option String
  query : Except String Nat
  marshal : ServiceStatus → Except String String
  wait : WaitEnv

/-- The function `checkService`. -/
def checkService (serviceName : String) (config : Config) (env : ServiceEnv) :
    List Effect × Flow :=
  match env.connectErr with
  | some e =>
      ([.log "Service" "ERROR" ("Failed to connect to service manager: " ++ e)], .returned)
  | none =>
  match env.openErr with
  | some e =>
      ([.log "Service" "ERROR" ("Failed to open service " ++ serviceName ++ ": " ++ e)],
        .returned)
  | none =>
  match env.query with
  | .error e =>
      ([.log "Service" "ERROR" ("Failed to query service " ++ serviceName ++ ": " ++ e)],
        .returned)
  | .ok state =>
  let serviceStatus : ServiceStatus :=
    { Name := serviceName, Status := getServiceStateString state }
  match env.marshal serviceStatus with
  | .error e =>
      ([.log "Service" "ERROR" ("Failed to marshal service status: " ++ e)], .returned)
  | .ok jsonStatus =>
  if config.ServiceMonitor.APILogRemote then
    let sent : List Effect :=
      [.log "Service" "INFO" jsonStatus, .submit (.serviceStatus serviceStatus) config.APILogRemote]
    match await (Caller.waitCases .checkService) env.wait with
    | none => (sent, .waiting)
    | some .response =>
        match (received env.wait.ch).Error with
        | some e =>
            (sent ++ [.log "API" "ERROR"
              ("Failed to send status for " ++ serviceName ++ ": " ++ e)], .returned)
        | none => (sent, .returned)
    | some .shutdown => (sent, .returned)
    | some .timeout =>
        (sent ++ [.log "API" "ERROR" "Timeout waiting for API response"], .returned)
  else ([.log "Service" "INFO" jsonStatus], .returned)

/-- The body of the ticker case of `monitorServices`: the loop over the
services.  For each service `env` gives whether `ctx.Done()` is closed when the
inner `select` runs, and the outcomes of its check. -/
def monitorServicesTick (config : Config) (env : String → Bool × ServiceEnv) :
    List String → List Effect × Loop
  | [] => ([], .continues)
  | service :: rest =>
      if (env service).1 then ([], .returns)
      else
        match checkService service config (env service).2 with
        | (fx, .waiting) => (fx, .waiting)
        | (fx, .returned) =>
            ((fx ++ (monitorServicesTick config env rest).1),
              (monitorServicesTick config env rest).2)

/-- The loop around a `select` shared by the periodic monitors: each
iteration either takes the case `ctx.Done()` (`none`: the line is printed and
the function returns) or the ticker case (`some t`, running the body on `t`).
With the iterations exhausted the monitor is in its loop, waiting at the
`select`. -/
def periodic {τ : Type} (shutdownLine : String) (body : τ → List Effect × Loop) :
    List (Option τ) → List Effect × Loop
  | [] => ([], .continues)
  | none :: _ => ([.printf shutdownLine], .returns)
  | some t :: rest =>
      match body t with
      | (fx, .continues) =>
          (fx ++ (periodic shutdownLine body rest).1, (periodic shutdownLine body rest).2)
      | (fx, .returns) => (fx, .returns)
      | (fx, .waiting) => (fx, .waiting)

/-- The function `monitorServices`, over the iterations of its loop. -/
def monitorServices (services : List String) (config : Config)
    (iterations : List (Option (String → Bool × ServiceEnv))) : List Effect × Loop :=
  periodic "Service monitor shutting down..."
    (fun env => monitorServicesTick config env services) iterations

/-! ## The system monitor (`systemmonitor.go`) -/

/-- The outcomes of the library calls of one `collectMetrics`, each an error
or the sampled values as text; `ioCounters` is `none` for an empty result; and
the wait of `SendLogMessage`. -/
structure MetricsEnv where
  cpuPercent : Except String String
  cpuCounts : Except String Int
  virtualMemory : Except String String
  ioCounters : Except String (Option String)
  sensorsTemperatures : Except String String
  wait : WaitEnv

/-- How `collectMetrics` ends: with the metrics, with an error, or blocked. -/
inductive Collected where
  | metrics (m : SystemMetrics)
  | failed (err : String)
  | waiting
deriving Repr, DecidableEq

/-- The CPU section of `collectMetrics`. -/
def collectCPU (config : Config) (env : MetricsEnv) : Except String (Option (String × Int)) :=
  if config.SystemMonitor.CPU then
    match env.cpuPercent with
    | .error e => .error ("error getting CPU metrics: " ++ e)
    | .ok cpuPercent =>
        match env.cpuCounts with
        | .error e => .error ("error getting CPU count: " ++ e)
        | .ok count => .ok (some (cpuPercent, count))
  else .ok none

/-- The memory section of `collectMetrics`. -/
def collectMemory (config : Config) (env : MetricsEnv) : Except String (Option String) :=
  if config.SystemMonitor.Memory then
    match env.virtualMemory with
    | .error e => .error ("error getting memory metrics: " ++ e)
    | .ok vmStat => .ok (some vmStat)
  else .ok none

/-- The network section of `collectMetrics`. -/
def collectNetwork (config : Config) (env : MetricsEnv) : Except String (Option String) :=
  if config.SystemMonitor.Network then
    match env.ioCounters with
    | .error e => .error ("error getting network metrics: " ++ e)
    | .ok netIO => .ok netIO
  else .ok none

/-- The temperature section of `collectMetrics`: a failure is logged and the
section left empty. -/
def collectTemperature (config : Config) (env : MetricsEnv) : List Effect × Option String :=
  if config.SystemMonitor.Temperature then
    match env.sensorsTemperatures with
    | .error e =>
        ([.log "Metrics" "WARN" ("Failed to get temperature metrics: " ++ e)], none)
    | .ok temps => ([], some temps)
  else ([], none)

/-- The data `collectMetrics` puts in its base message: the CPU and the memory
sections, when sampled. -/
def metricsData (cpu : Option (String × Int)) (memory : Option String) :
    List (String × String) :=
  (match cpu with
   | some c => [("cpu", c.1 ++ " " ++ toString c.2)]
   | none => []) ++
  (match memory with
   | some m => [("memory", m)]
   | none => [])

/-- The function `collectMetrics`. -/
def collectMetrics (config : Config) (env : MetricsEnv) : List Effect × Collected :=
  match collectCPU config env with
  | .error e => ([], .failed e)
  | .ok cpu =>
  match collectMemory config env with
  | .error e => ([], .failed e)
  | .ok memory =>
  match collectNetwork config env with
  | .error e => ([], .failed e)
  | .ok network =>
  let temperature := collectTemperature config env
  let baseMsg : BaseMessage :=
    { CreateBaseMessage config "system_monitor" "metrics" "info" "System metrics collected"
      with Data := metricsData cpu memory }
  match SendLogMessage config baseMsg env.wait with
  | (fx, .waiting) => (temperature.1 ++ fx, .waiting)
  | (fx, .returned) =>
      (temperature.1 ++ fx,
        .metrics { CPU := cpu, Memory := memory, Network := network,
                   Temperature := temperature.2 })

/-- The outcomes of one pass through the ticker case of `monitorSystem`. -/
structure SystemEnv where
  metrics : MetricsEnv
  marshal : SystemMetrics → Except String String
  wait : WaitEnv

/-- The body of the ticker case of `monitorSystem`. -/
def monitorSystemTick (config : Config) (env : SystemEnv) : List Effect × Loop :=
  match collectMetrics config env.metrics with
  | (fx, .waiting) => (fx, .waiting)
  | (fx, .failed err) =>
      (fx ++ [.log "Metrics" "ERROR" ("Failed to collect metrics: " ++ err)], .continues)
  | (fx, .metrics metrics) =>
  match env.marshal metrics with
  | .error e =>
      (fx ++ [.log "Metrics" "ERROR" ("Failed to marshal metrics: " ++ e)], .continues)
  | .ok jsonMetrics =>
  if config.SystemMonitor.APILogRemote then
    let sent : List Effect :=
      fx ++ [.log "Metrics" "INFO" jsonMetrics, .submit (.metrics metrics) config.APILogRemote]
    match await (Caller.waitCases .monitorSystem) env.wait with
    | none => (sent, .waiting)
    | some .response =>
        match (received env.wait.ch).Error with
        | some e => (sent ++ [.log "API" "ERROR" e], .continues)
        | none => (sent, .continues)
    | some .shutdown => (sent, .returns)
    | some .timeout =>
        (sent ++ [.log "API" "ERROR" "Timeout waiting for API response"], .returns)
  else (fx ++ [.log "Metrics" "INFO" jsonMetrics], .continues)

/-- The function `monitorSystem`, over the iterations of its loop. -/
def monitorSystem (config : Config) (iterations : List (Option SystemEnv)) :
    List Effect × Loop :=
  periodic "System monitor shutting down..." (monitorSystemTick config) iterations

/-! ## The web monitor (`webmonitor.go`) -/

/-- The outcomes of the library calls of one `checkWebsite`: the error of
`http.NewRequestWithContext`, what `client.Do` returns (the status code), the
elapsed time as `%v` prints it, what `json.Marshal` gives for the status, and the
wait on the response channel. -/
structure WebEnv where
  newRequestErr : Option String
  response : Except String Int
  elapsed : String
  marshal : WebStatus → Except String String
  wait : WaitEnv

/-- The status `checkWebsite` records for what `client.Do` returned, with the
record it logs. -/
def webStatusOf (url : String) (env : WebEnv) : WebStatus × Effect :=
  match env.response with
  | .error e =>
      ({ URL := url, Status := "Down", StatusCode := 0, Response := env.elapsed },
        .log "WebMonitor" "ERROR" ("Failed to connect to " ++ url ++ ": " ++ e))
  | .ok code =>
      if code ≥ 400 then
        ({ URL := url, Status := "Error", StatusCode := code, Response := env.elapsed },
          .log "WebMonitor" "WARN" (url ++ " returned status code " ++ toString code))
      else
        ({ URL := url, Status := "Up", StatusCode := code, Response := env.elapsed },
          .log "WebMonitor" "INFO" (url ++ " is up (response time: " ++ env.elapsed ++ ")"))

/-- The function `checkWebsite`. -/
def checkWebsite (url : String) (config : Config) (env : WebEnv) : List Effect × Flow :=
  match env.newRequestErr with
  | some e =>
      ([.log "WebMonitor" "ERROR" ("Failed to create request for " ++ url ++ ": " ++ e)],
        .returned)
  | none =>
  let status := (webStatusOf url env).1
  match env.marshal status with
  | .error e =>
      ([(webStatusOf url env).2,
        .log "WebMonitor" "ERROR" ("Failed to marshal status: " ++ e)], .returned)
  | .ok jsonStatus =>
  if config.WebMonitor.APILogRemote then
    let sent : List Effect :=
      [(webStatusOf url env).2, .log "WebMonitor" "INFO" jsonStatus,
        .submit (.webStatus status) config.APILogRemote]
    match await (Caller.waitCases .checkWebsite) env.wait with
    | none => (sent, .waiting)
    | some .response =>
        match (received env.wait.ch).Error with
        | some e =>
            (sent ++ [.log "API" "ERROR" ("Failed to send status for " ++ url ++ ": " ++ e)],
              .returned)
        | none => (sent, .returned)
    | some .shutdown => (sent, .returned)
    | some .timeout =>
        (sent ++ [.log "API" "ERROR" "Timeout waiting for API response"], .returned)
  else ([(webStatusOf url env).2, .log "WebMonitor" "INFO" jsonStatus], .returned)

/-- One pass through the ticker case of `monitorWebsites`: for each site
whether `ctx.Done()` is closed when its goroutine starts and the outcomes of its
check, then whether `ctx.Done()` is closed at the final `select` and the choice
made there. -/
structure WebTickEnv where
  site : String → Bool × WebEnv
  cancelled : Bool
  pick : Nat

/-- The goroutine `monitorWebsites` starts for one site. -/
def siteCheck (config : Config) (env : WebTickEnv) (url : String) : List Effect × Flow :=
  if (env.site url).1 then ([], .returned) else checkWebsite url config (env.site url).2

/-- The body of the ticker case of `monitorWebsites`.  The checks run
concurrently; their records are listed site by site.  The final `select` has
the case `done`, ready when every check has returned, and the case `ctx.Done()`. -/
def monitorWebsitesTick (config : Config) (env : WebTickEnv) : List Effect × Loop :=
  let checks := config.WebMonitor.URLs.map (siteCheck config env)
  let ready : List Loop :=
    (if checks.all (fun r => decide (r.2 = Flow.returned)) then [Loop.continues] else []) ++
    (if env.cancelled then [Loop.returns] else [])
  ((checks.map Prod.fst).flatten, chooseCase ready Loop.waiting env.pick)

/-- The function `monitorWebsites`, over the iterations of its loop. -/
def monitorWebsites (config : Config) (iterations : List (Option WebTickEnv)) :
    List Effect × Loop :=
  periodic "Web monitor shutting down..." (monitorWebsitesTick config) iterations

/-! ## The web-API monitor (`webapi.go`) -/

/-- The struct `WebAPIResponse` without its timestamp; `Duration` is the number
as `%.2f` prints it, and a value of the map `Data` is held by its text. -/
structure WebAPIResponse where
  Name : String
  Subject : String
  Status : Int
  Duration : String
  Data : List (String × String)
deriving Repr, DecidableEq

/-- The outcomes met by `sendToOutputs`: what `json.Marshal` gives for the
response (its error is discarded there), and the wait of `SendLogMessage`. -/
structure OutputEnv where
  marshal : WebAPIResponse → String
  wait : WaitEnv

/-- The first step of `sendToOutputs`: the check is forwarded with
`SendLogMessage` when the endpoint asks for it. -/
def remoteOutput (config : Config) (api : WebAPI) (response : WebAPIResponse)
    (env : OutputEnv) : List Effect × Flow :=
  if api.APILogRemote then
    SendLogMessage config
      { CreateBaseMessage config "webapi" "api_check" "info"
          ("API check for " ++ api.Name ++ " completed")
        with Data := [("response", env.marshal response)] } env.wait
  else ([], .returned)

/-- The records `sendToOutputs` writes after that step: the response for
syslog when syslog is enabled, and the status line. -/
def localOutput (config : Config) (api : WebAPI) (response : WebAPIResponse)
    (env : OutputEnv) : List Effect :=
  (if config.Syslog.Enabled then [Effect.log "WebAPI" "INFO" (env.marshal response)]
   else []) ++
  [.log "WebAPI" (if response.Status ≥ 400 then "ERROR" else "INFO")
    (api.Name ++ " [" ++ toString response.Status ++ "] - " ++ response.Duration ++ "s")]

/-- The method `sendToOutputs`. -/
def sendToOutputs (config : Config) (api : WebAPI) (response : WebAPIResponse)
    (env : OutputEnv) : List Effect × Flow :=
  match remoteOutput config api response env with
  | (fx, .waiting) => (fx, .waiting)
  | (fx, .returned) => (fx ++ localOutput config api response env, .returned)

/-- The method `handleError`; the duration of the record is the zero value. -/
def handleError (config : Config) (api : WebAPI) (err : String) (env : OutputEnv) :
    List Effect × Flow :=
  sendToOutputs config api
    { Name := api.Name, Subject := api.Subject, Status := -1, Duration := "0.00",
      Data := [("error", err)] } env

/-- The outcomes of the library calls of one `checkEndpoint`: the errors of
`json.Marshal` and `http.NewRequest`, what `client.Do` returns (the status
code), what reading the body gives (the response data), the duration as `%.2f`
prints it, and the outcomes met by `sendToOutputs`. -/
structure EndpointEnv where
  marshalErr : Option String
  newRequestErr : Option String
  response : Except String Int
  body : Except String (List (String × String))
  duration : String
  out : OutputEnv

/-- The error of marshaling the body, which `checkEndpoint` does only for a
body that is not nil. -/
def bodyError (api : WebAPI) (env : EndpointEnv) : Option String :=
  match api.Body with
  | some _ => env.marshalErr
  | none => none

/-- The error with which the sample query of `checkEndpoint` fails, `none`
when it obtains a response and reads its body. -/
def EndpointEnv.failure (env : EndpointEnv) (api : WebAPI) : Option String :=
  match bodyError api env with
  | some e => some ("error marshaling body: " ++ e)
  | none =>
  match env.newRequestErr with
  | some e => some ("error creating request: " ++ e)
  | none =>
  match env.response with
  | .error e => some ("request failed: " ++ e)
  | .ok _ =>
  match env.body with
  | .error e => some ("error reading response: " ++ e)
  | .ok _ => none

/-- The method `checkEndpoint`, as far as its log records and delivery requests
go: the request it builds and sends is represented by its outcomes in `env`. -/
def checkEndpoint (config : Config) (api : WebAPI) (env : EndpointEnv) : List Effect × Flow :=
  match bodyError api env with
  | some e => handleError config api ("error marshaling body: " ++ e) env.out
  | none =>
  match env.newRequestErr with
  | some e => handleError config api ("error creating request: " ++ e) env.out
  | none =>
  match env.response with
  | .error e => handleError config api ("request failed: " ++ e) env.out
  | .ok code =>
  match env.body with
  | .error e => handleError config api ("error reading response: " ++ e) env.out
  | .ok responseData =>
      sendToOutputs config api
        { Name := api.Name, Subject := api.Subject, Status := code, Duration := env.duration,
          Data := responseData } env.out

/-! ## Windows event forwarding (`windowslogs.go`) -/

/-- The function `getLevelString`. -/
def getLevelString (level : String) : String :=
  if level = "1" then "Critical"
  else if level = "2" then "Error"
  else if level = "3" then "Warning"
  else if level = "4" then "Information"
  else if level = "5" then "Verbose"
  else "Unknown"

/-- The fields of a `wevtapi.XMLEvent` that `processEvent` reads. -/
structure XMLEvent where
  Level : String
  Computer : String
deriving Repr, DecidableEq

/-- The outcomes of the library calls of one `processEvent`: the errors of the
first `json.Marshal` and of `json.Unmarshal`, what `json.Marshal` gives for the
Windows event of a channel, and the wait on the response channel. -/
structure EventEnv where
  marshalErr : Option String
  unmarshalErr : Option String
  marshalEvent : String → Except String String
  wait : WaitEnv

/-- The records `processEvent` writes once the delivery step is over: the
syslog forward. -/
def forwardSyslog (config : Config) (evt : XMLEvent) (jsonEvent : String) : List Effect :=
  if config.Syslog.Enabled then [.log "Syslog" (getLevelString evt.Level) jsonEvent] else []

/-- The function `processEvent`: what it does, whether it has returned, and
the error it returns. -/
def processEvent (evt : XMLEvent) (channel : String) (config : Config) (env : EventEnv) :
    List Effect × Flow × Option String :=
  match env.marshalErr with
  | some e => ([], .returned, some ("failed to marshal event: " ++ e))
  | none =>
  match env.unmarshalErr with
  | some e => ([], .returned, some ("failed to unmarshal event: " ++ e))
  | none =>
  match env.marshalEvent channel with
  | .error e => ([], .returned, some ("failed to marshal event: " ++ e))
  | .ok jsonEvent =>
  if config.Windowslogs.APILogRemote then
    let baseMsg : BaseMessage :=
      { CreateBaseMessage config "windows_logs" "event" (getLevelString evt.Level) evt.Computer
        with Data := [("event", jsonEvent)] }
    let sent : List Effect :=
      [.log "WindowsLogs" "INFO" jsonEvent, .submit (.message baseMsg) config.APILogRemote]
    match await (Caller.waitCases .processEvent) env.wait with
    | none => (sent, .waiting, none)
    | some .response =>
        match (received env.wait.ch).Error with
        | some e =>
            (sent ++ [.log "API" "ERROR" ("Failed to send event: " ++ e)] ++
              forwardSyslog config evt jsonEvent, .returned, none)
        | none => (sent ++ forwardSyslog config evt jsonEvent, .returned, none)
    | some .shutdown => (sent, .returned, none)
    | some .timeout =>
        (sent ++ [.log "API" "ERROR" "Timeout waiting for API response"], .returned, none)
  else
    ([.log "WindowsLogs" "INFO" jsonEvent] ++ forwardSyslog config evt jsonEvent, .returned,
      none)

/-! ## Sample configurations and environments of the monitors -/

/-- A wait during which nothing is ever written to the response channel and it
is never closed. -/
def silentWait (shutdown : Bool) (elapsed pick : Nat) : WaitEnv :=
  { ch := Chan.make 1, shutdown := shutdown, elapsed := elapsed, pick := pick }

/-- A wait that finds the response `r` on the channel at once. -/
def answeredWait (r : APIResponse) : WaitEnv :=
  { ch := Chan.mk [r] 1 true, shutdown := false, elapsed := 0, pick := 0 }

/-- A wait on the closed, empty channel of a dropped request. -/
def droppedWait : WaitEnv :=
  { ch := Chan.mk [] 1 true, shutdown := false, elapsed := 0, pick := 0 }

/-- The response of a successful delivery. -/
def okResponse : APIResponse := { Error := none, Data := none }

/-- The response of a delivery the collector refused. -/
def refusedResponse : APIResponse :=
  { Error := some "API request failed with status 503: busy", Data := none }

/-- An endpoint of the web-API monitor that forwards its checks. -/
def ordersAPI : WebAPI :=
  { Enabled := true, Name := "orders", Subject := "shop", Endpoint := "http://shop/orders",
    Method := "GET", Headers := [], Query := [], Body := none, AuthType := "",
    Username := "", Password := "", APIKey := "", Timeout := 5, SkipVerify := false,
    SleepTime := 60, APILogRemote := true }

/-- A configuration with every monitor enabled and forwarding to the collector,
syslog disabled, and no metric section selected. -/
def remoteConfig : Config :=
  { ServiceMonitor := ServiceMonitor.mk true true 30 ["Spooler"],
    Syslog := Syslog.mk false "udp" "" "" false,
    Windowslogs := Windowslogs.mk true true ["System"],
    Filelogs := [],
    Webapi := [ordersAPI],
    SystemMonitor := SystemMonitor.mk true true 60 false false false false false,
    APILogRemote := sampleConfig,
    WebMonitor := WebMonitor.mk true true 60 10 false ["http://shop"],
    JarvisAgent := JarvisAgent.mk "agent" "a1" }

/-- A service check whose queries succeed, the service running. -/
def runningService (wait : WaitEnv) : ServiceEnv :=
  { connectErr := none, openErr := none, query := .ok 4,
    marshal := fun s => .ok (s.Name ++ "=" ++ s.Status), wait := wait }

/-- A service check that cannot open the service. -/
def deniedService : ServiceEnv :=
  { connectErr := none, openErr := some "Access is denied.", query := .ok 4,
    marshal := fun s => .ok (s.Name ++ "=" ++ s.Status), wait := answeredWait okResponse }

/-- A metrics sample whose queries succeed and whose log message is delivered. -/
def sampledMetrics : MetricsEnv :=
  { cpuPercent := .ok "12.5", cpuCounts := .ok 4, virtualMemory := .ok "8GB",
    ioCounters := .ok none, sensorsTemperatures := .ok "", wait := answeredWait okResponse }

/-- A pass of the system monitor whose sample succeeds. -/
def systemPass (wait : WaitEnv) : SystemEnv :=
  { metrics := sampledMetrics, marshal := fun _ => .ok "metrics", wait := wait }

/-- A website check that gets status 200. -/
def upSite (wait : WaitEnv) : WebEnv :=
  { newRequestErr := none, response := .ok 200, elapsed := "20ms",
    marshal := fun s => .ok (s.URL ++ "=" ++ s.Status), wait := wait }

/-- A pass of the web monitor with no cancellation. -/
def webPass (wait : WaitEnv) : WebTickEnv :=
  { site := fun _ => (false, upSite wait), cancelled := false, pick := 0 }

/-- An endpoint check whose connection is refused, its log message delivered. -/
def refusedEndpoint : EndpointEnv :=
  { marshalErr := none, newRequestErr := none, response := .error "connection refused",
    body := .ok [], duration := "0.01",
    out := { marshal := fun r => r.Name, wait := answeredWait okResponse } }



/-! ## The syslog forwarder of the Windows logger (`logger.go`, `syslog_client.go`) -/

/-- The constructor `NewSyslogClient`: the client (`none` for nil), the network
calls made, and the error returned. -/
def NewSyslogClient (config : Syslog) (dialErr : Option String) :
    Option SyslogClient × List NetEffect × Option String :=
  let client : SyslogClient :=
    { protocol := config.Protocol, address := config.Server, conn := ConnRef.nil,
      tlsConfig := if config.Protocol = "tcp+tls" then some config.SkipVerify else none }
  match client.connect dialErr with
  | (_, fx, some e) => (none, fx, some e)
  | (c1, fx, none) => (some c1, fx, none)

/-- The constructor `NewLogger` of the Windows agent, as far as the logger value
goes: the logger, the network calls made, and the text printed. -/
def NewLogger (config : Config) (dialErr : Option String) :
    Logger × List NetEffect × List String :=
  if config.Syslog.Enabled then
    match NewSyslogClient config.Syslog dialErr with
    | (some c, fx, none) =>
        ({ logChan := Chan.make 1000, syslogChan := Chan.make 1000, syslogClient := some c },
          fx, [])
    | (_, fx, some e) =>
        ({ logChan := Chan.make 1000, syslogChan := Chan.make 1000, syslogClient := none },
          fx, ["Failed to initialize syslog client: " ++ e ++ "\n"])
    | (none, fx, none) =>
        ({ logChan := Chan.make 1000, syslogChan := Chan.make 1000, syslogClient := none },
          fx, [])
  else
    ({ logChan := Chan.make 1000, syslogChan := Chan.make 1000, syslogClient := none }, [], [])

/-- The body of the loop of `processSyslog` for one record taken from the
syslog buffer: `hostname` is what `os.Hostname()` returned (its error is
discarded) and `now` is `time.Now()`.  Gives the logger, the network calls made
and the text printed. -/
def Logger.processSyslog (l : Logger) (hostname : String) (now : Time) (env : NetEnv)
    (msg : LogMessage) : Res (Logger × List NetEffect × List String) :=
  match l.syslogClient with
  | none => .ok (l, [], [])
  | some c =>
      match c.Write env (getPriority msg.Level) now hostname msg.Source msg.Message with
      | .ok (c1, fx, some e) =>
          .ok ({ l with syslogClient := some c1 }, fx, ["Failed to write to syslog: " ++ e ++ "\n"])
      | .ok (c1, fx, none) => .ok ({ l with syslogClient := some c1 }, fx, [])
      | .blocked => .blocked
      | .panic m => .panic m

/-- A syslog section of the configuration: UDP to `logs:514`, tag `jarvis`. -/
def udpSyslog : Syslog :=
  { Enabled := true, Protocol := "udp", Server := "logs:514", Tag := "jarvis",
    SkipVerify := false }

/-! ## Log rotation (`setupLogging` in `main.go`) -/

/-- The log directory: the content of each file that exists, by name. -/
def Dir : Type := String → Option String

/-- The call `os.Rename(oldName, newName)`, whose error is discarded: nothing
happens when the old file does not exist, and otherwise the content moves to the
new name, replacing what was there. -/
def Dir.rename (d : Dir) (oldName newName : String) : Dir :=
  match d oldName with
  | none => d
  | some c => fun n => if n = newName then some c else if n = oldName then none else d n

/-- The name `fmt.Sprintf("%s.%d", filename, i)`. -/
def rotatedName (filename : String) (i : Nat) : String :=
  filename ++ "." ++ toString i

/-- The loop `for i := n; i > 0; i--` of `setupLogging`, from the directory and
the renames made so far: the file of index `i`, when `os.Stat` finds it, is
renamed to index `i+1`. -/
def rotateLoop (filename : String) : Nat → Dir × List (String × String) →
    Dir × List (String × String)
  | 0, s => s
  | i + 1, (d, moved) =>
      match d (rotatedName filename (i + 1)) with
      | some _ =>
          rotateLoop filename i
            (d.rename (rotatedName filename (i + 1)) (rotatedName filename (i + 1 + 1)),
              moved ++ [(rotatedName filename (i + 1), rotatedName filename (i + 1 + 1))])
      | none => rotateLoop filename i (d, moved)

/-- Lines 148-161 of `setupLogging`: the rotation, giving the directory after it
and the renames made, in order. -/
def rotateLogs (d : Dir) (filename : String) (maxSize : Int) (keepFiles : Int) :
    Dir × List (String × String) :=
  match d filename with
  | none => (d, [])
  | some c =>
      if (c.utf8ByteSize : Int) > maxSize then
        ((rotateLoop filename (keepFiles - 1).toNat (d, [])).1.rename filename
            (filename ++ ".1"),
          (rotateLoop filename (keepFiles - 1).toNat (d, [])).2 ++
            [(filename, filename ++ ".1")])
      else (d, [])

/-- The function `setupLogging`: the directory afterwards, the renames made, and
the error of `os.OpenFile`, which creates the log file when it does not exist. -/
def setupLogging (d : Dir) (filename : String) (maxSize : Int) (keepFiles : Int)
    (openErr : Option String) : Dir × List (String × String) × Option String :=
  match openErr with
  | some e =>
      ((rotateLogs d filename maxSize keepFiles).1, (rotateLogs d filename maxSize keepFiles).2,
        some e)
  | none =>
      ((match (rotateLogs d filename maxSize keepFiles).1 filename with
        | some _ => (rotateLogs d filename maxSize keepFiles).1
        | none => fun n =>
            if n = filename then some "" else (rotateLogs d filename maxSize keepFiles).1 n),
        (rotateLogs d filename maxSize keepFiles).2, none)

/-- The value of a string of decimal digits. -/
def digitsValue (l : List Char) : Nat :=
  l.foldl (fun a c => 10 * a + (c.toNat - 48)) 0

/-- A log directory with a current file of ten bytes and two rotated files. -/
def sampleDir : Dir := fun n =>
  if n = "a.log" then some "0123456789"
  else if n = "a.log.1" then some "old1"
  else if n = "a.log.2" then some "old2"
  else none

/-! ## The event-log monitor and the web-API monitor loops (`windowslogs.go`, `webapi.go`) -/

/-- The goroutine `monitorChannel` starts for one event: `processEvent`, and a
record at level ERROR when it returns an error. -/
def handleEvent (evt : XMLEvent) (channel : String) (config : Config) (env : EventEnv) :
    List Effect × Flow :=
  match processEvent evt channel config env with
  | (fx, .returned, some err) =>
      (fx ++ [.log "WindowsLogs" "ERROR" ("Failed to process event: " ++ err)], .returned)
  | (fx, .returned, none) => (fx, .returned)
  | (fx, .waiting, _) => (fx, .waiting)

/-- One iteration of the loop of `monitorChannel`: the case `stopChan`, a nil
event, or an event; for an event, `stopped` says whether `stopChan` is closed at
the second `select` and `pick` is the choice made there. -/
inductive ChannelStep where
  | stop
  | noEvent
  | event (evt : XMLEvent) (env : EventEnv) (stopped : Bool) (pick : Nat)

/-- The loop of `monitorChannel`, over its iterations. -/
def monitorChannelLoop (channel : String) (config : Config) :
    List ChannelStep → List Effect × Loop
  | [] => ([], .continues)
  | .stop :: _ =>
      ([.log "WindowsLogs" "INFO" ("Stopping monitor for channel: " ++ channel)], .returns)
  | .noEvent :: rest => monitorChannelLoop channel config rest
  | .event evt env stopped pick :: rest =>
      match chooseCase
          ((if (handleEvent evt channel config env).2 = Flow.returned then [Loop.continues]
            else []) ++ (if stopped then [Loop.returns] else [])) Loop.waiting pick with
      | .continues =>
          ((handleEvent evt channel config env).1 ++ (monitorChannelLoop channel config rest).1,
            (monitorChannelLoop channel config rest).2)
      | .returns =>
          ((handleEvent evt channel config env).1 ++
            [.log "WindowsLogs" "INFO" ("Stopping monitor for channel: " ++ channel)], .returns)
      | .waiting => ((handleEvent evt channel config env).1, .waiting)

/-- The function `monitorChannel`. -/
def monitorChannel (channel : String) (config : Config) (steps : List ChannelStep) :
    List Effect × Loop :=
  (.log "WindowsLogs" "INFO" ("Starting monitoring of channel: " ++ channel) ::
    (monitorChannelLoop channel config steps).1, (monitorChannelLoop channel config steps).2)

/-- The `default` arm of the loop of `WebAPIMonitor.Start`: for each enabled
endpoint whose ticker has fired (`env` gives the outcomes of its check, `none`
when the ticker has not fired), `checkEndpoint`. -/
def startPass (config : Config) (env : WebAPI → Option EndpointEnv) :
    List WebAPI → List Effect × Flow
  | [] => ([], .returned)
  | api :: rest =>
      match env api with
      | none => startPass config env rest
      | some e =>
          match checkEndpoint config api e with
          | (fx, .waiting) => (fx, .waiting)
          | (fx, .returned) =>
              (fx ++ (startPass config env rest).1, (startPass config env rest).2)

/-- The loop of `WebAPIMonitor.Start` over its iterations: `none` is the case
`ctx.Done()`, `some env` the `default` arm. -/
def startLoop (config : Config) (tickers : List WebAPI) :
    List (Option (WebAPI → Option EndpointEnv)) → List Effect × Loop
  | [] => ([], .continues)
  | none :: _ => ([.log "WebAPI" "INFO" "Stopping all API monitors..."], .returns)
  | some env :: rest =>
      match startPass config env tickers with
      | (fx, .waiting) => (fx, .waiting)
      | (fx, .returned) =>
          (fx ++ (startLoop config tickers rest).1, (startLoop config tickers rest).2)

/-- The method `WebAPIMonitor.Start`. -/
def WebAPIMonitor.Start (config : Config)
    (iterations : List (Option (WebAPI → Option EndpointEnv))) : List Effect × Loop :=
  if (config.Webapi.filter (fun api => api.Enabled)).length = 0 then
    ([.log "WebAPI" "INFO" "No enabled APIs to monitor"], .returns)
  else startLoop config (config.Webapi.filter (fun api => api.Enabled)) iterations

/-- The levels of a log record. -/
def logLevels : List String := ["DEBUG", "INFO", "WARN", "ERROR"]

/-- An effect is not a call of `logger.Log`, or is one with a level among
`logLevels`. -/
def Effect.levelOK : Effect → Bool
  | .log _ level _ => logLevels.contains level
  | _ => true

/-- An effect is the record `processEvent` writes for syslog: source `Syslog`
and the level name of a Windows event. -/
def Effect.syslogForward (e : Effect) : Prop :=
  ∃ l message, e = .log "Syslog" (getLevelString l) message

/-- A configuration that forwards Windows events to syslog only. -/
def syslogOnlyConfig : Config :=
  { remoteConfig with
    Syslog := Syslog.mk true "udp" "logs:514" "jarvis" false,
    Windowslogs := Windowslogs.mk true false ["System"] }

/-- The outcomes of processing an event that marshals without error. -/
def plainEvent : EventEnv :=
  { marshalErr := none, unmarshalErr := none, marshalEvent := fun ch => .ok ("event@" ++ ch),
    wait := answeredWait okResponse }



/-- A three-worker dispatcher, made with nothing else counted on its WaitGroup,
whose request queue holds the `n` requests sent so far. -/
def queuedWorld (n : Nat) : World :=
  { client := { requestCh := some (Chan.mk ((List.range n).map sampleRequest) 1000 false),
                workers := 3, wg := 3, cancelled := false },
    pool := List.replicate 3 Worker.idle,
    chans := List.replicate n RespChan.fresh,
    closer := Closer.idle }

/-- The dispatcher `fullWorld` while `Close` runs: `cancel()` and
`close(c.requestCh)` are done, the field is not yet nil, and the queue still
holds its 1000 requests. -/
def closingFullWorld : World :=
  { client := { requestCh := some (Chan.mk ((List.range 1000).map sampleRequest) 1000 true),
                workers := 3, wg := 3, cancelled := true },
    pool := List.replicate 3 Worker.idle,
    chans := List.replicate 1000 RespChan.fresh,
    closer := Closer.afterClose }

/-- The actions of one call of `Close`, in program order: line 177 is run only
when the nil test of line 175 finds a channel. -/
def closeEvents (w : World) : List Event :=
  match w.client.requestCh with
  | none => [Event.closeCancel, Event.closeChannel, Event.closeWait]
  | some _ => [Event.closeCancel, Event.closeChannel, Event.closeClear, Event.closeWait]

/-- A one-worker dispatcher, made while `wg0` other tasks are counted on the
WaitGroup, with one request queued and its worker at the `select`. -/
def pendingWorld (wg0 : Nat) : World :=
  { client := { requestCh := some (Chan.mk [sampleRequest 0] 1000 false), workers := 1,
                wg := (wg0 : Int) + 1, cancelled := false },
    pool := [Worker.idle],
    chans := [RespChan.fresh],
    closer := Closer.idle }

/-- The dispatcher `pendingWorld 0` after a `Close` during which the worker
returned: the response channel of the queued request is still untouched. -/
def closedOneWorld : World :=
  { client := { requestCh := none, workers := 1, wg := 0, cancelled := true },
    pool := [Worker.exited],
    chans := [RespChan.fresh],
    closer := Closer.idle }

/-- Of the files that load and give the unit name `name`, the path of the last
one in the order of loading. -/
def lastLoaded (files : List PluginFile) (name : String) : Option String :=
  (files.reverse.find? (fun f => f.loads && f.name == name)).map PluginFile.path

/-- A second plugin file, another build of the plugin in `goodFile`: it loads
and its unit reports the same name. -/
def rebuiltFile : PluginFile := { goodFile with path := "plugins/metric-v2.so" }



/-! ## Invariants -/

/-- The control state of `Close` and the request channel agree: the channel is
only closed or cleared after `cancel()`, and it keeps the capacity it was made
with. -/
structure QueueInv (w : World) : Prop where
  cap : ∀ ch, w.client.requestCh = some ch → ch.cap = 1000
  live : w.client.cancelled = false →
    w.closer = Closer.idle ∧ ∃ ch, w.client.requestCh = some ch ∧ ch.closed = false

/-- The request a worker goroutine holds: the one it dequeued and has not yet
answered. -/
def Worker.req? : Worker → Option APIRequest
  | Worker.calling r => some r
  | Worker.writing r _ => some r
  | _ => none

/-- The request held by worker `i` of a pool, if any. -/
def heldAt (pool : List Worker) (i : Nat) : Option APIRequest :=
  (pool[i]?).bind Worker.req?

/-- The response channel of request `r` exists and nobody has touched it. -/
def World.untouched (w : World) (r : APIRequest) : Prop :=
  ∃ id, r.ResponseCh = some id ∧ w.chans[id]? = some RespChan.fresh

/-- Ownership of response channels: every channel is fresh, dropped by
`SendRequest`, or answered by one worker; the requests that are queued or held by
a worker have untouched channels, and no two of them share a channel. -/
structure ChanInv (w : World) : Prop where
  shape : ∀ (id : Nat) (rc : RespChan), w.chans[id]? = some rc →
    rc = RespChan.fresh ∨ rc = RespChan.dropped ∨ ∃ i r, rc = RespChan.answered i r
  queued : ∀ r ∈ w.queue, w.untouched r
  held : ∀ i r, heldAt w.pool i = some r → w.untouched r
  nodup : (w.queue.map APIRequest.ResponseCh).Nodup
  apart : ∀ i r, heldAt w.pool i = some r → ∀ q ∈ w.queue, q.ResponseCh ≠ r.ResponseCh
  distinct : ∀ i j ri rj, i ≠ j → heldAt w.pool i = some ri → heldAt w.pool j = some rj →
    ri.ResponseCh ≠ rj.ResponseCh

/-- Cancellation is raised, response channel `id` is untouched, and no worker is
in the `default` arm about to answer on it. -/
def World.silent (w : World) (id : Nat) : Prop :=
  w.client.cancelled = true ∧ w.chans[id]? = some RespChan.fresh ∧
  ∀ (i : Nat) (req : APIRequest) (resp : APIResponse),
    w.pool[i]? = some (Worker.writing req resp) → req.ResponseCh ≠ some id

/-- Accounting of `Close`: every running worker is counted on the WaitGroup;
`Close` waits with the queue field already nil; and once a `Close` has returned
the field is nil and the counter is zero. -/
structure CloseInv (w : World) : Prop where
  counter : ∃ base : Nat, w.client.wg = (base : Int) + liveWorkers w.pool
  waiting : w.closer = Closer.waiting → w.client.requestCh = none
  returned : w.closer = Closer.idle → w.client.cancelled = true →
    w.client.requestCh = none ∧ w.client.wg = 0

/-- Every request that is queued or held by a worker has a nil `Result`. -/
structure ResultInv (w : World) : Prop where
  queued : ∀ r ∈ w.queue, r.Result = none
  held : ∀ i r, heldAt w.pool i = some r → r.Result = none

/-- The dispatcher is shut: cancellation is raised and the queue field is nil. -/
def World.shut (w : World) : Prop :=
  w.client.cancelled = true ∧ w.client.requestCh = none

/-! ## Basic facts about `select` and reachable states -/

theorem chooseCase_nil {γ : Type} (d : γ) (pick : Nat) : chooseCase [] d pick = d := by
  simp [chooseCase]

theorem chooseCase_singleton {γ : Type} (a d : γ) (pick : Nat) :
    chooseCase [a] d pick = a := by
  simp [chooseCase, Nat.mod_one]

theorem chooseCase_mem {γ : Type} (ready : List γ) (d : γ) (pick : Nat) :
    chooseCase ready d pick ∈ ready ∨ (ready = [] ∧ chooseCase ready d pick = d) := by
  cases ready with
  | nil => right; simp [chooseCase]
  | cons a l =>
    left
    unfold chooseCase
    have h : pick % (a :: l).length < (a :: l).length := Nat.mod_lt _ (by simp)
    rw [List.getD_eq_getElem _ _ h]
    exact List.getElem_mem h

theorem queueInv_init (n wg0 : Nat) : QueueInv (NewAPIClient n wg0) := by
  constructor
  · intro ch h
    simp [NewAPIClient, Chan.make] at h
    simp [← h]
  · intro _
    exact ⟨rfl, _, rfl, rfl⟩

/-! ## Inversion of the atomic actions -/

theorem workerReturn_ok {w w1 : World} {i : Nat} (h : workerReturn w i = .ok w1) :
    0 < w.client.wg ∧
    w1 = { w with client := { w.client with wg := w.client.wg - 1 },
                  pool := w.pool.set i Worker.exited } := by
  unfold workerReturn wgDone at h
  split at h
  · rename_i n hn
    split at hn
    · cases hn
    · simp only [Res.ok.injEq] at hn h
      subst hn
      exact ⟨by omega, h.symm⟩
  · cases h
  · cases h

theorem sendRequest_ok {w w1 : World} {payload : Option String} {config : APILogRemote}
    {pick id : Nat} (h : SendRequest w payload config pick = .ok (w1, id)) :
    id = w.chans.length ∧
    (w1 = { w with chans := w.chans ++ [RespChan.dropped] } ∨
     ∃ ch, w.client.requestCh = some ch ∧ ch.closed = false ∧ ch.buf.length < ch.cap ∧
       w1 = { w with client := { w.client with requestCh := some { ch with buf := ch.buf ++
                [{ Payload := payload, Result := none, ResponseCh := some w.chans.length,
                   Config := config }] } },
                     chans := w.chans ++ [RespChan.fresh] }) := by
  unfold SendRequest at h
  simp only at h
  split at h
  · simp only [Res.ok.injEq, Prod.mk.injEq] at h
    exact ⟨h.2.symm, Or.inl h.1.symm⟩
  · split at h
    · cases h
    · rename_i ch hch
      unfold Chan.send at h
      by_cases hc : ch.closed = true
      · simp [hc] at h
      · by_cases hl : ch.buf.length < ch.cap
        · rw [if_neg hc, if_pos hl] at h
          simp only [Res.ok.injEq, Prod.mk.injEq] at h
          exact ⟨h.2.symm, Or.inr ⟨ch, hch, by simpa using hc, hl, h.1.symm⟩⟩
        · simp [hc, hl] at h
  · simp only [Res.ok.injEq, Prod.mk.injEq] at h
    exact ⟨h.2.symm, Or.inl h.1.symm⟩

theorem workerSelect_ok {w w1 : World} {i pick : Nat} (h : workerSelect w i pick = .ok w1) :
    w.pool[i]? = some Worker.idle ∧
    (workerReturn w i = .ok w1 ∨
     ∃ ch req rest, w.client.requestCh = some ch ∧ ch.buf = req :: rest ∧
       w1 = { w with client := { w.client with requestCh := some { ch with buf := rest } },
                     pool := w.pool.set i (Worker.calling req) }) := by
  unfold workerSelect at h
  split at h
  · rename_i hp
    refine ⟨hp, ?_⟩
    split at h
    · cases h
    · exact Or.inl h
    · split at h
      · cases h
      · rename_i ch hch
        split at h
        · exact Or.inl h
        · rename_i req rest hbuf
          simp only [Res.ok.injEq] at h
          exact Or.inr ⟨ch, req, rest, hch, hbuf, h.symm⟩
  · cases h

theorem workerCallDone_ok {w w1 : World} {i : Nat} {resp err : Option String}
    (h : workerCallDone w i resp err = .ok w1) :
    ∃ req, w.pool[i]? = some (Worker.calling req) ∧
      ((w.client.cancelled = true ∧ workerReturn w i = .ok w1) ∨
       (w.client.cancelled = false ∧ req.ResponseCh = none ∧
          w1 = { w with pool := w.pool.set i Worker.idle }) ∨
       (w.client.cancelled = false ∧ ∃ id, req.ResponseCh = some id ∧
          w1 = { w with
            pool := w.pool.set i (Worker.writing req { Error := err, Data := resp }) })) := by
  unfold workerCallDone at h
  split at h
  · rename_i req hp
    refine ⟨req, hp, ?_⟩
    by_cases hc : w.client.cancelled = true
    · rw [if_pos hc] at h
      exact Or.inl ⟨hc, h⟩
    · rw [if_neg hc] at h
      have hc1 : w.client.cancelled = false := by simpa using hc
      split at h
      · rename_i hr
        simp only [Res.ok.injEq] at h
        exact Or.inr (Or.inl ⟨hc1, hr, h.symm⟩)
      · rename_i id hr
        simp only [Res.ok.injEq] at h
        exact Or.inr (Or.inr ⟨hc1, id, hr, h.symm⟩)
  · cases h

theorem workerRespond_ok {w w1 : World} {i : Nat} (h : workerRespond w i = .ok w1) :
    ∃ req resp id rc, w.pool[i]? = some (Worker.writing req resp) ∧
      req.ResponseCh = some id ∧ w.chans[id]? = some rc ∧
      rc.ch.closed = false ∧ rc.ch.buf.length < rc.ch.cap ∧
      w1 = { w with chans := w.chans.set id
                      { ch := { rc.ch with buf := rc.ch.buf ++ [resp], closed := true },
                        sent := rc.sent ++ [(i, resp)],
                        closedBy := rc.closedBy ++ [some i] },
                    pool := w.pool.set i Worker.idle } := by
  unfold workerRespond at h
  split at h
  · rename_i req resp hp
    split at h
    · cases h
    · rename_i id hid
      split at h
      · cases h
      · rename_i rc hrc
        unfold Chan.send Chan.close at h
        by_cases hc : rc.ch.closed = true
        · simp [hc] at h
        · by_cases hl : rc.ch.buf.length < rc.ch.cap
          · rw [if_neg hc, if_pos hl] at h
            simp only [hc, Bool.false_eq_true, if_false, Res.ok.injEq] at h
            exact ⟨req, resp, id, rc, hp, hid, hrc, by simpa using hc, hl, h.symm⟩
          · simp [hc, hl] at h
  · cases h

theorem closeCancel_ok {w w1 : World} (h : closeCancel w = .ok w1) :
    w.closer = Closer.idle ∧
    w1 = { w with client := { w.client with cancelled := true },
                  closer := Closer.afterCancel } := by
  unfold closeCancel at h
  split at h
  · rename_i hc
    simp only [Res.ok.injEq] at h
    exact ⟨hc, h.symm⟩
  · cases h

theorem closeChannel_ok {w w1 : World} (h : closeChannel w = .ok w1) :
    w.closer = Closer.afterCancel ∧
    ((w.client.requestCh = none ∧ w1 = { w with closer := Closer.waiting }) ∨
     ∃ ch, w.client.requestCh = some ch ∧ ch.closed = false ∧
       w1 = { w with client := { w.client with requestCh := some { ch with closed := true } },
                     closer := Closer.afterClose }) := by
  unfold closeChannel at h
  split at h
  · rename_i hc
    refine ⟨hc, ?_⟩
    split at h
    · rename_i hn
      simp only [Res.ok.injEq] at h
      exact Or.inl ⟨hn, h.symm⟩
    · rename_i ch hch
      unfold Chan.close at h
      by_cases hcl : ch.closed = true
      · simp [hcl] at h
      · rw [if_neg hcl] at h
        simp only [Res.ok.injEq] at h
        exact Or.inr ⟨ch, hch, by simpa using hcl, h.symm⟩
  · cases h

theorem closeClear_ok {w w1 : World} (h : closeClear w = .ok w1) :
    w.closer = Closer.afterClose ∧
    w1 = { w with client := { w.client with requestCh := none },
                  closer := Closer.waiting } := by
  unfold closeClear at h
  split at h
  · rename_i hc
    simp only [Res.ok.injEq] at h
    exact ⟨hc, h.symm⟩
  · cases h

theorem closeWait_ok {w w1 : World} (h : closeWait w = .ok w1) :
    w.closer = Closer.waiting ∧ w.client.wg = 0 ∧
    w1 = { w with closer := Closer.idle } := by
  unfold closeWait at h
  split at h
  · rename_i hc
    by_cases hz : w.client.wg = 0
    · rw [if_pos hz] at h
      simp only [Res.ok.injEq] at h
      exact ⟨hc, hz, h.symm⟩
    · rw [if_neg hz] at h
      cases h
  · cases h

theorem step_send_ok {w w1 : World} {payload : Option String} {config : APILogRemote}
    {pick : Nat} (h : step w (Event.send payload config pick) = .ok w1) :
    SendRequest w payload config pick = .ok (w1, w.chans.length) := by
  simp only [step] at h
  split at h
  · rename_i w2 id hs
    simp only [Res.ok.injEq] at h
    subst h
    rw [hs, (sendRequest_ok hs).1]
  · cases h
  · cases h

/-! ## The request queue in reachable states -/

theorem queueInv_step {w w1 : World} (e : Event) (hi : QueueInv w)
    (h : step w e = .ok w1) : QueueInv w1 := by
  obtain ⟨hcap, hlive⟩ := hi
  cases e with
  | send payload config pick =>
    rcases (sendRequest_ok (step_send_ok h)).2 with h1 | ⟨ch, hch, hopen, _, h1⟩
    · subst h1
      exact ⟨hcap, hlive⟩
    · subst h1
      refine ⟨?_, ?_⟩
      · intro ch1 h1
        simp only [Option.some.injEq] at h1
        subst h1
        exact hcap ch hch
      · intro hc
        exact ⟨(hlive hc).1, _, rfl, hopen⟩
  | select i pick =>
    rcases (workerSelect_ok h).2 with h1 | ⟨ch, req, rest, hch, hbuf, h1⟩
    · rw [(workerReturn_ok h1).2]
      exact ⟨hcap, hlive⟩
    · subst h1
      refine ⟨?_, ?_⟩
      · intro ch1 h1
        simp only [Option.some.injEq] at h1
        subst h1
        exact hcap ch hch
      · intro hc
        obtain ⟨hidle, ch2, hch2, hopen⟩ := hlive hc
        rw [hch] at hch2
        simp only [Option.some.injEq] at hch2
        subst hch2
        exact ⟨hidle, _, rfl, hopen⟩
  | callDone i resp err =>
    obtain ⟨req, _, h1 | ⟨_, _, h1⟩ | ⟨_, id, _, h1⟩⟩ := workerCallDone_ok h
    · rw [(workerReturn_ok h1.2).2]
      exact ⟨hcap, hlive⟩
    · subst h1
      exact ⟨hcap, hlive⟩
    · subst h1
      exact ⟨hcap, hlive⟩
  | respond i =>
    obtain ⟨req, resp, id, rc, _, _, _, _, _, h1⟩ := workerRespond_ok h
    subst h1
    exact ⟨hcap, hlive⟩
  | closeCancel =>
    obtain ⟨_, h1⟩ := closeCancel_ok h
    subst h1
    exact ⟨hcap, fun hc => by simp at hc⟩
  | closeChannel =>
    obtain ⟨hpc, h1⟩ := closeChannel_ok h
    have hcan : w.client.cancelled = true := by
      by_contra hc
      have := (hlive (by simpa using hc)).1
      rw [hpc] at this
      cases this
    rcases h1 with ⟨_, h1⟩ | ⟨ch, hch, _, h1⟩
    · subst h1
      exact ⟨hcap, fun hc => by simp [hcan] at hc⟩
    · subst h1
      refine ⟨?_, fun hc => by simp [hcan] at hc⟩
      intro ch1 h1
      simp only [Option.some.injEq] at h1
      subst h1
      exact hcap ch hch
  | closeClear =>
    obtain ⟨hpc, h1⟩ := closeClear_ok h
    have hcan : w.client.cancelled = true := by
      by_contra hc
      have := (hlive (by simpa using hc)).1
      rw [hpc] at this
      cases this
    subst h1
    exact ⟨fun ch1 h1 => by simp at h1, fun hc => by simp [hcan] at hc⟩
  | closeWait =>
    obtain ⟨hpc, _, h1⟩ := closeWait_ok h
    have hcan : w.client.cancelled = true := by
      by_contra hc
      have := (hlive (by simpa using hc)).1
      rw [hpc] at this
      cases this
    subst h1
    exact ⟨hcap, fun hc => by simp [hcan] at hc⟩

theorem Reachable.queueInv {w : World} (h : Reachable w) : QueueInv w := by
  induction h with
  | init n wg0 => exact queueInv_init n wg0
  | next e _ hs ih => exact queueInv_step e ih hs

/-! ## `SendRequest`: back-pressure and enqueueing -/

/-- A full queue that is open: when the request queue is not closed and already
holds 1000 requests, its full capacity, `SendRequest` does not block for any
payload, config and scheduling choice: it returns a fresh response channel that
is already closed and holds no response, and the dispatcher, its queue included,
is left unchanged. -/
theorem sendRequest_full_queue_drops (w : World) (ch : Chan APIRequest)
    (payload : Option String) (config : APILogRemote) (pick : Nat)
    (hq : w.client.requestCh = some ch) (hopen : ch.closed = false)
    (hcap : ch.cap = 1000) (hfull : ch.buf.length = 1000) :
    ∃ w1 rc, SendRequest w payload config pick = .ok (w1, w.chans.length) ∧
      w1.chans = w.chans ++ [rc] ∧
      rc.ch.closed = true ∧ rc.ch.buf = [] ∧ rc.sent = [] ∧
      w1.queue = w.queue ∧ w1.client = w.client ∧ w1.pool = w.pool := by
  have hready : sendReady w.client =
      if w.client.cancelled then [SendCase.ctxDone] else [] := by
    simp [sendReady, hq, Chan.canSend, hopen, hcap, hfull]
  refine ⟨{ w with chans := w.chans ++ [RespChan.dropped] }, RespChan.dropped, ?_,
    rfl, rfl, rfl, rfl, rfl, rfl, rfl⟩
  unfold SendRequest
  rw [hready]
  by_cases hc : w.client.cancelled = true
  · rw [if_pos hc, chooseCase_singleton]
  · rw [if_neg hc, chooseCase_nil]

/-- The full three-worker dispatcher `fullWorld`, whose queue is open, drops a
request. -/
theorem sendRequest_full_queue_drops_witness :
    ∃ w1 rc, SendRequest fullWorld (some "cpu") sampleConfig 0
        = .ok (w1, fullWorld.chans.length) ∧
      w1.chans = fullWorld.chans ++ [rc] ∧
      rc.ch.closed = true ∧ rc.ch.buf = [] ∧ rc.sent = [] ∧
      w1.queue = fullWorld.queue ∧ w1.client = fullWorld.client ∧ w1.pool = fullWorld.pool :=
  sendRequest_full_queue_drops fullWorld
    (Chan.mk ((List.range 1000).map sampleRequest) 1000 false) (some "cpu") sampleConfig 0
    rfl rfl rfl (by simp)

/-- C2: in every reachable dispatcher state in which cancellation has not been
raised and the queue holds fewer than 1000 requests, `SendRequest` does not block
for any payload, config and scheduling choice: it appends exactly one request,
carrying that payload and config, to the tail of the queue, and the channel it
returns is that request's response channel, open and empty. -/
theorem sendRequest_enqueues_when_room (w : World) (payload : Option String)
    (config : APILogRemote) (pick : Nat) (hr : Reachable w)
    (hc : w.client.cancelled = false) (hlen : w.queue.length < 1000) :
    ∃ w1 rc, SendRequest w payload config pick = .ok (w1, w.chans.length) ∧
      w1.queue = w.queue ++ [{ Payload := payload, Result := none,
                               ResponseCh := some w.chans.length, Config := config }] ∧
      w1.chans = w.chans ++ [rc] ∧
      rc.ch.closed = false ∧ rc.ch.buf = [] ∧ rc.sent = [] ∧ rc.closedBy = [] ∧
      w1.pool = w.pool ∧ w1.client.cancelled = false := by
  obtain ⟨hcap, hlive⟩ := hr.queueInv
  obtain ⟨_, ch, hch, hopen⟩ := hlive hc
  have hcap1 := hcap ch hch
  have hl : ch.buf.length < ch.cap := by
    simpa [World.queue, hch, hcap1] using hlen
  have hready : sendReady w.client = [SendCase.enqueue] := by
    simp [sendReady, hch, Chan.canSend, hopen, hl, hc]
  refine ⟨{ w with
      client := { w.client with requestCh := some (Chan.mk
        (ch.buf ++ [APIRequest.mk payload none (some w.chans.length) config]) ch.cap ch.closed) },
      chans := w.chans ++ [RespChan.fresh] }, RespChan.fresh, ?_,
    ?_, rfl, rfl, rfl, rfl, rfl, rfl, hc⟩
  · unfold SendRequest
    rw [hready, chooseCase_singleton]
    simp [hch, Chan.send, hopen, hl]
  · simp [World.queue, hch]

/-- Witness for C2: a new dispatcher with three workers. -/
theorem sendRequest_enqueues_when_room_witness :
    ∃ w1 rc, SendRequest (NewAPIClient 3 0) (some "cpu") sampleConfig 7
        = .ok (w1, (NewAPIClient 3 0).chans.length) ∧
      w1.queue = (NewAPIClient 3 0).queue ++
        [APIRequest.mk (some "cpu") none (some (NewAPIClient 3 0).chans.length) sampleConfig] ∧
      w1.chans = (NewAPIClient 3 0).chans ++ [rc] ∧
      rc.ch.closed = false ∧ rc.ch.buf = [] ∧ rc.sent = [] ∧ rc.closedBy = [] ∧
      w1.pool = (NewAPIClient 3 0).pool ∧ w1.client.cancelled = false :=
  sendRequest_enqueues_when_room (NewAPIClient 3 0) (some "cpu") sampleConfig 7
    (Reachable.init 3 0) rfl (by simp [World.queue, NewAPIClient, Chan.make])

/-! ## Ownership of response channels -/

theorem heldAt_set_self {pool : List Worker} {i : Nat} {x y : Worker}
    (h : pool[i]? = some y) : heldAt (pool.set i x) i = x.req? := by
  have hi : i < pool.length := (List.getElem?_eq_some.mp h).1
  simp [heldAt, List.getElem?_set_self hi]

theorem heldAt_set_other {pool : List Worker} {i j : Nat} {x : Worker} (h : i ≠ j) :
    heldAt (pool.set i x) j = heldAt pool j := by
  simp [heldAt, List.getElem?_set_ne h]

theorem heldAt_idle {pool : List Worker} {i : Nat} (h : pool[i]? = some Worker.idle) :
    heldAt pool i = none := by
  simp [heldAt, h, Worker.req?]

theorem untouched_lt {w : World} {r : APIRequest} (h : w.untouched r) :
    ∃ id, r.ResponseCh = some id ∧ id < w.chans.length := by
  obtain ⟨id, hid, hg⟩ := h
  exact ⟨id, hid, (List.getElem?_eq_some.mp hg).1⟩

theorem untouched_append {w : World} {r : APIRequest} (rc : RespChan)
    (h : w.untouched r) : World.untouched { w with chans := w.chans ++ [rc] } r := by
  obtain ⟨id, hid, hg⟩ := h
  refine ⟨id, hid, ?_⟩
  have hlt : id < w.chans.length := (List.getElem?_eq_some.mp hg).1
  simpa [List.getElem?_append_left hlt] using hg

theorem chanInv_init (n wg0 : Nat) : ChanInv (NewAPIClient n wg0) := by
  refine ⟨?_, ?_, ?_, ?_, ?_, ?_⟩
  · intro id rc h
    simp [NewAPIClient] at h
  · intro r hr
    simp [World.queue, NewAPIClient, Chan.make] at hr
  · intro i r h
    simp only [heldAt, NewAPIClient, List.getElem?_replicate] at h
    split at h <;> simp [Worker.req?] at h
  · simp [World.queue, NewAPIClient, Chan.make]
  · intro i r _ q hq
    simp [World.queue, NewAPIClient, Chan.make] at hq
  · intro i j ri rj _ h
    simp only [heldAt, NewAPIClient, List.getElem?_replicate] at h
    split at h <;> simp [Worker.req?] at h

theorem heldAt_set_cases {pool : List Worker} {i j : Nat} {x : Worker} {r : APIRequest}
    (h : heldAt (pool.set i x) j = some r) :
    (j = i ∧ x.req? = some r) ∨ (j ≠ i ∧ heldAt pool j = some r) := by
  by_cases hji : j = i
  · subst hji
    left
    refine ⟨rfl, ?_⟩
    by_cases hlt : j < pool.length
    · simpa [heldAt, List.getElem?_set_self hlt] using h
    · have : (pool.set j x)[j]? = none := by
        apply List.getElem?_eq_none
        simpa using Nat.le_of_not_lt hlt
      simp [heldAt, this] at h
  · right
    refine ⟨hji, ?_⟩
    rwa [heldAt_set_other (fun e => hji e.symm)] at h

theorem untouched_congr {w w1 : World} {r : APIRequest} (hc : w1.chans = w.chans)
    (h : w.untouched r) : w1.untouched r := by
  obtain ⟨id, hid, hg⟩ := h
  exact ⟨id, hid, by rw [hc]; exact hg⟩

/-- The invariant survives any step that leaves the response channels alone and
only removes requests from the queue and from the workers' hands. -/
theorem chanInv_shrink {w w1 : World} (hi : ChanInv w) (hc : w1.chans = w.chans)
    (hq : w1.queue.Sublist w.queue)
    (hp : ∀ j r, heldAt w1.pool j = some r → heldAt w.pool j = some r) : ChanInv w1 := by
  obtain ⟨hshape, hqueued, hheld, hnodup, hapart, hdist⟩ := hi
  refine ⟨?_, ?_, ?_, ?_, ?_, ?_⟩
  · intro id rc h
    rw [hc] at h
    exact hshape id rc h
  · intro r hr
    exact untouched_congr hc (hqueued r (hq.subset hr))
  · intro j r h
    exact untouched_congr hc (hheld j r (hp j r h))
  · exact hnodup.sublist (hq.map _)
  · intro j r h q hq1
    exact hapart j r (hp j r h) q (hq.subset hq1)
  · intro a b ra rb hab ha hb
    exact hdist a b ra rb hab (hp a ra ha) (hp b rb hb)

theorem chanInv_return {w w1 : World} {i : Nat} (hi : ChanInv w)
    (h : workerReturn w i = .ok w1) : ChanInv w1 := by
  rw [(workerReturn_ok h).2]
  refine chanInv_shrink hi rfl (List.Sublist.refl _) ?_
  intro j r hj
  rcases heldAt_set_cases hj with ⟨_, hx⟩ | ⟨_, hx⟩
  · simp [Worker.req?] at hx
  · exact hx

theorem chanInv_append {w : World} (rc : RespChan) (hi : ChanInv w)
    (hrc : rc = RespChan.fresh ∨ rc = RespChan.dropped) :
    ChanInv { w with chans := w.chans ++ [rc] } := by
  obtain ⟨hshape, hqueued, hheld, hnodup, hapart, hdist⟩ := hi
  refine ⟨?_, ?_, ?_, hnodup, hapart, hdist⟩
  · intro id rc1 h
    by_cases hlt : id < w.chans.length
    · rw [show ({ w with chans := w.chans ++ [rc] } : World).chans = w.chans ++ [rc] from rfl,
        List.getElem?_append_left hlt] at h
      exact hshape id rc1 h
    · rw [show ({ w with chans := w.chans ++ [rc] } : World).chans = w.chans ++ [rc] from rfl,
        List.getElem?_append_right (Nat.le_of_not_lt hlt)] at h
      have h1 : rc1 = rc := by
        cases hk : id - w.chans.length with
        | zero => rw [hk] at h; simpa using h.symm
        | succ k => rw [hk] at h; simp at h
      subst h1
      rcases hrc with h2 | h2
      · exact Or.inl h2
      · exact Or.inr (Or.inl h2)
  · intro r hr
    exact untouched_append rc (hqueued r hr)
  · intro j r h
    exact untouched_append rc (hheld j r h)

theorem chanInv_enqueue {w : World} {ch : Chan APIRequest} (req : APIRequest)
    (hi : ChanInv w) (hch : w.client.requestCh = some ch)
    (hreq : req.ResponseCh = some w.chans.length) :
    ChanInv { w with
      client := { w.client with requestCh := some { ch with buf := ch.buf ++ [req] } },
      chans := w.chans ++ [RespChan.fresh] } := by
  have hq : w.queue = ch.buf := by simp [World.queue, hch]
  have hbase := chanInv_append RespChan.fresh hi (Or.inl rfl)
  obtain ⟨hshape, hqueued, hheld, hnodup, hapart, hdist⟩ := hbase
  have hold : ∀ r ∈ ch.buf, r.ResponseCh ≠ some w.chans.length := by
    intro r hr hid
    obtain ⟨id, hid1, hlt⟩ := untouched_lt (hi.queued r (hq ▸ hr))
    rw [hid] at hid1
    simp only [Option.some.injEq] at hid1
    omega
  refine ⟨hshape, ?_, hheld, ?_, ?_, hdist⟩
  · intro r hr
    have hr1 : r ∈ ch.buf ++ [req] := by simpa [World.queue] using hr
    rcases List.mem_append.mp hr1 with h1 | h1
    · exact hqueued r (by simpa [World.queue, hch] using h1)
    · have : r = req := by simpa using h1
      subst this
      exact ⟨w.chans.length, hreq, by simp [RespChan.fresh]⟩
  · have hn : (ch.buf.map APIRequest.ResponseCh).Nodup := by
      simpa [World.queue, hch] using hi.nodup
    have : (World.queue { w with
        client := { w.client with requestCh := some { ch with buf := ch.buf ++ [req] } },
        chans := w.chans ++ [RespChan.fresh] }) = ch.buf ++ [req] := rfl
    rw [this, List.map_append, List.nodup_append]
    refine ⟨hn, by simp, ?_⟩
    intro a ha hb
    simp only [List.map_cons, List.map_nil, List.mem_singleton] at hb
    obtain ⟨r, hr, hra⟩ := List.mem_map.mp ha
    exact hold r hr (by rw [hra, hb, hreq])
  · intro j r h q hq1
    have hq2 : q ∈ ch.buf ++ [req] := by simpa [World.queue] using hq1
    rcases List.mem_append.mp hq2 with h1 | h1
    · exact hi.apart j r h q (hq ▸ h1)
    · have : q = req := by simpa using h1
      subst this
      obtain ⟨id, hid1, hlt⟩ := untouched_lt (hi.held j r h)
      rw [hreq, hid1]
      intro e
      simp only [Option.some.injEq] at e
      omega

theorem chanInv_dequeue {w : World} {ch : Chan APIRequest} {req : APIRequest}
    {rest : List APIRequest} (i : Nat) (hi : ChanInv w)
    (hch : w.client.requestCh = some ch) (hbuf : ch.buf = req :: rest) :
    ChanInv { w with
      client := { w.client with requestCh := some { ch with buf := rest } },
      pool := w.pool.set i (Worker.calling req) } := by
  have hq : w.queue = req :: rest := by simp [World.queue, hch, hbuf]
  obtain ⟨hshape, hqueued, hheld, hnodup, hapart, hdist⟩ := hi
  rw [hq, List.map_cons, List.nodup_cons] at hnodup
  have hsub : ∀ q ∈ rest, q ∈ w.queue := fun q hq1 => by rw [hq]; exact List.mem_cons_of_mem _ hq1
  have hhead : req ∈ w.queue := by rw [hq]; exact List.mem_cons_self _ _
  have hfirst : ∀ q ∈ rest, q.ResponseCh ≠ req.ResponseCh := by
    intro q hq1 e
    exact hnodup.1 (List.mem_map.mpr ⟨q, hq1, e⟩)
  refine ⟨hshape, ?_, ?_, hnodup.2, ?_, ?_⟩
  · intro r hr
    exact untouched_congr rfl (hqueued r (hsub r hr))
  · intro j r h
    rcases heldAt_set_cases h with ⟨_, hx⟩ | ⟨_, hx⟩
    · simp only [Worker.req?, Option.some.injEq] at hx
      subst hx
      exact untouched_congr rfl (hqueued _ hhead)
    · exact untouched_congr rfl (hheld j r hx)
  · intro j r h q hq1
    have hq2 : q ∈ rest := hq1
    rcases heldAt_set_cases h with ⟨_, hx⟩ | ⟨_, hx⟩
    · simp only [Worker.req?, Option.some.injEq] at hx
      subst hx
      exact hfirst q hq2
    · exact hapart j r hx q (hsub q hq2)
  · intro a b ra rb hab ha hb
    rcases heldAt_set_cases ha with ⟨ha1, hx⟩ | ⟨ha1, hx⟩
    · simp only [Worker.req?, Option.some.injEq] at hx
      subst hx
      rcases heldAt_set_cases hb with ⟨hb1, _⟩ | ⟨_, hy⟩
      · exact absurd (ha1.trans hb1.symm) hab
      · exact fun e => hapart b rb hy _ hhead e
    · rcases heldAt_set_cases hb with ⟨_, hy⟩ | ⟨_, hy⟩
      · simp only [Worker.req?, Option.some.injEq] at hy
        subst hy
        exact fun e => hapart a ra hx _ hhead e.symm
      · exact hdist a b ra rb hab hx hy

theorem chanInv_respond {w : World} {req : APIRequest} {resp : APIResponse} {i id : Nat}
    (rc1 : RespChan) (hi : ChanInv w) (hw : w.pool[i]? = some (Worker.writing req resp))
    (hid : req.ResponseCh = some id)
    (hrc : rc1 = RespChan.fresh ∨ rc1 = RespChan.dropped ∨ ∃ k r, rc1 = RespChan.answered k r) :
    ChanInv { w with chans := w.chans.set id rc1, pool := w.pool.set i Worker.idle } := by
  obtain ⟨hshape, hqueued, hheld, hnodup, hapart, hdist⟩ := hi
  have hmine : heldAt w.pool i = some req := by simp [heldAt, hw, Worker.req?]
  have hkeep : ∀ r : APIRequest, w.untouched r → r.ResponseCh ≠ req.ResponseCh →
      World.untouched { w with chans := w.chans.set id rc1,
                               pool := w.pool.set i Worker.idle } r := by
    intro r hu hne
    obtain ⟨id1, hid1, hg⟩ := hu
    refine ⟨id1, hid1, ?_⟩
    have hne1 : id ≠ id1 := by
      intro e
      apply hne
      rw [hid1, hid, e]
    simpa [List.getElem?_set_ne hne1] using hg
  have hp : ∀ j r, heldAt (w.pool.set i Worker.idle) j = some r →
      j ≠ i ∧ heldAt w.pool j = some r := by
    intro j r h
    rcases heldAt_set_cases h with ⟨_, hx⟩ | hx
    · simp [Worker.req?] at hx
    · exact hx
  refine ⟨?_, ?_, ?_, hnodup, ?_, ?_⟩
  · intro id2 rc2 h
    by_cases he : id = id2
    · subst he
      by_cases hlt : id < w.chans.length
      · have h2 : (w.chans.set id rc1)[id]? = some rc1 := List.getElem?_set_self hlt
        have h3 : some rc1 = some rc2 := h2.symm.trans h
        simp only [Option.some.injEq] at h3
        subst h3
        exact hrc
      · have h2 : (w.chans.set id rc1)[id]? = none := by
          apply List.getElem?_eq_none
          simpa using Nat.le_of_not_lt hlt
        change (w.chans.set id rc1)[id]? = some rc2 at h
        rw [h2] at h
        cases h
    · change (w.chans.set id rc1)[id2]? = some rc2 at h
      rw [List.getElem?_set_ne he] at h
      exact hshape id2 rc2 h
  · intro r hr
    exact hkeep r (hqueued r hr) (hapart i req hmine r hr)
  · intro j r h
    obtain ⟨hj, hx⟩ := hp j r h
    exact hkeep r (hheld j r hx) (hdist j i r req hj hx hmine)
  · intro j r h q hq1
    exact hapart j r (hp j r h).2 q hq1
  · intro a b ra rb hab ha hb
    exact hdist a b ra rb hab (hp a ra ha).2 (hp b rb hb).2

/-- What a worker in the `default` arm finds: its request's channel is untouched. -/
theorem writing_channel_fresh {w : World} {req : APIRequest} {resp : APIResponse} {i id : Nat}
    {rc : RespChan} (hi : ChanInv w) (hw : w.pool[i]? = some (Worker.writing req resp))
    (hid : req.ResponseCh = some id) (hrc : w.chans[id]? = some rc) : rc = RespChan.fresh := by
  have hmine : heldAt w.pool i = some req := by simp [heldAt, hw, Worker.req?]
  obtain ⟨id1, hid1, hg⟩ := hi.held i req hmine
  rw [hid] at hid1
  simp only [Option.some.injEq] at hid1
  subst hid1
  rw [hrc] at hg
  simpa using hg

theorem chanInv_step {w w1 : World} (e : Event) (hi : ChanInv w)
    (h : step w e = .ok w1) : ChanInv w1 := by
  cases e with
  | send payload config pick =>
    rcases (sendRequest_ok (step_send_ok h)).2 with h1 | ⟨ch, hch, _, _, h1⟩
    · subst h1
      exact chanInv_append _ hi (Or.inr rfl)
    · subst h1
      exact chanInv_enqueue _ hi hch rfl
  | select i pick =>
    rcases (workerSelect_ok h).2 with h1 | ⟨ch, req, rest, hch, hbuf, h1⟩
    · exact chanInv_return hi h1
    · subst h1
      exact chanInv_dequeue i hi hch hbuf
  | callDone i resp err =>
    obtain ⟨req, hp, h1 | ⟨_, _, h1⟩ | ⟨_, id, _, h1⟩⟩ := workerCallDone_ok h
    · exact chanInv_return hi h1.2
    · subst h1
      refine chanInv_shrink hi rfl (List.Sublist.refl _) ?_
      intro j r hj
      rcases heldAt_set_cases hj with ⟨_, hx⟩ | ⟨_, hx⟩
      · simp [Worker.req?] at hx
      · exact hx
    · subst h1
      refine chanInv_shrink hi rfl (List.Sublist.refl _) ?_
      intro j r hj
      rcases heldAt_set_cases hj with ⟨hji, hx⟩ | ⟨_, hx⟩
      · subst hji
        simp only [Worker.req?, Option.some.injEq] at hx
        subst hx
        simp [heldAt, hp, Worker.req?]
      · exact hx
  | respond i =>
    obtain ⟨req, resp, id, rc, hw, hid, hrc, _, _, h1⟩ := workerRespond_ok h
    subst h1
    have hf := writing_channel_fresh hi hw hid hrc
    subst hf
    exact chanInv_respond _ hi hw hid (Or.inr (Or.inr ⟨i, resp, rfl⟩))
  | closeCancel =>
    obtain ⟨_, h1⟩ := closeCancel_ok h
    subst h1
    exact chanInv_shrink hi rfl (List.Sublist.refl _) (fun _ _ hj => hj)
  | closeChannel =>
    obtain ⟨_, ⟨_, h1⟩ | ⟨ch, hch, _, h1⟩⟩ := closeChannel_ok h
    · subst h1
      exact chanInv_shrink hi rfl (List.Sublist.refl _) (fun _ _ hj => hj)
    · subst h1
      refine chanInv_shrink hi rfl ?_ (fun _ _ hj => hj)
      simp [World.queue, hch]
  | closeClear =>
    obtain ⟨_, h1⟩ := closeClear_ok h
    subst h1
    refine chanInv_shrink hi rfl ?_ (fun _ _ hj => hj)
    simp [World.queue]
  | closeWait =>
    obtain ⟨_, _, h1⟩ := closeWait_ok h
    subst h1
    exact chanInv_shrink hi rfl (List.Sublist.refl _) (fun _ _ hj => hj)

theorem Reachable.chanInv {w : World} (h : Reachable w) : ChanInv w := by
  induction h with
  | init n wg0 => exact chanInv_init n wg0
  | next e _ hs ih => exact chanInv_step e ih hs

theorem Reachable.run {w w1 : World} (evs : List Event) (hr : Reachable w)
    (h : run w evs = .ok w1) : Reachable w1 := by
  induction evs generalizing w with
  | nil =>
    simp only [Jarvis.run, Res.ok.injEq] at h
    exact h ▸ hr
  | cons e es ih =>
    simp only [Jarvis.run] at h
    split at h
    · rename_i w2 hs
      exact ih (Reachable.next e hr hs) h
    · cases h
    · cases h

theorem busyWorld_reachable : Reachable busyWorld :=
  Reachable.run [Event.send (some "status") sampleConfig 0, Event.select 0 0]
    (Reachable.init 1 0) rfl

/-- C3: in every reachable state of the dispatcher (any interleaving of
`SendRequest` calls, workers and `Close`), every response channel has been sent
to at most once and closed at most once, and all sends and worker closes on it
are by one and the same worker; a worker whose call returns while cancellation is
not raised goes on to answer, and the answer of a worker is exactly one response
carrying the call's error and data, sent on the request's so far untouched
channel, which is then closed. -/
theorem response_channel_written_once (w : World) (hr : Reachable w) :
    (∀ (k : Nat) (rc : RespChan), w.chans[k]? = some rc →
      rc.sent.length ≤ 1 ∧ rc.closedBy.length ≤ 1 ∧
      (∀ a ∈ rc.sent.map Prod.fst ++ rc.closedBy.filterMap (fun c => c),
        ∀ b ∈ rc.sent.map Prod.fst ++ rc.closedBy.filterMap (fun c => c), a = b) ∧
      (rc.sent ≠ [] → rc.ch.closed = true)) ∧
    (∀ (i : Nat) (req : APIRequest) (resp err : Option String),
      w.pool[i]? = some (Worker.calling req) → w.client.cancelled = false →
      ∃ w1, step w (Event.callDone i resp err) = .ok w1 ∧
        w1.pool[i]? = some (Worker.writing req { Error := err, Data := resp }) ∧
        w1.chans = w.chans) ∧
    (∀ (i : Nat) (req : APIRequest) (resp : APIResponse),
      w.pool[i]? = some (Worker.writing req resp) →
      ∃ id w1, req.ResponseCh = some id ∧ w.chans[id]? = some RespChan.fresh ∧
        step w (Event.respond i) = .ok w1 ∧
        w1.chans = w.chans.set id (RespChan.answered i resp) ∧
        w1.chans[id]? = some (RespChan.answered i resp)) := by
  have hi := hr.chanInv
  refine ⟨?_, ?_, ?_⟩
  · intro id rc h
    rcases hi.shape id rc h with h1 | h1 | ⟨i, r, h1⟩
    · subst h1
      simp [RespChan.fresh]
    · subst h1
      simp [RespChan.dropped]
    · subst h1
      simp [RespChan.answered]
  · intro i req resp err hp hc
    have hmine : heldAt w.pool i = some req := by simp [heldAt, hp, Worker.req?]
    obtain ⟨id, hid, _⟩ := hi.held i req hmine
    have hlt : i < w.pool.length := (List.getElem?_eq_some.mp hp).1
    refine ⟨{ w with pool := w.pool.set i (Worker.writing req { Error := err, Data := resp }) },
      ?_, ?_, rfl⟩
    · simp [step, workerCallDone, hp, hc, hid]
    · exact List.getElem?_set_self hlt
  · intro i req resp hp
    have hmine : heldAt w.pool i = some req := by simp [heldAt, hp, Worker.req?]
    obtain ⟨id, hid, hg⟩ := hi.held i req hmine
    have hlt : id < w.chans.length := (List.getElem?_eq_some.mp hg).1
    refine ⟨id, { w with chans := w.chans.set id (RespChan.answered i resp),
                         pool := w.pool.set i Worker.idle }, hid, hg, ?_, rfl, ?_⟩
    · simp [step, workerRespond, hp, hid, hg, RespChan.fresh, RespChan.answered, Chan.make,
        Chan.send, Chan.close]
    · exact List.getElem?_set_self hlt

/-- Witness for C3: the worker of `busyWorld`, whose call returns data `ok` and
no error, goes on to answer request 0. -/
theorem response_channel_written_once_witness :
    Reachable busyWorld ∧
    ∃ w1, step busyWorld (Event.callDone 0 (some "ok") none) = .ok w1 ∧
      w1.pool[0]? = some (Worker.writing (sampleRequest 0) { Error := none, Data := some "ok" }) ∧
      w1.chans = busyWorld.chans :=
  ⟨busyWorld_reachable,
    (response_channel_written_once busyWorld busyWorld_reachable).2.1 0 (sampleRequest 0)
      (some "ok") none rfl rfl⟩

/-! ## After cancellation -/

theorem getElem?_set_cases {α : Type} {l : List α} {i j : Nat} {x y : α}
    (h : (l.set i x)[j]? = some y) : (j = i ∧ x = y) ∨ (j ≠ i ∧ l[j]? = some y) := by
  by_cases hji : j = i
  · subst hji
    left
    refine ⟨rfl, ?_⟩
    by_cases hlt : j < l.length
    · rw [List.getElem?_set_self hlt] at h
      simpa using h
    · have : (l.set j x)[j]? = none := by
        apply List.getElem?_eq_none
        simpa using Nat.le_of_not_lt hlt
      rw [this] at h
      cases h
  · right
    refine ⟨hji, ?_⟩
    rwa [List.getElem?_set_ne (fun e => hji e.symm)] at h

theorem silent_return {w w1 : World} {i id : Nat} (hs : w.silent id)
    (h : workerReturn w i = .ok w1) : w1.silent id := by
  rw [(workerReturn_ok h).2]
  obtain ⟨hc, hf, hw⟩ := hs
  refine ⟨hc, hf, ?_⟩
  intro j req resp hj
  rcases getElem?_set_cases hj with ⟨_, hx⟩ | ⟨_, hx⟩
  · cases hx
  · exact hw j req resp hx

theorem silent_step {w w1 : World} {id : Nat} (e : Event) (hs : w.silent id)
    (h : step w e = .ok w1) : w1.silent id := by
  have hs0 := hs
  obtain ⟨hc, hf, hw⟩ := hs
  have hlt : id < w.chans.length := (List.getElem?_eq_some.mp hf).1
  cases e with
  | send payload config pick =>
    rcases (sendRequest_ok (step_send_ok h)).2 with h1 | ⟨ch, hch, _, _, h1⟩
    · subst h1
      exact ⟨hc, by simpa [List.getElem?_append_left hlt] using hf, hw⟩
    · subst h1
      exact ⟨hc, by simpa [List.getElem?_append_left hlt] using hf, hw⟩
  | select i pick =>
    rcases (workerSelect_ok h).2 with h1 | ⟨ch, req, rest, hch, hbuf, h1⟩
    · exact silent_return hs0 h1
    · subst h1
      refine ⟨hc, hf, ?_⟩
      intro j req1 resp1 hj
      rcases getElem?_set_cases hj with ⟨_, hx⟩ | ⟨_, hx⟩
      · cases hx
      · exact hw j req1 resp1 hx
  | callDone i resp err =>
    obtain ⟨req, hp, h1 | ⟨hn, _⟩ | ⟨hn, _⟩⟩ := workerCallDone_ok h
    · exact silent_return hs0 h1.2
    · rw [hc] at hn
      cases hn
    · rw [hc] at hn
      cases hn
  | respond i =>
    obtain ⟨req, resp, id1, rc, hp, hid, hrc, _, _, h1⟩ := workerRespond_ok h
    subst h1
    have hne : id1 ≠ id := by
      intro e
      exact hw i req resp hp (by rw [hid, e])
    refine ⟨hc, ?_, ?_⟩
    · simpa [List.getElem?_set_ne hne] using hf
    · intro j req1 resp1 hj
      rcases getElem?_set_cases hj with ⟨_, hx⟩ | ⟨_, hx⟩
      · cases hx
      · exact hw j req1 resp1 hx
  | closeCancel =>
    obtain ⟨_, h1⟩ := closeCancel_ok h
    subst h1
    exact ⟨rfl, hf, hw⟩
  | closeChannel =>
    obtain ⟨_, ⟨_, h1⟩ | ⟨ch, hch, _, h1⟩⟩ := closeChannel_ok h
    · subst h1
      exact ⟨hc, hf, hw⟩
    · subst h1
      exact ⟨hc, hf, hw⟩
  | closeClear =>
    obtain ⟨_, h1⟩ := closeClear_ok h
    subst h1
    exact ⟨hc, hf, hw⟩
  | closeWait =>
    obtain ⟨_, _, h1⟩ := closeWait_ok h
    subst h1
    exact ⟨hc, hf, hw⟩

theorem silent_run {w w1 : World} {id : Nat} (evs : List Event) (hs : w.silent id)
    (h : run w evs = .ok w1) : w1.silent id := by
  induction evs generalizing w with
  | nil =>
    simp only [Jarvis.run, Res.ok.injEq] at h
    exact h ▸ hs
  | cons e es ih =>
    simp only [Jarvis.run] at h
    split at h
    · rename_i w2 hst
      exact ih (silent_step e hs hst) h
    · cases h
    · cases h

theorem cancelledWorld_reachable : Reachable cancelledWorld :=
  Reachable.run [Event.send (some "status") sampleConfig 0, Event.closeCancel]
    (Reachable.init 1 0) rfl

/-- C4, counterexample: right after `cancel()` request 0 is still queued and
unclaimed, yet the worker's `select` may take the queue case, dequeue the
request and start its outbound call. -/
theorem queued_request_run_after_cancel :
    Reachable cancelledWorld ∧ cancelledWorld.client.cancelled = true ∧
    sampleRequest 0 ∈ cancelledWorld.queue ∧
    (∀ i, heldAt cancelledWorld.pool i ≠ some (sampleRequest 0)) ∧
    ∃ w1, step cancelledWorld (Event.select 0 1) = .ok w1 ∧
      w1.queue = [] ∧ w1.pool[0]? = some (Worker.calling (sampleRequest 0)) := by
  refine ⟨cancelledWorld_reachable, rfl, by simp [World.queue, cancelledWorld], ?_,
    _, rfl, rfl, rfl⟩
  intro i
  cases i with
  | zero => simp [heldAt, cancelledWorld, Worker.req?]
  | succ k => simp [heldAt, cancelledWorld, Worker.req?]

/-- C4, amended: once the cancellation signal has been raised, the response
channel of every request that was still queued at that moment stays untouched in
every later state (no send and no close on it); the request itself may still be
dequeued and its outbound call made. -/
theorem queued_request_never_answered_after_cancel (w w1 : World) (r : APIRequest)
    (evs : List Event) (hr : Reachable w) (hc : w.client.cancelled = true)
    (hq : r ∈ w.queue) (hrun : run w evs = .ok w1) :
    w1.client.cancelled = true ∧
    ∃ id, r.ResponseCh = some id ∧ w.chans[id]? = some RespChan.fresh ∧
      w1.chans[id]? = some RespChan.fresh ∧
      ∀ (i : Nat) (req : APIRequest) (resp : APIResponse),
        w1.pool[i]? = some (Worker.writing req resp) → req.ResponseCh ≠ some id := by
  have hi := hr.chanInv
  obtain ⟨id, hid, hf⟩ := hi.queued r hq
  have hs : w.silent id := by
    refine ⟨hc, hf, ?_⟩
    intro i req resp hp e
    have hmine : heldAt w.pool i = some req := by simp [heldAt, hp, Worker.req?]
    exact hi.apart i req hmine r hq (by rw [hid, e])
  obtain ⟨h1, h2, h3⟩ := silent_run evs hs hrun
  exact ⟨h1, id, hid, hf, h2, h3⟩

/-- Witness for the amended C4: in `cancelledWorld` the worker dequeues request 0,
its call returns, and the response channel is still untouched. -/
theorem queued_request_never_answered_after_cancel_witness :
    ∃ w1, run cancelledWorld [Event.select 0 1, Event.callDone 0 (some "ok") none] = .ok w1 ∧
      w1.client.cancelled = true ∧
      ∃ id, (sampleRequest 0).ResponseCh = some id ∧
        cancelledWorld.chans[id]? = some RespChan.fresh ∧
        w1.chans[id]? = some RespChan.fresh ∧
        ∀ (i : Nat) (req : APIRequest) (resp : APIResponse),
          w1.pool[i]? = some (Worker.writing req resp) → req.ResponseCh ≠ some id :=
  ⟨_, rfl, queued_request_never_answered_after_cancel cancelledWorld _ (sampleRequest 0)
    [Event.select 0 1, Event.callDone 0 (some "ok") none] cancelledWorld_reachable rfl
    (by simp [World.queue, cancelledWorld]) rfl⟩

/-! ## `Close` and the WaitGroup -/

theorem liveWorkers_set {pool : List Worker} {i : Nat} {x y : Worker}
    (h : pool[i]? = some y) :
    liveWorkers (pool.set i x) + y.alive = liveWorkers pool + x.alive := by
  induction pool generalizing i with
  | nil => simp at h
  | cons p ps ih =>
    cases i with
    | zero =>
      simp only [List.getElem?_cons_zero, Option.some.injEq] at h
      subst h
      simp only [liveWorkers, List.set_cons_zero, List.map_cons, List.sum_cons]
      omega
    | succ k =>
      simp only [List.getElem?_cons_succ] at h
      have := ih h
      simp only [liveWorkers, List.set_cons_succ, List.map_cons, List.sum_cons] at this ⊢
      omega

theorem liveWorkers_replicate_idle (n : Nat) :
    liveWorkers (List.replicate n Worker.idle) = n := by
  induction n with
  | zero => simp [liveWorkers]
  | succ k ih =>
    simp only [liveWorkers, List.replicate_succ, List.map_cons, List.sum_cons] at ih ⊢
    simp only [Worker.alive]
    omega

theorem liveWorkers_eq_zero {pool : List Worker} (h : liveWorkers pool = 0) :
    ∀ p ∈ pool, p = Worker.exited := by
  induction pool with
  | nil => intro p hp; cases hp
  | cons q qs ih =>
    simp only [liveWorkers, List.map_cons, List.sum_cons] at h
    have hq : q.alive = 0 := by omega
    have hqs : liveWorkers qs = 0 := by simp only [liveWorkers]; omega
    intro p hp
    rcases List.mem_cons.mp hp with h1 | h1
    · subst h1
      cases p <;> simp [Worker.alive] at hq
      rfl
    · exact ih hqs p h1

theorem closeInv_init (n wg0 : Nat) : CloseInv (NewAPIClient n wg0) := by
  refine ⟨⟨wg0, ?_⟩, ?_, ?_⟩
  · simp [NewAPIClient, liveWorkers_replicate_idle]
  · intro h
    cases h
  · intro _ h
    cases h

/-- A returning worker was running, so the counter it decrements was counting it. -/
theorem closeInv_return {w w1 : World} {i : Nat} {y : Worker} (hi : CloseInv w)
    (hp : w.pool[i]? = some y) (hy : y.alive = 1) (h : workerReturn w i = .ok w1) :
    CloseInv w1 := by
  obtain ⟨hpos, h1⟩ := workerReturn_ok h
  subst h1
  obtain ⟨⟨base, hb⟩, hwait, hret⟩ := hi
  have hl := liveWorkers_set (x := Worker.exited) hp
  rw [hy] at hl
  have he : Worker.exited.alive = 0 := rfl
  rw [he] at hl
  refine ⟨⟨base, ?_⟩, hwait, ?_⟩
  · show w.client.wg - 1 = (base : Int) + liveWorkers (w.pool.set i Worker.exited)
    omega
  · intro h2 h3
    have := (hret h2 h3).2
    omega

/-- A worker that changes program counter without returning stays counted. -/
theorem closeInv_move {w : World} {i : Nat} {x y : Worker} (hi : CloseInv w)
    (hp : w.pool[i]? = some y) (hy : y.alive = 1) (hx : x.alive = 1) :
    CloseInv { w with pool := w.pool.set i x } := by
  obtain ⟨⟨base, hb⟩, hwait, hret⟩ := hi
  have hl := liveWorkers_set (x := x) hp
  rw [hy, hx] at hl
  refine ⟨⟨base, ?_⟩, hwait, hret⟩
  show w.client.wg = (base : Int) + liveWorkers (w.pool.set i x)
  omega

theorem closeInv_step {w w1 : World} (e : Event) (hi : CloseInv w)
    (h : step w e = .ok w1) : CloseInv w1 := by
  cases e with
  | send payload config pick =>
    rcases (sendRequest_ok (step_send_ok h)).2 with h1 | ⟨ch, hch, _, _, h1⟩
    · subst h1
      exact ⟨hi.counter, hi.waiting, hi.returned⟩
    · subst h1
      refine ⟨hi.counter, ?_, ?_⟩
      · intro hw
        have := hi.waiting hw
        rw [hch] at this
        cases this
      · intro h2 h3
        have := (hi.returned h2 h3).1
        rw [hch] at this
        cases this
  | select i pick =>
    obtain ⟨hp, h1 | ⟨ch, req, rest, hch, hbuf, h1⟩⟩ := workerSelect_ok h
    · exact closeInv_return hi hp rfl h1
    · subst h1
      have hm := closeInv_move (x := Worker.calling req) hi hp rfl rfl
      refine ⟨hm.counter, ?_, ?_⟩
      · intro hw
        have := hi.waiting hw
        rw [hch] at this
        cases this
      · intro h2 h3
        have := (hi.returned h2 h3).1
        rw [hch] at this
        cases this
  | callDone i resp err =>
    obtain ⟨req, hp, h1 | ⟨_, _, h1⟩ | ⟨_, id, _, h1⟩⟩ := workerCallDone_ok h
    · exact closeInv_return hi hp rfl h1.2
    · subst h1
      exact closeInv_move hi hp rfl rfl
    · subst h1
      exact closeInv_move hi hp rfl rfl
  | respond i =>
    obtain ⟨req, resp, id, rc, hp, _, _, _, _, h1⟩ := workerRespond_ok h
    subst h1
    have hm := closeInv_move (x := Worker.idle) hi hp rfl rfl
    exact ⟨hm.counter, hm.waiting, hm.returned⟩
  | closeCancel =>
    obtain ⟨_, h1⟩ := closeCancel_ok h
    subst h1
    exact ⟨hi.counter, fun hw => (by cases hw), fun h2 => (by cases h2)⟩
  | closeChannel =>
    obtain ⟨_, ⟨hn, h1⟩ | ⟨ch, hch, _, h1⟩⟩ := closeChannel_ok h
    · subst h1
      exact ⟨hi.counter, fun _ => hn, fun h2 => (by cases h2)⟩
    · subst h1
      exact ⟨hi.counter, fun hw => (by cases hw), fun h2 => (by cases h2)⟩
  | closeClear =>
    obtain ⟨_, h1⟩ := closeClear_ok h
    subst h1
    exact ⟨hi.counter, fun _ => rfl, fun h2 => (by cases h2)⟩
  | closeWait =>
    obtain ⟨hw, hz, h1⟩ := closeWait_ok h
    subst h1
    exact ⟨hi.counter, fun h2 => (by cases h2), fun _ _ => ⟨hi.waiting hw, hz⟩⟩

theorem Reachable.closeInv {w : World} (h : Reachable w) : CloseInv w := by
  induction h with
  | init n wg0 => exact closeInv_init n wg0
  | next e _ hs ih => exact closeInv_step e ih hs

theorem run_snoc {w w1 : World} (evs : List Event) (e : Event)
    (h : run w (evs ++ [e]) = .ok w1) :
    ∃ w0, run w evs = .ok w0 ∧ step w0 e = .ok w1 := by
  induction evs generalizing w with
  | nil =>
    simp only [List.nil_append, Jarvis.run] at h
    split at h
    · rename_i w2 hs
      simp only [Res.ok.injEq] at h
      exact ⟨w, rfl, h ▸ hs⟩
    · cases h
    · cases h
  | cons e1 es ih =>
    simp only [List.cons_append, Jarvis.run] at h ⊢
    split at h
    · rename_i w2 hs
      obtain ⟨w0, h1, h2⟩ := ih h
      exact ⟨w0, h1, h2⟩
    · cases h
    · cases h

/-- Cancellation is never withdrawn. -/
theorem cancelled_step {w w1 : World} (e : Event) (hc : w.client.cancelled = true)
    (h : step w e = .ok w1) : w1.client.cancelled = true := by
  cases e with
  | send payload config pick =>
    rcases (sendRequest_ok (step_send_ok h)).2 with h1 | ⟨ch, _, _, _, h1⟩ <;>
      (subst h1; exact hc)
  | select i pick =>
    rcases (workerSelect_ok h).2 with h1 | ⟨ch, req, rest, _, _, h1⟩
    · rw [(workerReturn_ok h1).2]
      exact hc
    · subst h1
      exact hc
  | callDone i resp err =>
    obtain ⟨req, _, h1 | ⟨_, _, h1⟩ | ⟨_, id, _, h1⟩⟩ := workerCallDone_ok h
    · rw [(workerReturn_ok h1.2).2]
      exact hc
    · subst h1
      exact hc
    · subst h1
      exact hc
  | respond i =>
    obtain ⟨req, resp, id, rc, _, _, _, _, _, h1⟩ := workerRespond_ok h
    subst h1
    exact hc
  | closeCancel =>
    rw [(closeCancel_ok h).2]
  | closeChannel =>
    obtain ⟨_, ⟨_, h1⟩ | ⟨ch, _, _, h1⟩⟩ := closeChannel_ok h <;> (subst h1; exact hc)
  | closeClear =>
    rw [(closeClear_ok h).2]
    exact hc
  | closeWait =>
    rw [(closeWait_ok h).2.2]
    exact hc

theorem liveWorkers_pos {pool : List Worker} {i : Nat} {y : Worker}
    (hp : pool[i]? = some y) (hy : y.alive = 1) : 1 ≤ liveWorkers pool := by
  have hl := liveWorkers_set (x := Worker.exited) hp
  rw [hy] at hl
  have he : Worker.exited.alive = 0 := rfl
  omega

/-- With cancellation raised, a worker that is in a call or has returned never
gets back to the outer `select`. -/
theorem inCall_step {w w1 : World} {i : Nat} {req : APIRequest} (e : Event)
    (hc : w.client.cancelled = true)
    (hp : w.pool[i]? = some (Worker.calling req) ∨ w.pool[i]? = some Worker.exited)
    (h : step w e = .ok w1) :
    w1.pool[i]? = some (Worker.calling req) ∨ w1.pool[i]? = some Worker.exited := by
  have hlt : i < w.pool.length := by
    rcases hp with hp | hp <;> exact (List.getElem?_eq_some.mp hp).1
  have hset : ∀ (j : Nat) (x y : Worker), w.pool[j]? = some y →
      (y = Worker.calling req ∨ y = Worker.exited → x = Worker.calling req ∨ x = Worker.exited) →
      (w.pool.set j x)[i]? = some (Worker.calling req) ∨
      (w.pool.set j x)[i]? = some Worker.exited := by
    intro j x y hj hxy
    by_cases hji : j = i
    · subst hji
      rw [List.getElem?_set_self hlt]
      rw [hj] at hp
      simp only [Option.some.injEq] at hp
      rcases hxy hp with hx | hx <;> simp [hx]
    · rw [List.getElem?_set_ne hji]
      exact hp
  cases e with
  | send payload config pick =>
    rcases (sendRequest_ok (step_send_ok h)).2 with h1 | ⟨ch, _, _, _, h1⟩ <;>
      (subst h1; exact hp)
  | select j pick =>
    obtain ⟨hj, h1 | ⟨ch, r, rest, _, _, h1⟩⟩ := workerSelect_ok h
    · rw [(workerReturn_ok h1).2]
      exact hset j _ _ hj (fun _ => Or.inr rfl)
    · subst h1
      exact hset j _ _ hj (fun hy => by rcases hy with hy | hy <;> cases hy)
  | callDone j resp err =>
    obtain ⟨r, hj, h1 | ⟨hn, _⟩ | ⟨hn, _⟩⟩ := workerCallDone_ok h
    · rw [(workerReturn_ok h1.2).2]
      exact hset j _ _ hj (fun _ => Or.inr rfl)
    · rw [hc] at hn
      cases hn
    · rw [hc] at hn
      cases hn
  | respond j =>
    obtain ⟨r, resp, id, rc, hj, _, _, _, _, h1⟩ := workerRespond_ok h
    subst h1
    exact hset j _ _ hj (fun hy => by rcases hy with hy | hy <;> cases hy)
  | closeCancel =>
    rw [(closeCancel_ok h).2]
    exact hp
  | closeChannel =>
    obtain ⟨_, ⟨_, h1⟩ | ⟨ch, _, _, h1⟩⟩ := closeChannel_ok h <;> (subst h1; exact hp)
  | closeClear =>
    rw [(closeClear_ok h).2]
    exact hp
  | closeWait =>
    rw [(closeWait_ok h).2.2]
    exact hp

theorem inCall_run {w w1 : World} {i : Nat} {req : APIRequest} (evs : List Event)
    (hc : w.client.cancelled = true)
    (hp : w.pool[i]? = some (Worker.calling req) ∨ w.pool[i]? = some Worker.exited)
    (h : run w evs = .ok w1) :
    w1.pool[i]? = some (Worker.calling req) ∨ w1.pool[i]? = some Worker.exited := by
  induction evs generalizing w with
  | nil =>
    simp only [Jarvis.run, Res.ok.injEq] at h
    exact h ▸ hp
  | cons e es ih =>
    simp only [Jarvis.run] at h
    split at h
    · rename_i w2 hs
      exact ih (cancelled_step e hc hs) (inCall_step e hc hp hs) h
    · cases h
    · cases h

theorem midCallWorld_reachable : Reachable midCallWorld :=
  Reachable.run [Event.send (some "status") sampleConfig 0, Event.select 0 0,
    Event.closeCancel] (Reachable.init 1 0) rfl

/-- C5: a worker that is in the middle of an outbound call when the cancellation
signal is raised completes that call (whatever it returns) by exiting, leaving the
queue and all response channels as they were; and in every later state it is
still in that call or has exited, so its outer `select`, the only place where a
request is dequeued, is never run again. -/
theorem worker_in_call_exits_after_cancel (w : World) (i : Nat) (req : APIRequest)
    (hr : Reachable w) (hc : w.client.cancelled = true)
    (hp : w.pool[i]? = some (Worker.calling req)) :
    (∀ resp err : Option String, ∃ w1, step w (Event.callDone i resp err) = .ok w1 ∧
      w1.pool[i]? = some Worker.exited ∧ w1.queue = w.queue ∧ w1.chans = w.chans) ∧
    (∀ (evs : List Event) (w1 : World), run w evs = .ok w1 →
      (w1.pool[i]? = some (Worker.calling req) ∨ w1.pool[i]? = some Worker.exited) ∧
      ∀ pick : Nat, step w1 (Event.select i pick) = .blocked) := by
  have hlt : i < w.pool.length := (List.getElem?_eq_some.mp hp).1
  refine ⟨?_, ?_⟩
  · intro resp err
    obtain ⟨base, hb⟩ := hr.closeInv.counter
    have hpos := liveWorkers_pos hp rfl
    have hwg : ¬ (w.client.wg - 1 < 0) := by omega
    refine ⟨{ w with client := { w.client with wg := w.client.wg - 1 },
                     pool := w.pool.set i Worker.exited }, ?_, ?_, rfl, rfl⟩
    · simp [step, workerCallDone, hp, hc, workerReturn, wgDone, hwg]
    · exact List.getElem?_set_self hlt
  · intro evs w1 hrun
    have h1 := inCall_run evs hc (Or.inl hp) hrun
    refine ⟨h1, ?_⟩
    intro pick
    rcases h1 with h2 | h2 <;> simp [step, workerSelect, h2]

/-- Witness for C5: the worker of `midCallWorld`. -/
theorem worker_in_call_exits_after_cancel_witness :
    (∀ resp err : Option String, ∃ w1,
      step midCallWorld (Event.callDone 0 resp err) = .ok w1 ∧
      w1.pool[0]? = some Worker.exited ∧ w1.queue = midCallWorld.queue ∧
      w1.chans = midCallWorld.chans) ∧
    (∀ (evs : List Event) (w1 : World), run midCallWorld evs = .ok w1 →
      (w1.pool[0]? = some (Worker.calling (sampleRequest 0)) ∨
        w1.pool[0]? = some Worker.exited) ∧
      ∀ pick : Nat, step w1 (Event.select 0 pick) = .blocked) :=
  worker_in_call_exits_after_cancel midCallWorld 0 (sampleRequest 0)
    midCallWorld_reachable rfl rfl

/-- The state in which `wg.Wait()` lets `Close` return. -/
theorem close_return_state {w0 w1 : World} (hr : Reachable w0)
    (h : step w0 Event.closeWait = .ok w1) :
    w1.client.cancelled = true ∧ w1.client.requestCh = none ∧ w1.client.wg = 0 ∧
    (∀ p ∈ w1.pool, p = Worker.exited) ∧ w1.closer = Closer.idle := by
  obtain ⟨hw, hz, h1⟩ := closeWait_ok h
  subst h1
  have hq := hr.queueInv
  have hi := hr.closeInv
  have hcan : w0.client.cancelled = true := by
    by_contra hc
    have := (hq.live (by simpa using hc)).1
    rw [hw] at this
    cases this
  obtain ⟨base, hb⟩ := hi.counter
  have hlive : liveWorkers w0.pool = 0 := by omega
  exact ⟨hcan, hi.waiting hw, hz, liveWorkers_eq_zero hlive, rfl⟩

/-- A second `Close` on a dispatcher whose first `Close` has returned. -/
theorem close_again {w : World} (hidle : w.closer = Closer.idle)
    (hc : w.client.cancelled = true) (hn : w.client.requestCh = none)
    (hz : w.client.wg = 0) : Close w = .ok w := by
  obtain ⟨⟨rq, n, wg, c⟩, pool, chans, closer⟩ := w
  simp only at hidle hc hn hz
  subst hidle hc hn hz
  rfl

/-- The return of `Close`: when a call of `Close` returns, whatever the other
goroutines did in between, the cancellation signal is raised (it is raised by
the first action of `Close`), the request queue field is nil, and every worker of
the dispatcher has exited. -/
theorem close_returns_after_workers_exit (w w1 : World) (evs : List Event)
    (hr : Reachable w)
    (hrun : run w ((Event.closeCancel :: evs) ++ [Event.closeWait]) = .ok w1) :
    (∃ w0, step w Event.closeCancel = .ok w0 ∧ w0.client.cancelled = true) ∧
    w1.client.cancelled = true ∧ w1.client.requestCh = none ∧ w1.queue = [] ∧
    (∀ p ∈ w1.pool, p = Worker.exited) ∧ w1.closer = Closer.idle := by
  obtain ⟨w0, h0, h1⟩ := run_snoc _ _ hrun
  have hr0 : Reachable w0 := Reachable.run _ hr h0
  obtain ⟨hc, hn, _, hp, hcl⟩ := close_return_state hr0 h1
  refine ⟨?_, hc, hn, by simp [World.queue, hn], hp, hcl⟩
  simp only [Jarvis.run] at h0
  split at h0
  · rename_i w2 hs
    exact ⟨w2, hs, by rw [(closeCancel_ok hs).2]⟩
  · cases h0
  · cases h0

/-- On a one-worker dispatcher `Close` cancels, closes and clears the queue, the
worker exits, and `Close` returns. -/
theorem close_returns_after_workers_exit_witness :
    (∃ w0, step (NewAPIClient 1 0) Event.closeCancel = .ok w0 ∧
      w0.client.cancelled = true) ∧
    closedWorld.client.cancelled = true ∧ closedWorld.client.requestCh = none ∧
    closedWorld.queue = [] ∧ (∀ p ∈ closedWorld.pool, p = Worker.exited) ∧
    closedWorld.closer = Closer.idle :=
  close_returns_after_workers_exit (NewAPIClient 1 0) closedWorld
    [Event.closeChannel, Event.closeClear, Event.select 0 0] (Reachable.init 1 0) rfl

/-- C7: if `w1` is the state in which a call of `Close` has returned, a second
call of `Close` does not panic and does not block: it returns, and the state
after it is again `w1` (the nil test skips the second `close` of the channel). -/
theorem close_twice_is_noop (w w1 : World) (evs : List Event) (hr : Reachable w)
    (hrun : run w ((Event.closeCancel :: evs) ++ [Event.closeWait]) = .ok w1) :
    Close w1 = .ok w1 := by
  obtain ⟨w0, h0, h1⟩ := run_snoc _ _ hrun
  have hr0 : Reachable w0 := Reachable.run _ hr h0
  obtain ⟨hc, hn, hz, _, hcl⟩ := close_return_state hr0 h1
  exact close_again hcl hc hn hz

/-- Witness for C7: closing the closed one-worker dispatcher again. -/
theorem close_twice_is_noop_witness : Close closedWorld = .ok closedWorld :=
  close_twice_is_noop (NewAPIClient 1 0) closedWorld
    [Event.closeChannel, Event.closeClear, Event.select 0 0] (Reachable.init 1 0) rfl

/-! ## `Stop` of the plugin units -/

/-- C10, counterexample: for each of the three units as built by its `New`, the
first `Stop` closes the stop channel and the second `Stop` panics. -/
theorem stop_twice_panics :
    (Plugin.serviceMonitor ServiceMonitorPlugin.New).stopTwice
      = .panic "close of closed channel" ∧
    (Plugin.metric MetricPlugin.New).stopTwice = .panic "close of closed channel" ∧
    (Plugin.apiClient APIClientPlugin.New).stopTwice = .panic "close of closed channel" :=
  ⟨rfl, rfl, rfl⟩

/-- C10, amended: for every monitor unit whose stop channel is open, the first
`Stop` returns with the stop channel closed, and a second `Stop` panics with
"close of closed channel": `Stop` has no protection against a repeated call. -/
theorem stop_once_closes_twice_panics (u : Plugin) (ch : Chan Unit)
    (hs : u.stop = some ch) (hopen : ch.closed = false) :
    (∃ u1, u.Stop = .ok u1 ∧ u1.stop = some { ch with closed := true } ∧
      u1.Stop = .panic "close of closed channel") ∧
    u.stopTwice = .panic "close of closed channel" := by
  cases u with
  | serviceMonitor p =>
    simp only [Plugin.stop] at hs
    simp [Plugin.stopTwice, Plugin.Stop, ServiceMonitorPlugin.Stop, closeChan, Chan.close,
      Plugin.stop, hs, hopen]
  | metric p =>
    simp only [Plugin.stop] at hs
    simp [Plugin.stopTwice, Plugin.Stop, MetricPlugin.Stop, closeChan, Chan.close,
      Plugin.stop, hs, hopen]
  | apiClient p =>
    simp only [Plugin.stop] at hs
    simp [Plugin.stopTwice, Plugin.Stop, APIClientPlugin.Stop, closeChan, Chan.close,
      Plugin.stop, hs, hopen]

/-- Witness for the amended C10: the metric unit as built by `New`. -/
theorem stop_once_closes_twice_panics_witness :
    (∃ u1, (Plugin.metric MetricPlugin.New).Stop = .ok u1 ∧
      u1.stop = some { (Chan.make 0 : Chan Unit) with closed := true } ∧
      u1.Stop = .panic "close of closed channel") ∧
    (Plugin.metric MetricPlugin.New).stopTwice = .panic "close of closed channel" :=
  stop_once_closes_twice_panics (Plugin.metric MetricPlugin.New) (Chan.make 0) rfl rfl

/-! ## Lifecycle: the counter never returns to zero -/

namespace Lifecycle

theorem tasks_setUnit (s : Proc) (k : Kind) (u : UnitSt) :
    (s.setUnit k u).tasks + (s.unit k).tasks = s.tasks + u.tasks := by
  cases k <;> simp only [Proc.setUnit, Proc.tasks, Proc.unit] <;> omega

theorem counter_setUnit (s : Proc) (k : Kind) (u : UnitSt) :
    (s.setUnit k u).counter = s.counter := by
  cases k <;> rfl

theorem loggers_setUnit (s : Proc) (k : Kind) (u : UnitSt) :
    (s.setUnit k u).loggers = s.loggers := by
  cases k <;> rfl

theorem exit_setUnit (s : Proc) (k : Kind) (u : UnitSt) :
    (s.setUnit k u).exit = s.exit := by
  cases k <;> rfl

theorem unit_setUnit (s : Proc) (k j : Kind) (u : UnitSt) :
    (s.setUnit k u).unit j = if j = k then u else s.unit j := by
  cases k <;> cases j <;> rfl

/-- Replacing unit `k` and adding `d` to the counter keeps the invariant when the
unit's goroutine count changes by `d` as well. -/
theorem inv_update {s : Proc} (k : Kind) (u : UnitSt) (c : Int) (hi : Inv s)
    (hc : c + (s.unit k).tasks = s.counter + u.tasks)
    (hu : u.phase = Phase.spawned → u.workers = 0) :
    Inv (Proc.setUnit { s with counter := c } k u) := by
  obtain ⟨h1, h2, h3, h4⟩ := hi
  have ht := tasks_setUnit { s with counter := c } k u
  have ht1 : ({ s with counter := c } : Proc).tasks = s.tasks := rfl
  have hu1 : ({ s with counter := c } : Proc).unit k = s.unit k := by cases k <;> rfl
  rw [ht1, hu1] at ht
  refine ⟨?_, ?_, ?_, ?_⟩
  · rw [counter_setUnit]
    show c = _
    omega
  · rw [loggers_setUnit]
    exact h2
  · rw [exit_setUnit]
    exact h3
  · intro j hj
    rw [unit_setUnit] at hj ⊢
    by_cases hjk : j = k
    · simp only [hjk, if_true] at hj ⊢
      exact hu hj
    · simp only [hjk, if_false] at hj ⊢
      have : ({ s with counter := c } : Proc).unit j = s.unit j := by cases j <;> rfl
      rw [this] at hj ⊢
      exact h4 j hj

theorem inv_main (cfg : Config) : Inv (main cfg) := by
  obtain ⟨a, b, c, n, d, e⟩ := cfg
  by_cases hn : 0 < n <;> cases a <;> cases b <;> cases c <;> cases d <;> cases e <;>
    refine ⟨?_, ?_, ?_, ?_⟩ <;>
    first
      | (intro k; cases k <;>
          simp [main, NewLogger, spawn, Proc.setUnit, Proc.unit, hn])
      | simp [main, NewLogger, spawn, Proc.setUnit, Proc.tasks, UnitSt.tasks,
          Phase.active, hn]

theorem wgDone_ok {c c1 : Int} (h : wgDone c = .ok c1) : c1 = c - 1 := by
  unfold wgDone at h
  split at h
  · cases h
  · simp only [Res.ok.injEq] at h
    exact h.symm

theorem inv_step {s s1 : Proc} (e : Ev) (hi : Inv s) (h : step s e = .ok s1) : Inv s1 := by
  have hpos : 2 ≤ s.counter := by
    have h1 := hi.counter
    have h2 := hi.logger
    simp only [Proc.tasks] at h1
    omega
  unfold step at h
  split at h
  · cases h
  · rename_i hex
    cases e with
    | start k =>
      simp only at h
      split at h
      · rename_i hph
        simp only [Res.ok.injEq] at h
        subst h
        have hw := hi.fresh k hph
        refine inv_update k _ _ hi ?_ (fun hx => by cases hx)
        simp only [UnitSt.tasks, hph, hw, Phase.active]
        omega
      · cases h
    | leave k =>
      simp only at h
      split at h
      · rename_i hph
        split at h
        · split at h
          · split at h
            · rename_i c hc
              simp only [Res.ok.injEq] at h
              subst h
              have hc1 := wgDone_ok hc
              refine inv_update _ _ _ hi ?_ (fun hx => by cases hx)
              simp only [UnitSt.tasks, hph, Phase.active]
              omega
            · cases h
            · cases h
          · simp only [Res.ok.injEq] at h
            subst h
            have := inv_update k { (s.unit k) with phase := Phase.closing } s.counter hi
              (by simp only [UnitSt.tasks, hph, Phase.active])
              (fun hx => by cases hx)
            exact this
        · cases h
      · cases h
    | workerExit k =>
      simp only at h
      split at h
      · rename_i n hph hwk
        split at h
        · rename_i c hc
          simp only [Res.ok.injEq] at h
          subst h
          have hc1 := wgDone_ok hc
          refine inv_update _ _ _ hi ?_ (fun hx => by rw [hph] at hx; cases hx)
          simp only [UnitSt.tasks, hph, hwk, Phase.active]
          omega
        · cases h
        · cases h
      · cases h
    | closeReturn k =>
      simp only at h
      split at h
      · split at h
        · rename_i hz
          omega
        · cases h
      · cases h
    | signal =>
      simp only at h
      split at h
      · cases h
      · simp only [Res.ok.injEq] at h
        subst h
        exact ⟨hi.counter, hi.logger, hi.exit, hi.fresh⟩
    | quiesced =>
      simp only at h
      split at h
      · rename_i hz
        omega
      · cases h
    | timeout =>
      simp only at h
      split at h
      · simp only [Res.ok.injEq] at h
        subst h
        exact ⟨hi.counter, hi.logger, Or.inr rfl, hi.fresh⟩
      · cases h

theorem inv_run {s s1 : Proc} (evs : List Ev) (hi : Inv s) (h : run s evs = .ok s1) :
    Inv s1 := by
  induction evs generalizing s with
  | nil =>
    simp only [run, Res.ok.injEq] at h
    exact h ▸ hi
  | cons e es ih =>
    simp only [run] at h
    split at h
    · rename_i s2 hs
      exact ih (inv_step e hi hs) h
    · cases h
    · cases h

theorem run_append_one (s : Proc) (evs : List Ev) (e : Ev) :
    run s (evs ++ [e]) =
      match run s evs with
      | .ok s1 => step s1 e
      | .blocked => .blocked
      | .panic m => .panic m := by
  induction evs generalizing s with
  | nil =>
    simp only [List.nil_append, run]
    cases step s e <;> rfl
  | cons e1 es ih =>
    simp only [List.cons_append, run]
    cases step s e1 with
    | ok s2 => exact ih s2
    | blocked => rfl
    | panic m => rfl

theorem exit_of_run (cfg : Config) (evs : List Ev) :
    exitOf (run (main cfg) evs) = none ∨ exitOf (run (main cfg) evs) = some 1 := by
  cases h : run (main cfg) evs with
  | ok s => exact (inv_run evs (inv_main cfg) h).exit
  | blocked => exact Or.inl rfl
  | panic m => exact Or.inl rfl

theorem quiesced_never_fires (cfg : Config) (evs : List Ev) :
    exitOf (run (main cfg) (evs ++ [Ev.quiesced])) = none := by
  rw [run_append_one]
  cases h : run (main cfg) evs with
  | ok s =>
    have hi := inv_run evs (inv_main cfg) h
    have h1 := hi.counter
    have hne : ¬ (s.counter = 0) := by omega
    simp only [step]
    cases hex : s.exit with
    | none => simp [hne, exitOf]
    | some c => simp [exitOf]
  | blocked => rfl
  | panic m => rfl

theorem surplus_of_run (cfg : Config) (evs : List Ev) :
    surplusOf (run (main cfg) evs) = none ∨ surplusOf (run (main cfg) evs) = some 1 := by
  cases h : run (main cfg) evs with
  | ok s =>
    right
    have h1 := (inv_run evs (inv_main cfg) h).counter
    simp only [surplusOf, Option.some.injEq]
    omega
  | blocked => exact Or.inl rfl
  | panic m => exact Or.inl rfl

end Lifecycle

theorem plugin_stop_not_blocked (u : Plugin) :
    (∃ u1, u.Stop = .ok u1) ∨ ∃ m, u.Stop = .panic m := by
  cases u with
  | serviceMonitor p =>
    rcases p with ⟨_ | ch, sv, st⟩
    · right; exact ⟨_, rfl⟩
    · cases hc : ch.closed <;>
        simp [Plugin.Stop, ServiceMonitorPlugin.Stop, closeChan, Chan.close, hc]
  | metric p =>
    rcases p with ⟨_ | ch⟩
    · right; exact ⟨_, rfl⟩
    · cases hc : ch.closed <;>
        simp [Plugin.Stop, MetricPlugin.Stop, closeChan, Chan.close, hc]
  | apiClient p =>
    rcases p with ⟨_ | ch⟩
    · right; exact ⟨_, rfl⟩
    · cases hc : ch.closed <;>
        simp [Plugin.Stop, APIClientPlugin.Stop, closeChan, Chan.close, hc]

theorem stopAll_not_blocked (units : List Plugin) :
    (∃ us, StopAll units = .ok us) ∨ ∃ m, StopAll units = .panic m := by
  induction units with
  | nil => left; exact ⟨[], rfl⟩
  | cons u us ih =>
    rcases plugin_stop_not_blocked u with ⟨u1, h1⟩ | ⟨m, h1⟩
    · rcases ih with ⟨us1, h2⟩ | ⟨m, h2⟩
      · left; exact ⟨u1 :: us1, by simp [StopAll, h1, h2]⟩
      · right; exact ⟨m, by simp [StopAll, h1, h2]⟩
    · right; exact ⟨m, by simp [StopAll, h1]⟩

theorem onSignal_exit (units : List Plugin) :
    onSignal units = .ok 1 ∨ ∃ m, onSignal units = .panic m := by
  rcases stopAll_not_blocked units with ⟨us, h⟩ | ⟨m, h⟩
  · left; simp [onSignal, h, terminate, ExitFailure]
  · right; exact ⟨m, by simp [onSignal, h]⟩

namespace Lifecycle

/-- C8, the code at the failing inputs: for every configuration and every
interleaving the exit code of the Windows agent is never 0, because `wg.Wait()`
never sees the counter at zero.  With every monitor disabled no unit is running,
the counter is 2, and a termination request ends in exit code 1 when the timer
fires; with only the web-API monitor, the monitor returns after the signal, no
unit is running, the counter is 5, `quiesced` cannot fire and the timer ends the
process with exit code 1.  The plugin-based agent's signal handler always exits
with `ExitFailure`. -/
theorem shutdown_never_exits_zero :
    (∀ (cfg : Config) (evs : List Ev),
      exitOf (run (main cfg) evs) = none ∨ exitOf (run (main cfg) evs) = some 1) ∧
    (∀ (cfg : Config) (evs : List Ev),
      exitOf (run (main cfg) (evs ++ [Ev.quiesced])) = none) ∧
    ((main quietConfig).unitsRunning = 0 ∧ (main quietConfig).counter = 2 ∧
      exitOf (run (main quietConfig) [Ev.signal, Ev.quiesced]) = none ∧
      exitOf (run (main quietConfig) [Ev.signal, Ev.timeout]) = some 1) ∧
    (∃ s, run (main webapiConfig) [Ev.signal, Ev.leave Kind.webapi] = .ok s ∧
      s.unitsRunning = 0 ∧ s.counter = 5 ∧ step s Ev.quiesced = .blocked ∧
      exitOf (step s Ev.timeout) = some 1) ∧
    (∀ units : List Plugin, onSignal units = .ok 1 ∨ ∃ m, onSignal units = .panic m) :=
  ⟨exit_of_run, quiesced_never_fires, ⟨rfl, rfl, rfl, rfl⟩, ⟨_, rfl, rfl, rfl, rfl, rfl⟩,
    onSignal_exit⟩

/-- C9, the code at the failing inputs: for every configuration and every
interleaving the WaitGroup counter is exactly one above the number of started,
uncompleted goroutines, because the `wg.Add(1)` "for the main goroutine" has no
`wg.Done()`; with every monitor disabled the counter is 2 with one goroutine (the
log consumer) running.  The event-log unit is counted once when spawned, and its
return runs two `wg.Done()` calls. -/
theorem counter_one_above_running_tasks :
    (∀ (cfg : Config) (evs : List Ev),
      surplusOf (run (main cfg) evs) = none ∨ surplusOf (run (main cfg) evs) = some 1) ∧
    ((main quietConfig).counter = 2 ∧ (main quietConfig).tasks = 1) ∧
    ((main winlogsConfig).counter = (main quietConfig).counter + 1 ∧
      (main winlogsConfig).winlogs.phase = Phase.spawned ∧
      donesOnReturn Kind.winlogs = 2 ∧
      wgDoneTimes (donesOnReturn Kind.winlogs) (main winlogsConfig).counter = .ok 1) :=
  ⟨surplus_of_run, ⟨rfl, rfl⟩, ⟨rfl, rfl, rfl, rfl⟩⟩

end Lifecycle

/-! ## Local log sink and syslog -/

theorem trySend_room {α : Type} (ch : Chan α) (v : α) (hopen : ch.closed = false)
    (h : ch.buf.length < ch.cap) :
    ch.trySend v = .ok (some { ch with buf := ch.buf ++ [v] }) := by
  simp [Chan.trySend, Chan.canSend, Chan.send, hopen, h]

theorem trySend_full {α : Type} (ch : Chan α) (v : α) (hopen : ch.closed = false)
    (h : ch.buf.length = ch.cap) : ch.trySend v = .ok none := by
  simp [Chan.trySend, Chan.canSend, hopen, h]

/-- C12: for every source, level and message and every open log buffer of
capacity 1000, of the Windows logger (whose syslog buffer is open too) and of the
plugin-based agent's logger, `Log` returns without blocking or panicking: with
fewer than 1000 records buffered the record is appended at the tail of the
buffer and nothing is written directly; with 1000 records buffered the buffer is
unchanged and the line "[source][level] message (buffer full)" is written to
standard output at once. -/
theorem log_never_blocks_never_drops (l : Logger) (k : Linux.Logger)
    (source level message : String)
    (hopen : l.logChan.closed = false) (hcap : l.logChan.cap = 1000)
    (hsys : l.syslogChan.closed = false)
    (kopen : k.logChan.closed = false) (kcap : k.logChan.cap = 1000) :
    (l.logChan.buf.length < 1000 →
      ∃ l1, l.Log source level message = .ok (l1, []) ∧
        l1.logChan.buf = l.logChan.buf ++ [LogMessage.mk source level message] ∧
        l1.logChan.closed = false) ∧
    (l.logChan.buf.length = 1000 →
      ∃ l1, l.Log source level message =
          .ok (l1, ["[" ++ source ++ "][" ++ level ++ "] " ++ message ++ " (buffer full)\n"]) ∧
        l1.logChan = l.logChan) ∧
    (k.logChan.buf.length < 1000 →
      ∃ k1, k.Log source level message = .ok (k1, []) ∧
        k1.logChan.buf = k.logChan.buf ++ [LogMessage.mk source level message] ∧
        k1.logChan.closed = false) ∧
    (k.logChan.buf.length = 1000 →
      k.Log source level message =
        .ok (k, ["[" ++ source ++ "][" ++ level ++ "] " ++ message ++ " (buffer full)\n"])) := by
  have hsysSend : ∀ v : LogMessage, (∃ ch, l.syslogChan.trySend v = .ok (some ch)) ∨
      l.syslogChan.trySend v = .ok none := by
    intro v
    by_cases h : l.syslogChan.buf.length < l.syslogChan.cap
    · exact Or.inl ⟨_, trySend_room _ v hsys h⟩
    · right
      simp [Chan.trySend, Chan.canSend, hsys, h]
  refine ⟨?_, ?_, ?_, ?_⟩
  · intro hlen
    have h1 := trySend_room l.logChan (LogMessage.mk source level message) hopen
      (by rw [hcap]; exact hlen)
    cases hc : l.syslogClient with
    | none =>
      refine ⟨Logger.mk (Chan.mk (l.logChan.buf ++ [LogMessage.mk source level message])
        l.logChan.cap l.logChan.closed) l.syslogChan none, ?_, rfl, hopen⟩
      simp only [Logger.Log, h1, hc]
    | some sc =>
      rcases hsysSend (LogMessage.mk source level message) with ⟨ch, h2⟩ | h2
      · refine ⟨Logger.mk (Chan.mk (l.logChan.buf ++ [LogMessage.mk source level message])
          l.logChan.cap l.logChan.closed) ch (some sc), ?_, rfl, hopen⟩
        simp only [Logger.Log, h1, hc, h2]
      · refine ⟨Logger.mk (Chan.mk (l.logChan.buf ++ [LogMessage.mk source level message])
          l.logChan.cap l.logChan.closed) l.syslogChan (some sc), ?_, rfl, hopen⟩
        simp only [Logger.Log, h1, hc, h2]
  · intro hlen
    have h1 := trySend_full l.logChan (LogMessage.mk source level message) hopen
      (by rw [hcap]; exact hlen)
    cases hc : l.syslogClient with
    | none =>
      refine ⟨l, ?_, rfl⟩
      simp only [Logger.Log, h1, hc, bufferFullLine]
    | some sc =>
      rcases hsysSend (LogMessage.mk source level message) with ⟨ch, h2⟩ | h2
      · refine ⟨{ l with syslogChan := ch }, ?_, rfl⟩
        simp only [Logger.Log, h1, hc, h2, bufferFullLine]
      · refine ⟨l, ?_, rfl⟩
        simp only [Logger.Log, h1, hc, h2, bufferFullLine]
  · intro hlen
    have h1 := trySend_room k.logChan (LogMessage.mk source level message) kopen
      (by rw [kcap]; exact hlen)
    refine ⟨Linux.Logger.mk (Chan.mk (k.logChan.buf ++ [LogMessage.mk source level message])
      k.logChan.cap k.logChan.closed), ?_, rfl, kopen⟩
    simp only [Linux.Logger.Log, h1]
  · intro hlen
    have h1 := trySend_full k.logChan (LogMessage.mk source level message) kopen
      (by rw [kcap]; exact hlen)
    simp only [Linux.Logger.Log, h1, bufferFullLine]

/-- Witness for C12: the full Windows logger prints the record, the empty logger
of the plugin-based agent buffers it. -/
theorem log_never_blocks_never_drops_witness :
    (∃ l1, fullLogger.Log "API" "ERROR" "timeout" =
        .ok (l1, ["[" ++ "API" ++ "][" ++ "ERROR" ++ "] " ++ "timeout" ++ " (buffer full)\n"]) ∧
      l1.logChan = fullLogger.logChan) ∧
    (∃ k1, Linux.NewLogger.Log "API" "ERROR" "timeout" = .ok (k1, []) ∧
      k1.logChan.buf = Linux.NewLogger.logChan.buf ++ [LogMessage.mk "API" "ERROR" "timeout"] ∧
      k1.logChan.closed = false) :=
  ⟨(log_never_blocks_never_drops fullLogger Linux.NewLogger "API" "ERROR" "timeout"
      rfl rfl rfl rfl rfl).2.1
      (by simp only [fullLogger, List.length_replicate]),
   (log_never_blocks_never_drops fullLogger Linux.NewLogger "API" "ERROR" "timeout"
      rfl rfl rfl rfl rfl).2.2.1 (by simp [Linux.NewLogger, Chan.make])⟩

/-- C13: `getPriority` maps "ERROR" to 3, "WARN" to 4, "INFO" to 6, "DEBUG" to 7
and every other string to 6. -/
theorem getPriority_table :
    getPriority "ERROR" = 3 ∧ getPriority "WARN" = 4 ∧ getPriority "INFO" = 6 ∧
    getPriority "DEBUG" = 7 ∧
    ∀ level : String, level ≠ "ERROR" → level ≠ "WARN" → level ≠ "INFO" →
      level ≠ "DEBUG" → getPriority level = 6 := by
  refine ⟨rfl, rfl, rfl, rfl, ?_⟩
  intro level h1 h2 h3 h4
  unfold getPriority
  split <;> first | rfl | contradiction

/-- C14: on a client that holds a connection, for every priority, timestamp,
hostname, tag and content, when the send succeeds `Write` makes exactly one
network call, a single write of the bytes `<priority>timestamp hostname tag:
content` followed by a newline (priority in decimal, timestamp in RFC 3339), and
returns no error, leaving the client as it was. -/
theorem write_sends_one_formatted_line (c : SyslogClient) (conn : Conn) (env : NetEnv)
    (priority : Int) (timestamp : Time) (hostname tag content : String)
    (hconn : c.conn = ConnRef.live conn) (hok : env.writeErr = none) :
    c.Write env priority timestamp hostname tag content =
      .ok (c, [NetEffect.write ("<" ++ toString priority ++ ">" ++ timestamp.RFC3339 ++ " " ++
            hostname ++ " " ++ tag ++ ": " ++ content ++ "\n")], none) := by
  simp [SyslogClient.Write, SyslogClient.send, hconn, hok, syslogMessage]

/-- Witness for C14: an informational record sent over the TCP client. -/
theorem write_sends_one_formatted_line_witness :
    tcpClient.Write (NetEnv.mk none none) 6 (Time.mk "2026-11-04T10:00:00Z") "host1" "Service" "up"
      = .ok (tcpClient, [NetEffect.write "<6>2026-11-04T10:00:00Z host1 Service: up\n"], none) :=
  (write_sends_one_formatted_line tcpClient (Conn.mk "tcp" "logs:514" false)
    (NetEnv.mk none none) 6 (Time.mk "2026-11-04T10:00:00Z") "host1" "Service" "up"
    rfl rfl).trans (by decide)

/-- The part of the reconnect contract that holds: when the send on
the held connection fails, `Write` returns that error, closes the connection and
clears the field; and a `Write` on a client whose
connection field is nil first calls `connect`: if that succeeds the message is
written on the new connection (which is torn down again should this write fail),
and if it fails `Write` returns the connect error and writes nothing. -/
theorem write_failure_clears_then_reconnects (c : SyslogClient) (env : NetEnv)
    (priority : Int) (timestamp : Time) (hostname tag content : String) :
    (∀ (conn : Conn) (e : String), c.conn = ConnRef.live conn → env.writeErr = some e →
      c.Write env priority timestamp hostname tag content =
        .ok ({ c with conn := ConnRef.nil },
             [NetEffect.write (syslogMessage priority timestamp hostname tag content),
              NetEffect.close], some e)) ∧
    (c.conn = ConnRef.nil →
      (∀ (c1 : SyslogClient) (fx : List NetEffect) (e : String),
        c.connect env.dialErr = (c1, fx, some e) →
        c.Write env priority timestamp hostname tag content = .ok (c1, fx, some e) ∧
        ∀ b, NetEffect.write b ∉ fx) ∧
      (∀ (c1 : SyslogClient) (fx : List NetEffect),
        c.connect env.dialErr = (c1, fx, none) →
        (∃ conn, c1.conn = ConnRef.live conn ∧ fx = [NetEffect.dial conn.network c.address conn.tls]) ∧
        (env.writeErr = none →
          c.Write env priority timestamp hostname tag content =
            .ok (c1, fx ++ [NetEffect.write (syslogMessage priority timestamp hostname tag content)],
                 none)) ∧
        (∀ e, env.writeErr = some e →
          c.Write env priority timestamp hostname tag content =
            .ok ({ c1 with conn := ConnRef.nil },
                 fx ++ [NetEffect.write (syslogMessage priority timestamp hostname tag content),
                        NetEffect.close], some e)))) := by
  refine ⟨?_, ?_⟩
  · intro conn e hconn herr
    simp [SyslogClient.Write, SyslogClient.send, hconn, herr]
  · intro hnil
    have hfx : ∀ (c1 : SyslogClient) (fx : List NetEffect) (r : Option String),
        c.connect env.dialErr = (c1, fx, r) →
        (∀ b, NetEffect.write b ∉ fx) ∧
        (r = none → ∃ conn, c1.conn = ConnRef.live conn ∧
          fx = [NetEffect.dial conn.network c.address conn.tls]) := by
      intro c1 fx r h
      unfold SyslogClient.connect at h
      split at h
      · split at h
        · split at h <;>
            (simp only [Prod.mk.injEq] at h
             obtain ⟨h1, h2, h3⟩ := h
             subst h1 h2 h3
             simp)
        · split at h <;>
            (simp only [Prod.mk.injEq] at h
             obtain ⟨h1, h2, h3⟩ := h
             subst h1 h2 h3
             simp)
      · split at h
        · split at h <;>
            (simp only [Prod.mk.injEq] at h
             obtain ⟨h1, h2, h3⟩ := h
             subst h1 h2 h3
             simp)
        · simp only [Prod.mk.injEq] at h
          obtain ⟨h1, h2, h3⟩ := h
          subst h1 h2 h3
          simp
    refine ⟨?_, ?_⟩
    · intro c1 fx e h
      refine ⟨?_, (hfx c1 fx _ h).1⟩
      simp only [SyslogClient.Write, hnil, h]
    · intro c1 fx h
      obtain ⟨conn, hc1, hfx1⟩ := (hfx c1 fx _ h).2 rfl
      refine ⟨⟨conn, hc1, hfx1⟩, ?_, ?_⟩
      · intro hw
        simp only [SyslogClient.Write, hnil, h, SyslogClient.send, hc1, hw]
      · intro e hw
        simp only [SyslogClient.Write, hnil, h, SyslogClient.send, hc1, hw]

/-- Two concrete runs: the send of the TCP client fails with `broken pipe`; and
the reconnect of a TLS client whose field is nil fails with `refused`. -/
theorem write_failure_clears_then_reconnects_witness :
    tcpClient.Write (NetEnv.mk none (some "broken pipe")) 3 (Time.mk "2026-11-04T10:00:00Z")
        "host1" "API" "down" =
      .ok ({ tcpClient with conn := ConnRef.nil },
           [NetEffect.write (syslogMessage 3 (Time.mk "2026-11-04T10:00:00Z") "host1" "API" "down"),
            NetEffect.close], some "broken pipe") ∧
    (clearedTlsClient.Write (NetEnv.mk (some "refused") none) 3 (Time.mk "2026-11-04T10:00:01Z")
        "host1" "API" "down" =
      .ok ({ clearedTlsClient with conn := ConnRef.typedNil },
           [NetEffect.dial "tcp" "logs:6514" true], some "refused") ∧
      ∀ b, NetEffect.write b ∉ [NetEffect.dial "tcp" "logs:6514" true]) :=
  ⟨(write_failure_clears_then_reconnects tcpClient (NetEnv.mk none (some "broken pipe")) 3
      (Time.mk "2026-11-04T10:00:00Z") "host1" "API" "down").1 _ _ rfl rfl,
   ((write_failure_clears_then_reconnects clearedTlsClient (NetEnv.mk (some "refused") none) 3
      (Time.mk "2026-11-04T10:00:01Z") "host1" "API" "down").2 rfl).1 _ _ _ rfl⟩

/-- After a failed `tls.Dial` the connection field holds a typed nil, which is
not the nil interface: the next `Write` does not reconnect and dereferences it. -/
theorem write_after_failed_tls_dial_panics (env : NetEnv) (priority : Int) (timestamp : Time)
    (hostname tag content : String) :
    SyslogClient.Write { clearedTlsClient with conn := ConnRef.typedNil } env priority
        timestamp hostname tag content =
      .panic "invalid memory address or nil pointer dereference" := rfl

/-! ## Plugin loading -/

theorem loadPlugin_loads (pm : PluginManager) (f : PluginFile) (h : f.loads = true) :
    LoadPlugin pm f = ({ pm with plugins := mapSet pm.plugins f.name f.path }, none) := by
  simp only [PluginFile.loads, Bool.and_eq_true, Option.isNone_iff_eq_none] at h
  obtain ⟨⟨⟨⟨h1, h2⟩, h3⟩, h4⟩, h5⟩ := h
  simp [LoadPlugin, h1, h2, h3, h4, h5]

theorem loadPlugin_fails (pm : PluginManager) (f : PluginFile) (h : f.loads = false) :
    ∃ e, LoadPlugin pm f = (pm, some e) := by
  unfold LoadPlugin
  cases h1 : f.openErr with
  | some e => exact ⟨_, rfl⟩
  | none =>
    cases h2 : f.lookupErr with
    | some e => exact ⟨_, rfl⟩
    | none =>
      cases h3 : f.signatureOk with
      | false => exact ⟨_, rfl⟩
      | true =>
        cases h4 : f.constructed with
        | false => exact ⟨_, rfl⟩
        | true =>
          cases h5 : f.initErr with
          | some e => exact ⟨_, rfl⟩
          | none => simp [PluginFile.loads, h1, h2, h3, h4, h5] at h

theorem mem_keys_mapSet (m : List (String × String)) (k v name : String) :
    name ∈ (mapSet m k v).map Prod.fst ↔ name = k ∨ name ∈ m.map Prod.fst := by
  simp only [mapSet, List.map_append, List.mem_append, List.mem_map, List.mem_filter,
    List.map_cons, List.map_nil, List.mem_singleton, bne_iff_ne, ne_eq]
  constructor
  · rintro (⟨p, ⟨hp, _⟩, rfl⟩ | h)
    · exact Or.inr ⟨p, hp, rfl⟩
    · exact Or.inl h
  · rintro (h | ⟨p, hp, rfl⟩)
    · exact Or.inr h
    · by_cases hk : p.1 = k
      · exact Or.inr hk
      · exact Or.inl ⟨p, ⟨hp, hk⟩, rfl⟩

theorem mapSet_fresh (m : List (String × String)) (k v : String)
    (h : k ∉ m.map Prod.fst) : mapSet m k v = m ++ [(k, v)] := by
  unfold mapSet
  congr 1
  rw [List.filter_eq_self]
  intro p hp
  simp only [bne_iff_ne, ne_eq]
  intro e
  exact h (List.mem_map.mpr ⟨p, hp, e⟩)

theorem loadAll_cons_loads (pm : PluginManager) (f : PluginFile) (fs : List PluginFile)
    (h : f.loads = true) :
    loadAll pm (f :: fs) =
      ((loadAll { pm with plugins := mapSet pm.plugins f.name f.path } fs).1,
       f.path :: (loadAll { pm with plugins := mapSet pm.plugins f.name f.path } fs).2.1,
       (loadAll { pm with plugins := mapSet pm.plugins f.name f.path } fs).2.2) := by
  simp only [loadAll, loadPlugin_loads pm f h]

theorem loadAll_cons_fails (pm : PluginManager) (f : PluginFile) (fs : List PluginFile)
    (h : f.loads = false) :
    ∃ e, LoadPlugin pm f = (pm, some e) ∧
      loadAll pm (f :: fs) =
        ((loadAll pm fs).1, f.path :: (loadAll pm fs).2.1,
         ("Failed to load plugin " ++ f.path ++ ": " ++ e) :: (loadAll pm fs).2.2) := by
  obtain ⟨e, he⟩ := loadPlugin_fails pm f h
  exact ⟨e, he, by simp only [loadAll, he]⟩

theorem loadAll_tried (pm : PluginManager) (files : List PluginFile) :
    (loadAll pm files).2.1 = files.map PluginFile.path := by
  induction files generalizing pm with
  | nil => rfl
  | cons f fs ih =>
    cases h : f.loads with
    | true => rw [loadAll_cons_loads pm f fs h]; simp [ih]
    | false =>
      obtain ⟨e, _, he⟩ := loadAll_cons_fails pm f fs h
      rw [he]; simp [ih]

theorem loadAll_warns (pm : PluginManager) (files : List PluginFile) :
    (loadAll pm files).2.2.length = (files.filter (fun f => !f.loads)).length ∧
    ∀ w ∈ (loadAll pm files).2.2, ∃ f ∈ files, f.loads = false ∧
      ∃ e, w = "Failed to load plugin " ++ f.path ++ ": " ++ e := by
  induction files generalizing pm with
  | nil => exact ⟨rfl, fun w hw => by cases hw⟩
  | cons f fs ih =>
    cases h : f.loads with
    | true =>
      rw [loadAll_cons_loads pm f fs h]
      obtain ⟨h1, h2⟩ := ih { pm with plugins := mapSet pm.plugins f.name f.path }
      refine ⟨by simp [List.filter_cons, h, h1], ?_⟩
      intro w hw
      obtain ⟨g, hg, hgl, e, he⟩ := h2 w hw
      exact ⟨g, List.mem_cons_of_mem _ hg, hgl, e, he⟩
    | false =>
      obtain ⟨e, _, he⟩ := loadAll_cons_fails pm f fs h
      rw [he]
      obtain ⟨h1, h2⟩ := ih pm
      refine ⟨by simp [List.filter_cons, h, h1], ?_⟩
      intro w hw
      rcases List.mem_cons.mp hw with hw1 | hw1
      · exact ⟨f, List.mem_cons_self _ _, h, e, hw1⟩
      · obtain ⟨g, hg, hgl, e1, he1⟩ := h2 w hw1
        exact ⟨g, List.mem_cons_of_mem _ hg, hgl, e1, he1⟩

theorem loadAll_keys (pm : PluginManager) (files : List PluginFile) (name : String) :
    name ∈ (loadAll pm files).1.plugins.map Prod.fst ↔
      name ∈ pm.plugins.map Prod.fst ∨ ∃ f ∈ files, f.loads = true ∧ f.name = name := by
  induction files generalizing pm with
  | nil => simp [loadAll]
  | cons f fs ih =>
    cases h : f.loads with
    | true =>
      rw [loadAll_cons_loads pm f fs h]
      rw [ih, mem_keys_mapSet]
      constructor
      · rintro ((h1 | h1) | ⟨g, hg, hgl, hgn⟩)
        · exact Or.inr ⟨f, List.mem_cons_self _ _, h, h1.symm⟩
        · exact Or.inl h1
        · exact Or.inr ⟨g, List.mem_cons_of_mem _ hg, hgl, hgn⟩
      · rintro (h1 | ⟨g, hg, hgl, hgn⟩)
        · exact Or.inl (Or.inr h1)
        · rcases List.mem_cons.mp hg with h2 | h2
          · subst h2
            exact Or.inl (Or.inl hgn.symm)
          · exact Or.inr ⟨g, h2, hgl, hgn⟩
    | false =>
      obtain ⟨e, _, he⟩ := loadAll_cons_fails pm f fs h
      rw [he, ih]
      constructor
      · rintro (h1 | ⟨g, hg, hgl, hgn⟩)
        · exact Or.inl h1
        · exact Or.inr ⟨g, List.mem_cons_of_mem _ hg, hgl, hgn⟩
      · rintro (h1 | ⟨g, hg, hgl, hgn⟩)
        · exact Or.inl h1
        · rcases List.mem_cons.mp hg with h2 | h2
          · subst h2
            rw [h] at hgl
            cases hgl
          · exact Or.inr ⟨g, h2, hgl, hgn⟩

theorem loadAll_exact (pm : PluginManager) (files : List PluginFile)
    (hnd : ((files.filter PluginFile.loads).map PluginFile.name).Nodup)
    (hnew : ∀ f ∈ files, f.loads = true → f.name ∉ pm.plugins.map Prod.fst) :
    (loadAll pm files).1.plugins =
      pm.plugins ++ (files.filter PluginFile.loads).map (fun f => (f.name, f.path)) := by
  induction files generalizing pm with
  | nil => simp [loadAll]
  | cons f fs ih =>
    cases h : f.loads with
    | true =>
      rw [loadAll_cons_loads pm f fs h]
      simp only [List.filter_cons, h, if_true, List.map_cons, List.nodup_cons] at hnd ⊢
      have hf := hnew f (List.mem_cons_self _ _) h
      rw [ih _ hnd.2, mapSet_fresh _ _ _ hf]
      · simp
      · intro g hg hgl
        rw [mapSet_fresh _ _ _ hf]
        simp only [List.map_append, List.map_cons, List.map_nil, List.mem_append,
          List.mem_singleton, not_or]
        refine ⟨hnew g (List.mem_cons_of_mem _ hg) hgl, ?_⟩
        intro e
        exact hnd.1 (List.mem_map.mpr ⟨g, List.mem_filter.mpr ⟨hg, hgl⟩, e⟩)
    | false =>
      obtain ⟨e, _, he⟩ := loadAll_cons_fails pm f fs h
      rw [he]
      simp only [List.filter_cons, h] at hnd ⊢
      exact ih pm (by simpa using hnd) (fun g hg hgl => hnew g (List.mem_cons_of_mem _ hg) hgl)

/-- The run of `LoadPluginsFromDir` on a directory with one valid and one
malformed plugin file. -/
theorem load_good_and_bad :
    LoadPluginsFromDir NewPluginManager (.ok [goodFile, badFile]) =
      ({ plugins := [("Metric", "plugins/metric.so")] },
       ["plugins/metric.so", "plugins/broken.so"],
       ["Failed to load plugin plugins/broken.so: " ++
          "plugin plugins/broken.so 'New' function has wrong signature"],
       none) := by
  decide

/-! ## The outbound call -/

/-- The function `s_Request` on a request that asks for a decoded result (no
request built by `SendRequest` does): answered with status 200 and a body that
does not decode, it returns a nil result and an error. -/
theorem status_200_not_success :
    buildRequest garbledEnv decodingRequest =
      .ok { Method := "POST", URL := "http://collector/api", Body := some "status",
            Header := [] } ∧
    garbledEnv.transport = .ok (HTTPResponse.mk 200 "<html>") ∧
    s_Request garbledEnv decodingRequest =
      (none, some "error parsing response: invalid character") := by
  refine ⟨rfl, rfl, rfl⟩

/-- The function `s_Request` on any request, whether or not it asks for a
decoded result: for every request whose outbound call is made, a transport
error is returned as an error with nil result; a call that completes with a
status outside 200..299 gives a nil result and the error "API request failed
with status s: body"; a call that completes with a status in 200..299 succeeds
when no result was requested (nil result) or when the body decodes (the decoded
result), and gives a nil result and the error "error parsing response: ..." when
a result was requested and the body does not decode.  So `s_Request` reports
success exactly when the status is in 200..299 and, if a result was requested,
the body decodes. -/
theorem s_request_status_outcome (env : CallEnv) (req : APIRequest) (httpReq : HTTPRequest)
    (hb : buildRequest env req = .ok httpReq) :
    (∀ e, env.transport = .error e →
      s_Request env req = (none, some ("error sending request: " ++ e))) ∧
    (∀ resp, env.transport = .ok resp →
      (resp.StatusCode < 200 ∨ 300 ≤ resp.StatusCode →
        s_Request env req =
          (none, some ("API request failed with status " ++ toString resp.StatusCode ++ ": " ++
            resp.Body))) ∧
      (200 ≤ resp.StatusCode → resp.StatusCode < 300 →
        (req.Result = none → s_Request env req = (none, none)) ∧
        (∀ r v, req.Result = some r → env.decode = .ok v → s_Request env req = (v, none)) ∧
        (∀ r e, req.Result = some r → env.decode = .error e →
          s_Request env req = (none, some ("error parsing response: " ++ e)))) ∧
      ((s_Request env req).2 = none ↔
        200 ≤ resp.StatusCode ∧ resp.StatusCode < 300 ∧
          (req.Result = none ∨ ∃ v, env.decode = .ok v))) := by
  refine ⟨?_, ?_⟩
  · intro e ht
    simp only [s_Request, hb, ht]
  · intro resp ht
    have hbad : resp.StatusCode < 200 ∨ 300 ≤ resp.StatusCode →
        s_Request env req =
          (none, some ("API request failed with status " ++ toString resp.StatusCode ++ ": " ++
            resp.Body)) := by
      intro hs
      have hs1 : resp.StatusCode < 200 ∨ resp.StatusCode ≥ 300 := hs
      simp only [s_Request, hb, ht, hs1, if_true]
    have hgood : 200 ≤ resp.StatusCode → resp.StatusCode < 300 →
        s_Request env req =
          match req.Result with
          | none => (none, none)
          | some _ =>
              match env.decode with
              | .error e => (none, some ("error parsing response: " ++ e))
              | .ok v => (v, none) := by
      intro h1 h2
      have hs1 : ¬ (resp.StatusCode < 200 ∨ resp.StatusCode ≥ 300) := by omega
      simp only [s_Request, hb, ht, hs1, if_false]
    refine ⟨hbad, ?_, ?_⟩
    · intro h1 h2
      have hg := hgood h1 h2
      refine ⟨?_, ?_, ?_⟩
      · intro hr
        rw [hg, hr]
      · intro r v hr hd
        rw [hg, hr, hd]
      · intro r e hr hd
        rw [hg, hr, hd]
    · constructor
      · intro hok
        by_cases hs : resp.StatusCode < 200 ∨ 300 ≤ resp.StatusCode
        · rw [hbad hs] at hok
          cases hok
        · have h1 : 200 ≤ resp.StatusCode := by omega
          have h2 : resp.StatusCode < 300 := by omega
          refine ⟨h1, h2, ?_⟩
          rw [hgood h1 h2] at hok
          cases hr : req.Result with
          | none => exact Or.inl rfl
          | some r =>
            right
            rw [hr] at hok
            cases hd : env.decode with
            | error e =>
              rw [hd] at hok
              cases hok
            | ok v => exact ⟨v, rfl⟩
      · rintro ⟨h1, h2, hr | ⟨v, hd⟩⟩
        · rw [hgood h1 h2, hr]
        · rw [hgood h1 h2, hd]
          cases req.Result <;> rfl

/-- The request `SendRequest` builds for channel 0, answered with status 404. -/
theorem s_request_status_outcome_witness :
    s_Request { garbledEnv with transport := .ok (HTTPResponse.mk 404 "not found") }
        (sampleRequest 0) =
      (none, some ("API request failed with status " ++ toString (404 : Int) ++ ": " ++
        "not found")) :=
  ((s_request_status_outcome { garbledEnv with transport := .ok (HTTPResponse.mk 404 "not found") }
      (sampleRequest 0) _ rfl).2 (HTTPResponse.mk 404 "not found") rfl).1 (Or.inr (by decide))

theorem foldl_headerSet_keys (canonical : String → String) (hs : List APIHeader)
    (acc : List (String × String)) (name : String) :
    name ∈ (hs.foldl (fun h x => headerSet canonical h x.Key x.Value) acc).map Prod.fst ↔
      name ∈ acc.map Prod.fst ∨ ∃ h ∈ hs, canonical h.Key = name := by
  induction hs generalizing acc with
  | nil => simp
  | cons x xs ih =>
    simp only [List.foldl_cons]
    rw [ih, headerSet, mem_keys_mapSet]
    constructor
    · rintro ((h1 | h1) | ⟨h, hh, he⟩)
      · exact Or.inr ⟨x, List.mem_cons_self _ _, h1.symm⟩
      · exact Or.inl h1
      · exact Or.inr ⟨h, List.mem_cons_of_mem _ hh, he⟩
    · rintro (h1 | ⟨h, hh, he⟩)
      · exact Or.inl (Or.inr h1)
      · rcases List.mem_cons.mp hh with h2 | h2
        · subst h2
          exact Or.inl (Or.inl he.symm)
        · exact Or.inr ⟨h, h2, he⟩

theorem foldl_headerSet_distinct (canonical : String → String) (hs : List APIHeader)
    (acc : List (String × String))
    (hnd : (hs.map (fun h => canonical h.Key)).Nodup)
    (hnew : ∀ h ∈ hs, canonical h.Key ∉ acc.map Prod.fst) :
    hs.foldl (fun h x => headerSet canonical h x.Key x.Value) acc =
      acc ++ hs.map (fun h => (canonical h.Key, h.Value)) := by
  induction hs generalizing acc with
  | nil => simp
  | cons x xs ih =>
    simp only [List.map_cons, List.nodup_cons] at hnd
    have hx := hnew x (List.mem_cons_self _ _)
    have hset : headerSet canonical acc x.Key x.Value = acc ++ [(canonical x.Key, x.Value)] :=
      mapSet_fresh _ _ _ hx
    simp only [List.foldl_cons]
    rw [hset, ih _ hnd.2]
    · simp
    · intro h hh
      simp only [List.map_append, List.map_cons, List.map_nil, List.mem_append,
        List.mem_singleton, not_or]
      refine ⟨hnew h (List.mem_cons_of_mem _ hh), ?_⟩
      intro e
      exact hnd.1 (List.mem_map.mpr ⟨h, hh, e⟩)

theorem buildRequest_ok {env : CallEnv} {req : APIRequest} {httpReq : HTTPRequest}
    (hb : buildRequest env req = .ok httpReq) :
    httpReq = { Method := requestMethod req.Config.APIMethod,
                URL := env.parseURL req.Config.APIURL, Body := req.Payload,
                Header := if req.Config.APIAuthType = "apikey" then
                    headerSet env.canonical
                      (configuredHeaders env.canonical req.Config.APIHeaders)
                      "Authorization" ("Bearer " ++ req.Config.APIKey)
                  else configuredHeaders env.canonical req.Config.APIHeaders } := by
  unfold buildRequest at hb
  split at hb
  · cases hb
  · split at hb
    · cases hb
    · simp only [Except.ok.injEq] at hb
      exact hb.symm

/-- C17, counterexample: with auth type `basic` and a username and password, and
with auth type `bearer` and a token, the outbound request carries no header at
all, hence no credential. -/
theorem basic_and_bearer_carry_no_credential :
    buildRequest garbledEnv { sampleRequest 0 with Config := basicConfig } =
      .ok { Method := "POST", URL := "http://collector/api", Body := some "status",
            Header := [] } ∧
    buildRequest garbledEnv { sampleRequest 0 with Config := bearerConfig } =
      .ok { Method := "POST", URL := "http://collector/api", Body := some "status",
            Header := [] } :=
  ⟨rfl, rfl⟩

/-- C17, amended: for every destination config, the outbound request built by the
dispatcher has the configured method (`GET` when none is configured) and the URL
that `http.NewRequest` stores for the configured one, and carries every configured
header name, the headers being set in order under their canonical names (so with
distinct names all configured headers are carried as configured, and otherwise a
later header replaces an earlier one of the same name); for auth type `apikey` it
also carries the API key as a bearer token in the Authorization header, set last;
for any other auth type, basic aside, it carries the configured headers and no
credential. -/
theorem outbound_request_headers (env : CallEnv) (req : APIRequest) (httpReq : HTTPRequest)
    (hb : buildRequest env req = .ok httpReq) :
    (req.Config.APIMethod = "" → httpReq.Method = "GET") ∧
    (req.Config.APIMethod ≠ "" → httpReq.Method = req.Config.APIMethod) ∧
    httpReq.URL = env.parseURL req.Config.APIURL ∧
    (∀ h ∈ req.Config.APIHeaders, env.canonical h.Key ∈ httpReq.Header.map Prod.fst) ∧
    ((req.Config.APIHeaders.map (fun h => env.canonical h.Key)).Nodup →
      configuredHeaders env.canonical req.Config.APIHeaders =
        req.Config.APIHeaders.map (fun h => (env.canonical h.Key, h.Value))) ∧
    (req.Config.APIAuthType = "apikey" →
      httpReq.Header = headerSet env.canonical
        (configuredHeaders env.canonical req.Config.APIHeaders)
        "Authorization" ("Bearer " ++ req.Config.APIKey) ∧
      (env.canonical "Authorization", "Bearer " ++ req.Config.APIKey) ∈ httpReq.Header) ∧
    (req.Config.APIAuthType ≠ "apikey" → req.Config.APIAuthType ≠ "basic" →
      httpReq.Header = configuredHeaders env.canonical req.Config.APIHeaders) := by
  have hform := buildRequest_ok hb
  subst hform
  refine ⟨?_, ?_, rfl, ?_, ?_, ?_, ?_⟩
  · intro hm
    simp [requestMethod, hm]
  · intro hm
    simp [requestMethod, hm]
  · intro h hh
    have hk : env.canonical h.Key ∈
        (configuredHeaders env.canonical req.Config.APIHeaders).map Prod.fst := by
      unfold configuredHeaders
      rw [foldl_headerSet_keys]
      exact Or.inr ⟨h, hh, rfl⟩
    by_cases ha : req.Config.APIAuthType = "apikey"
    · simp only [ha, if_true, headerSet]
      rw [mem_keys_mapSet]
      exact Or.inr hk
    · simp only [ha, if_false]
      exact hk
  · intro hnd
    have := foldl_headerSet_distinct env.canonical req.Config.APIHeaders [] hnd
      (fun h _ => by simp)
    simpa [configuredHeaders] using this
  · intro ha
    constructor
    · simp only [ha, if_true]
    · simp [ha, headerSet, mapSet]
  · intro ha _
    simp only [ha, if_false]

/-- Witness for the amended C17: auth type `apikey` with key `k1` and one
configured header. -/
theorem outbound_request_headers_witness :
    buildRequest garbledEnv { sampleRequest 0 with Config := apikeyConfig } =
      .ok { Method := "POST", URL := "http://collector/api", Body := some "status",
            Header := [("Content-Type", "application/json"), ("Authorization", "Bearer k1")] } ∧
    ("Authorization", "Bearer " ++ "k1") ∈
      [("Content-Type", "application/json"), ("Authorization", "Bearer k1")] :=
  ⟨rfl, ((outbound_request_headers garbledEnv { sampleRequest 0 with Config := apikeyConfig }
      { Method := "POST", URL := "http://collector/api", Body := some "status",
        Header := [("Content-Type", "application/json"), ("Authorization", "Bearer k1")] }
      rfl).2.2.2.2.2.1 rfl).2⟩

/-! ## Waiting on a delivery -/

theorem chooseCase_map_some {γ : Type} (ready : List γ) (pick : Nat) (h : ready ≠ []) :
    ∃ c, c ∈ ready ∧ chooseCase (ready.map some) none pick = some c := by
  rcases chooseCase_mem (ready.map some) none pick with hm | ⟨he, _⟩
  · rcases List.mem_map.mp hm with ⟨c, hc, e⟩
    exact ⟨c, hc, e.symm⟩
  · exact absurd (List.map_eq_nil_iff.mp he) h

theorem await_none_iff (cases : List WaitCase) (env : WaitEnv) :
    await cases env = none ↔ waitReady cases env = [] := by
  constructor
  · intro h
    by_contra hne
    rcases chooseCase_map_some (waitReady cases env) env.pick hne with ⟨c, _, e⟩
    unfold await at h
    rw [e] at h
    cases h
  · intro h
    simp [await, h, chooseCase_nil]

theorem await_mem (cases : List WaitCase) (env : WaitEnv) (c : WaitCase)
    (h : await cases env = some c) : c ∈ waitReady cases env := by
  by_cases hne : waitReady cases env = []
  · rw [(await_none_iff cases env).mpr hne] at h
    cases h
  · rcases chooseCase_map_some (waitReady cases env) env.pick hne with ⟨d, hd, e⟩
    unfold await at h
    rw [e] at h
    cases h
    exact hd

theorem await_silent_response (shutdown : Bool) (elapsed pick : Nat) :
    await [WaitCase.response] (silentWait shutdown elapsed pick) = none := by
  rw [await_none_iff]
  simp [waitReady, silentWait, Chan.make, Chan.canRecv]

theorem await_three_some (env : WaitEnv) (h : env.shutdown = true ∨ 5 ≤ env.elapsed) :
    ∃ c, await [WaitCase.response, WaitCase.shutdown, WaitCase.timeout] env = some c := by
  cases hw : await [WaitCase.response, WaitCase.shutdown, WaitCase.timeout] env with
  | some c => exact ⟨c, rfl⟩
  | none =>
    exfalso
    rw [await_none_iff] at hw
    have h1 : WaitCase.shutdown ∉
        waitReady [WaitCase.response, WaitCase.shutdown, WaitCase.timeout] env := by
      rw [hw]; exact List.not_mem_nil _
    have h2 : WaitCase.timeout ∉
        waitReady [WaitCase.response, WaitCase.shutdown, WaitCase.timeout] env := by
      rw [hw]; exact List.not_mem_nil _
    simp only [waitReady, List.mem_filter, List.mem_cons, List.mem_singleton, true_or, or_true,
      true_and, reduceCtorEq, false_or, or_false, decide_eq_true_eq, not_le,
      Bool.not_eq_true] at h1 h2
    rcases h with h | h
    · rw [h] at h1; cases h1
    · omega

theorem await_silent_three (shutdown : Bool) (elapsed pick : Nat) (c : WaitCase)
    (h : await [WaitCase.response, WaitCase.shutdown, WaitCase.timeout]
      (silentWait shutdown elapsed pick) = some c) :
    (c = WaitCase.shutdown ∧ shutdown = true) ∨ (c = WaitCase.timeout ∧ 5 ≤ elapsed) := by
  have hm := await_mem _ _ _ h
  simp only [waitReady, silentWait, Chan.make, Chan.canRecv, List.mem_filter, List.mem_cons,
    List.mem_singleton, List.not_mem_nil, or_false] at hm
  rcases hm with ⟨hc | hc | hc, hr⟩
  · subst hc; simp at hr
  · subst hc; left; exact ⟨rfl, by simpa using hr⟩
  · subst hc; right; exact ⟨rfl, by simpa using hr⟩

theorem sendLogMessage_silent (config : Config) (msg : BaseMessage) (shutdown : Bool)
    (elapsed pick : Nat) (h : config.APILogRemote.Enabled = true) :
    SendLogMessage config msg (silentWait shutdown elapsed pick) =
      ([.submit (.message msg) config.APILogRemote], .waiting) := by
  simp [SendLogMessage, h, Caller.waitCases, await_silent_response]

theorem checkService_returns (serviceName : String) (config : Config) (env : ServiceEnv)
    (h : env.wait.shutdown = true ∨ 5 ≤ env.wait.elapsed) :
    (checkService serviceName config env).2 = .returned := by
  rcases await_three_some env.wait h with ⟨c, hc⟩
  unfold checkService
  simp only [Caller.waitCases, hc]
  repeat' split
  all_goals first | rfl | simp_all

theorem checkWebsite_returns (url : String) (config : Config) (env : WebEnv)
    (h : env.wait.shutdown = true ∨ 5 ≤ env.wait.elapsed) :
    (checkWebsite url config env).2 = .returned := by
  rcases await_three_some env.wait h with ⟨c, hc⟩
  unfold checkWebsite
  simp only [Caller.waitCases, hc]
  repeat' split
  all_goals first | rfl | simp_all

theorem processEvent_returns (evt : XMLEvent) (channel : String) (config : Config)
    (env : EventEnv) (h : env.wait.shutdown = true ∨ 5 ≤ env.wait.elapsed) :
    (processEvent evt channel config env).2.1 = .returned := by
  rcases await_three_some env.wait h with ⟨c, hc⟩
  unfold processEvent
  simp only [Caller.waitCases, hc]
  repeat' split
  all_goals first | rfl | simp_all

theorem monitorSystemTick_leaves_wait (config : Config) (env : SystemEnv)
    (fx : List Effect) (m : SystemMetrics)
    (hc : collectMetrics config env.metrics = (fx, .metrics m))
    (h : env.wait.shutdown = true ∨ 5 ≤ env.wait.elapsed) :
    (monitorSystemTick config env).2 = .continues ∨
      (monitorSystemTick config env).2 = .returns := by
  rcases await_three_some env.wait h with ⟨c, hw⟩
  unfold monitorSystemTick
  simp only [Caller.waitCases, hw, hc]
  repeat' split
  all_goals first | (left; rfl) | (right; rfl) | simp_all


/-- C18, the code at the failing input: four of the five callers wait with a
`select` over the response, the shutdown signal and a 5-second timer, and each
of them returns once shutdown is requested or five seconds have elapsed, whatever
the state of the response channel.  `SendLogMessage` waits with a plain receive:
when forwarding is enabled and nothing is ever written to the channel and it is
never closed, it is still waiting after `SendRequest`, for every shutdown flag and
every elapsed time.  The functions that call it inherit the wait: a pass of the
system monitor whose sample succeeded, and an endpoint check whose connection was
refused, are both still blocked an hour after shutdown was requested. -/
theorem sendLogMessage_waits_on_response_alone :
    (∀ c : Caller, c = .SendLogMessage ∨
      c.waitCases = [WaitCase.response, WaitCase.shutdown, WaitCase.timeout]) ∧
    Caller.waitCases .SendLogMessage = [WaitCase.response] ∧
    (∀ (serviceName : String) (config : Config) (env : ServiceEnv),
      env.wait.shutdown = true ∨ 5 ≤ env.wait.elapsed →
        (checkService serviceName config env).2 = .returned) ∧
    (∀ (url : String) (config : Config) (env : WebEnv),
      env.wait.shutdown = true ∨ 5 ≤ env.wait.elapsed →
        (checkWebsite url config env).2 = .returned) ∧
    (∀ (evt : XMLEvent) (channel : String) (config : Config) (env : EventEnv),
      env.wait.shutdown = true ∨ 5 ≤ env.wait.elapsed →
        (processEvent evt channel config env).2.1 = .returned) ∧
    (∀ (config : Config) (env : SystemEnv) (fx : List Effect) (m : SystemMetrics),
      collectMetrics config env.metrics = (fx, .metrics m) →
      env.wait.shutdown = true ∨ 5 ≤ env.wait.elapsed →
        (monitorSystemTick config env).2 = .continues ∨
          (monitorSystemTick config env).2 = .returns) ∧
    (∀ (config : Config) (msg : BaseMessage) (shutdown : Bool) (elapsed pick : Nat),
      config.APILogRemote.Enabled = true →
        SendLogMessage config msg (silentWait shutdown elapsed pick) =
          ([.submit (.message msg) config.APILogRemote], .waiting)) ∧
    (monitorSystemTick remoteConfig
      { systemPass (answeredWait okResponse) with
        metrics := { sampledMetrics with wait := silentWait true 3600 0 } }).2 = .waiting ∧
    (checkEndpoint remoteConfig ordersAPI
      { refusedEndpoint with
        out := { refusedEndpoint.out with wait := silentWait true 3600 0 } }).2 = .waiting := by
  refine ⟨?_, rfl, checkService_returns, checkWebsite_returns, processEvent_returns,
    monitorSystemTick_leaves_wait, sendLogMessage_silent, ?_, ?_⟩
  · intro c
    cases c
    · right; rfl
    · right; rfl
    · right; rfl
    · right; rfl
    · left; rfl
  · rfl
  · rfl


/-! ## Sampling failures -/

theorem sendLogMessage_submit (config : Config) (msg : BaseMessage) (env : WaitEnv) :
    (SendLogMessage config msg env).1.any Effect.isSubmit = config.APILogRemote.Enabled := by
  unfold SendLogMessage
  cases config.APILogRemote.Enabled
  · rfl
  · simp only [Bool.not_true, Bool.false_eq_true, if_false]
    repeat' split
    all_goals rfl

theorem sendToOutputs_submit (config : Config) (api : WebAPI) (response : WebAPIResponse)
    (env : OutputEnv) :
    (sendToOutputs config api response env).1.any Effect.isSubmit =
      (api.APILogRemote && config.APILogRemote.Enabled) := by
  have hr : (remoteOutput config api response env).1.any Effect.isSubmit =
      (api.APILogRemote && config.APILogRemote.Enabled) := by
    unfold remoteOutput
    cases api.APILogRemote
    · rfl
    · simp only [if_true, Bool.true_and]
      exact sendLogMessage_submit config _ env.wait
  have hl : (localOutput config api response env).any Effect.isSubmit = false := by
    unfold localOutput
    cases config.Syslog.Enabled <;> rfl
  unfold sendToOutputs
  rcases hq : remoteOutput config api response env with ⟨fx, fl⟩
  rw [hq] at hr
  cases fl
  · simp only [List.any_append, hl, Bool.or_false]
    exact hr
  · exact hr

theorem sendToOutputs_status_line (config : Config) (api : WebAPI)
    (response : WebAPIResponse) (env : OutputEnv)
    (h : (sendToOutputs config api response env).2 = .returned) :
    Effect.log "WebAPI" (if response.Status ≥ 400 then "ERROR" else "INFO")
      (api.Name ++ " [" ++ toString response.Status ++ "] - " ++ response.Duration ++ "s") ∈
      (sendToOutputs config api response env).1 := by
  unfold sendToOutputs at h ⊢
  generalize remoteOutput config api response env = r at h ⊢
  rcases r with ⟨fx, fl⟩
  cases fl
  · simp [localOutput]
  · cases h

theorem checkEndpoint_failure (config : Config) (api : WebAPI) (env : EndpointEnv)
    (err : String) (h : env.failure api = some err) :
    checkEndpoint config api env = handleError config api err env.out := by
  unfold EndpointEnv.failure at h
  unfold checkEndpoint
  cases hb : bodyError api env with
  | some e =>
    simp only [hb, Option.some.injEq] at h ⊢
    rw [h]
  | none =>
    simp only [hb] at h ⊢
    cases hn : env.newRequestErr with
    | some e =>
      simp only [hn, Option.some.injEq] at h ⊢
      rw [h]
    | none =>
      simp only [hn] at h ⊢
      cases hr : env.response with
      | error e =>
        simp only [hr, Option.some.injEq] at h ⊢
        rw [h]
      | ok code =>
        simp only [hr] at h ⊢
        cases hd : env.body with
        | error e =>
          simp only [hd, Option.some.injEq] at h ⊢
          rw [h]
        | ok data =>
          simp only [hd] at h
          cases h

theorem collectMetrics_failed (config : Config) (env : MetricsEnv) (fx : List Effect)
    (err : String) (h : collectMetrics config env = (fx, .failed err)) : fx = [] := by
  unfold collectMetrics at h
  cases hc : collectCPU config env with
  | error e =>
    simp only [hc, Prod.mk.injEq] at h
    exact h.1.symm
  | ok cpu =>
    simp only [hc] at h
    cases hm : collectMemory config env with
    | error e =>
      simp only [hm, Prod.mk.injEq] at h
      exact h.1.symm
    | ok memory =>
      simp only [hm] at h
      cases hn : collectNetwork config env with
      | error e =>
        simp only [hn, Prod.mk.injEq] at h
        exact h.1.symm
      | ok network =>
        simp only [hn] at h
        generalize SendLogMessage config _ env.wait = r at h
        rcases r with ⟨fx2, fl⟩
        cases fl <;> simp at h

/-- C19, the counterexample: an endpoint check whose connection is refused, on
an endpoint that forwards its checks with remote forwarding enabled, hands a
delivery request carrying the error record to the dispatcher before it writes
its local status line. -/
theorem failed_endpoint_check_submits :
    refusedEndpoint.failure ordersAPI = some "request failed: connection refused" ∧
    checkEndpoint remoteConfig ordersAPI refusedEndpoint =
      ([.submit (.message (BaseMessage.mk "a1" "agent" "webapi" "api_check" "info"
          "API check for orders completed" [("response", "orders")])) sampleConfig,
        .log "WebAPI" "INFO" "orders [-1] - 0.00s"], .returned) := by
  constructor
  · rfl
  · decide

/-- C19, amended: when `checkService` fails to connect, to open the service or
to query it, it writes one record at level ERROR and submits nothing; when
`collectMetrics` returns an error, it has done nothing and the system monitor
writes one record at level ERROR, submits nothing and stays in its loop; when
the sample query of `checkEndpoint` fails (marshal, request creation, transport
or body read), the check is recorded with status -1, a delivery request is
submitted exactly when both the endpoint's forwarding flag and the global one are
set, and once the function returns the status line with status -1 has been
logged at level INFO. -/
theorem sampling_failure_outcomes :
    (∀ (serviceName : String) (config : Config) (env : ServiceEnv) (e : String),
      env.connectErr = some e →
        checkService serviceName config env =
          ([.log "Service" "ERROR" ("Failed to connect to service manager: " ++ e)],
            .returned)) ∧
    (∀ (serviceName : String) (config : Config) (env : ServiceEnv) (e : String),
      env.connectErr = none → env.openErr = some e →
        checkService serviceName config env =
          ([.log "Service" "ERROR" ("Failed to open service " ++ serviceName ++ ": " ++ e)],
            .returned)) ∧
    (∀ (serviceName : String) (config : Config) (env : ServiceEnv) (e : String),
      env.connectErr = none → env.openErr = none → env.query = .error e →
        checkService serviceName config env =
          ([.log "Service" "ERROR" ("Failed to query service " ++ serviceName ++ ": " ++ e)],
            .returned)) ∧
    (∀ (config : Config) (env : SystemEnv) (fx : List Effect) (err : String),
      collectMetrics config env.metrics = (fx, .failed err) →
        fx = [] ∧
        monitorSystemTick config env =
          ([.log "Metrics" "ERROR" ("Failed to collect metrics: " ++ err)], .continues)) ∧
    (∀ (config : Config) (api : WebAPI) (env : EndpointEnv) (err : String),
      env.failure api = some err →
        checkEndpoint config api env = handleError config api err env.out ∧
        (checkEndpoint config api env).1.any Effect.isSubmit =
          (api.APILogRemote && config.APILogRemote.Enabled) ∧
        ((checkEndpoint config api env).2 = .returned →
          Effect.log "WebAPI" "INFO"
              (api.Name ++ " [" ++ toString (-1 : Int) ++ "] - " ++ "0.00" ++ "s") ∈
            (checkEndpoint config api env).1)) := by
  refine ⟨?_, ?_, ?_, ?_, ?_⟩
  · intro serviceName config env e h
    simp [checkService, h]
  · intro serviceName config env e h1 h2
    simp [checkService, h1, h2]
  · intro serviceName config env e h1 h2 h3
    simp [checkService, h1, h2, h3]
  · intro config env fx err h
    have hfx : fx = [] := collectMetrics_failed config env.metrics fx err h
    subst hfx
    refine ⟨rfl, ?_⟩
    simp [monitorSystemTick, h]
  · intro config api env err h
    have he := checkEndpoint_failure config api env err h
    refine ⟨he, ?_, ?_⟩
    · rw [he]
      exact sendToOutputs_submit config api _ env.out
    · rw [he]
      intro hr
      exact sendToOutputs_status_line config api
        { Name := api.Name, Subject := api.Subject, Status := -1, Duration := "0.00",
          Data := [("error", err)] } env.out hr

/-- C19, amended, at concrete inputs: a service that cannot be opened, and the
endpoint whose connection is refused. -/
theorem sampling_failure_outcomes_witness :
    checkService "Spooler" remoteConfig deniedService =
      ([.log "Service" "ERROR" ("Failed to open service " ++ "Spooler" ++ ": " ++
        "Access is denied.")], .returned) ∧
    (checkEndpoint remoteConfig ordersAPI refusedEndpoint).1.any Effect.isSubmit =
      (ordersAPI.APILogRemote && remoteConfig.APILogRemote.Enabled) :=
  ⟨sampling_failure_outcomes.2.1 "Spooler" remoteConfig deniedService "Access is denied."
      rfl rfl,
    (sampling_failure_outcomes.2.2.2.2 remoteConfig ordersAPI refusedEndpoint
      "request failed: connection refused" rfl).2.1⟩


/-! ## Delivery failures and the monitor loops -/

theorem periodic_continues {τ : Type} (line : String) (body : τ → List Effect × Loop)
    (t : τ) (rest : List (Option τ)) (h : (body t).2 = .continues) :
    periodic line body (some t :: rest) =
      ((body t).1 ++ (periodic line body rest).1, (periodic line body rest).2) := by
  rcases hb : body t with ⟨fx, l⟩
  rw [hb] at h
  simp only at h
  subst h
  simp [periodic, hb]

theorem periodic_returns {τ : Type} (line : String) (body : τ → List Effect × Loop)
    (t : τ) (rest : List (Option τ)) (h : (body t).2 = .returns) :
    periodic line body (some t :: rest) = ((body t).1, .returns) := by
  rcases hb : body t with ⟨fx, l⟩
  rw [hb] at h
  simp only at h
  subst h
  simp [periodic, hb]

theorem monitorServicesTick_continues (config : Config) (env : String → Bool × ServiceEnv)
    (services : List String)
    (h : ∀ s ∈ services, (env s).1 = false ∧
      (checkService s config (env s).2).2 = .returned) :
    (monitorServicesTick config env services).2 = .continues := by
  induction services with
  | nil => rfl
  | cons s rest ih =>
    have hs := h s (List.mem_cons_self s rest)
    have ih2 := ih (fun x hx => h x (List.mem_cons_of_mem s hx))
    unfold monitorServicesTick
    rcases hc : checkService s config (env s).2 with ⟨fx, fl⟩
    rw [hc] at hs
    rcases hs with ⟨h1, h2⟩
    simp only at h2
    subst h2
    simp only [h1, Bool.false_eq_true, if_false]
    exact ih2

theorem monitorWebsitesTick_continues (config : Config) (env : WebTickEnv)
    (hc : env.cancelled = false)
    (h : ∀ url ∈ config.WebMonitor.URLs, (siteCheck config env url).2 = .returned) :
    (monitorWebsitesTick config env).2 = .continues := by
  have hall : (config.WebMonitor.URLs.map (siteCheck config env)).all
      (fun r => decide (r.2 = Flow.returned)) = true := by
    simp only [List.all_eq_true, List.mem_map, decide_eq_true_eq]
    rintro r ⟨url, hu, rfl⟩
    exact h url hu
  simp only [monitorWebsitesTick, hall, hc, if_true, Bool.false_eq_true, if_false,
    List.append_nil, chooseCase_singleton]

theorem monitorSystemTick_response (config : Config) (env : SystemEnv) (fx : List Effect)
    (m : SystemMetrics) (json : String)
    (hc : collectMetrics config env.metrics = (fx, .metrics m))
    (hm : env.marshal m = .ok json)
    (hw : await (Caller.waitCases .monitorSystem) env.wait = some .response) :
    (monitorSystemTick config env).2 = .continues := by
  unfold monitorSystemTick
  simp only [hc, hm, hw]
  repeat' split
  all_goals rfl

theorem monitorSystemTick_timeout (config : Config) (env : SystemEnv) (fx : List Effect)
    (m : SystemMetrics) (json : String)
    (hc : collectMetrics config env.metrics = (fx, .metrics m))
    (hm : env.marshal m = .ok json)
    (hr : config.SystemMonitor.APILogRemote = true)
    (hch : env.wait.ch = Chan.make 1) (hs : env.wait.shutdown = false)
    (ht : 5 ≤ env.wait.elapsed) :
    monitorSystemTick config env =
      (fx ++ [.log "Metrics" "INFO" json, .submit (.metrics m) config.APILogRemote,
        .log "API" "ERROR" "Timeout waiting for API response"], .returns) := by
  have hw : await (Caller.waitCases .monitorSystem) env.wait = some .timeout := by
    have he : env.wait = silentWait false env.wait.elapsed env.wait.pick := by
      cases hwv : env.wait with
      | mk ch sd el pk =>
        rw [hwv] at hch hs
        simp only at hch hs
        simp [silentWait, hch, hs]
    rcases await_three_some env.wait (Or.inr ht) with ⟨c, hcw⟩
    have hcw2 := hcw
    rw [he] at hcw2
    rcases await_silent_three _ _ _ c hcw2 with ⟨_, hf⟩ | ⟨hct, _⟩
    · cases hf
    · rw [← hct]
      exact hcw
  unfold monitorSystemTick
  simp [hc, hm, hr, hw]


/-- C20, the code at the failing input: a pass of the service monitor in which
no check sees the shutdown signal and every check returns, and a pass of the web
monitor without cancellation in which every check returns, are followed by the
next iteration of the loop, and so is a pass of the system monitor whose delivery
is answered (with an error, or by the closed channel of a dropped request).  A
pass of the system monitor whose delivery wait times out, with shutdown not
requested, logs the timeout and makes `monitorSystem` return: the iterations that
follow never run, so the next tick takes no sample.  The same timeout leaves the
service monitor and the web monitor in their loops. -/
theorem monitorSystem_timeout_leaves_loop :
    (∀ (services : List String) (config : Config) (env : String → Bool × ServiceEnv)
        (rest : List (Option (String → Bool × ServiceEnv))),
      (∀ s ∈ services, (env s).1 = false ∧
        (checkService s config (env s).2).2 = .returned) →
      monitorServices services config (some env :: rest) =
        ((monitorServicesTick config env services).1 ++
          (monitorServices services config rest).1,
         (monitorServices services config rest).2)) ∧
    (∀ (config : Config) (env : WebTickEnv) (rest : List (Option WebTickEnv)),
      env.cancelled = false →
      (∀ url ∈ config.WebMonitor.URLs, (siteCheck config env url).2 = .returned) →
      monitorWebsites config (some env :: rest) =
        ((monitorWebsitesTick config env).1 ++ (monitorWebsites config rest).1,
         (monitorWebsites config rest).2)) ∧
    (∀ (config : Config) (env : SystemEnv) (rest : List (Option SystemEnv))
        (fx : List Effect) (m : SystemMetrics) (json : String),
      collectMetrics config env.metrics = (fx, .metrics m) →
      env.marshal m = .ok json →
      await (Caller.waitCases .monitorSystem) env.wait = some .response →
      monitorSystem config (some env :: rest) =
        ((monitorSystemTick config env).1 ++ (monitorSystem config rest).1,
         (monitorSystem config rest).2)) ∧
    (∀ (config : Config) (env : SystemEnv) (rest : List (Option SystemEnv))
        (fx : List Effect) (m : SystemMetrics) (json : String),
      collectMetrics config env.metrics = (fx, .metrics m) →
      env.marshal m = .ok json →
      config.SystemMonitor.APILogRemote = true →
      env.wait.ch = Chan.make 1 → env.wait.shutdown = false → 5 ≤ env.wait.elapsed →
      monitorSystem config (some env :: rest) =
        (fx ++ [.log "Metrics" "INFO" json, .submit (.metrics m) config.APILogRemote,
          .log "API" "ERROR" "Timeout waiting for API response"], .returns)) ∧
    monitorSystem remoteConfig
        [some (systemPass (silentWait false 5 0)), some (systemPass (answeredWait okResponse))] =
      ([.submit (.message (BaseMessage.mk "a1" "agent" "system_monitor" "metrics" "info"
          "System metrics collected" [])) sampleConfig,
        .log "Metrics" "INFO" "metrics",
        .submit (.metrics (SystemMetrics.mk none none none none)) sampleConfig,
        .log "API" "ERROR" "Timeout waiting for API response"], .returns) ∧
    monitorSystem remoteConfig
        [some (systemPass (answeredWait refusedResponse)), some (systemPass droppedWait)] =
      ([.submit (.message (BaseMessage.mk "a1" "agent" "system_monitor" "metrics" "info"
          "System metrics collected" [])) sampleConfig,
        .log "Metrics" "INFO" "metrics",
        .submit (.metrics (SystemMetrics.mk none none none none)) sampleConfig,
        .log "API" "ERROR" "API request failed with status 503: busy",
        .submit (.message (BaseMessage.mk "a1" "agent" "system_monitor" "metrics" "info"
          "System metrics collected" [])) sampleConfig,
        .log "Metrics" "INFO" "metrics",
        .submit (.metrics (SystemMetrics.mk none none none none)) sampleConfig],
       .continues) ∧
    monitorServices ["Spooler"] remoteConfig
        [some (fun _ => (false, runningService (silentWait false 5 0))),
         some (fun _ => (false, runningService (answeredWait okResponse)))] =
      ([.log "Service" "INFO" "Spooler=Running",
        .submit (.serviceStatus (ServiceStatus.mk "Spooler" "Running")) sampleConfig,
        .log "API" "ERROR" "Timeout waiting for API response",
        .log "Service" "INFO" "Spooler=Running",
        .submit (.serviceStatus (ServiceStatus.mk "Spooler" "Running")) sampleConfig],
       .continues) ∧
    monitorWebsites remoteConfig
        [some (webPass (silentWait false 5 0)), some (webPass (answeredWait okResponse))] =
      ([.log "WebMonitor" "INFO" "http://shop is up (response time: 20ms)",
        .log "WebMonitor" "INFO" "http://shop=Up",
        .submit (.webStatus (WebStatus.mk "http://shop" "Up" 200 "20ms")) sampleConfig,
        .log "API" "ERROR" "Timeout waiting for API response",
        .log "WebMonitor" "INFO" "http://shop is up (response time: 20ms)",
        .log "WebMonitor" "INFO" "http://shop=Up",
        .submit (.webStatus (WebStatus.mk "http://shop" "Up" 200 "20ms")) sampleConfig],
       .continues) := by
  refine ⟨?_, ?_, ?_, ?_, ?_, ?_, ?_, ?_⟩
  · intro services config env rest h
    exact periodic_continues _ (fun env => monitorServicesTick config env services) env rest
      (monitorServicesTick_continues config env services h)
  · intro config env rest hc h
    exact periodic_continues _ (monitorWebsitesTick config) env rest
      (monitorWebsitesTick_continues config env hc h)
  · intro config env rest fx m json hc hm hw
    exact periodic_continues _ (monitorSystemTick config) env rest
      (monitorSystemTick_response config env fx m json hc hm hw)
  · intro config env rest fx m json hc hm hr hch hs ht
    have ht2 := monitorSystemTick_timeout config env fx m json hc hm hr hch hs ht
    have hp := periodic_returns "System monitor shutting down..." (monitorSystemTick config)
      env rest (by rw [ht2])
    rw [ht2] at hp
    exact hp
  · decide
  · decide
  · decide
  · decide

/-- C15, the code at the failing input: on a `tcp+tls` client whose send fails,
`Write` returns the error, closes the connection and clears the field, and the
next `Write` tries to reconnect; when that `tls.Dial` fails, `Write` returns the
connect error without sending, but the field is left holding a typed nil, which
is not the nil interface: every `Write` after it skips the reconnect and
dereferences the nil connection.  On a `tcp` client the failed dial leaves the
field nil and the `Write` after it dials again. -/
theorem write_after_failed_reconnect_panics :
    SyslogClient.Write
        { clearedTlsClient with conn := ConnRef.live (Conn.mk "tcp" "logs:6514" true) }
        (NetEnv.mk none (some "broken pipe")) 3 (Time.mk "2026-11-04T10:00:00Z")
        "host1" "API" "down" =
      .ok (clearedTlsClient,
           [NetEffect.write "<3>2026-11-04T10:00:00Z host1 API: down\n", NetEffect.close],
           some "broken pipe") ∧
    clearedTlsClient.Write (NetEnv.mk (some "refused") none) 3
        (Time.mk "2026-11-04T10:00:01Z") "host1" "API" "down" =
      .ok ({ clearedTlsClient with conn := ConnRef.typedNil },
           [NetEffect.dial "tcp" "logs:6514" true], some "refused") ∧
    (∀ (env : NetEnv) (priority : Int) (timestamp : Time) (hostname tag content : String),
      SyslogClient.Write { clearedTlsClient with conn := ConnRef.typedNil } env priority
          timestamp hostname tag content =
        .panic "invalid memory address or nil pointer dereference") ∧
    SyslogClient.Write { tcpClient with conn := ConnRef.nil } (NetEnv.mk (some "refused") none) 3
        (Time.mk "2026-11-04T10:00:01Z") "host1" "API" "down" =
      .ok ({ tcpClient with conn := ConnRef.nil },
           [NetEffect.dial "tcp" "logs:514" false], some "refused") ∧
    SyslogClient.Write { tcpClient with conn := ConnRef.nil } (NetEnv.mk none none) 3
        (Time.mk "2026-11-04T10:00:02Z") "host1" "API" "down" =
      .ok (tcpClient,
           [NetEffect.dial "tcp" "logs:514" false,
            NetEffect.write "<3>2026-11-04T10:00:02Z host1 API: down\n"], none) := by
  refine ⟨by decide, by decide, ?_, by decide, by decide⟩
  intro env priority timestamp hostname tag content
  rfl

/-! ## Syslog priority, tag and hostname -/

theorem getLevelString_cases (l : String) :
    getLevelString l = "Critical" ∨ getLevelString l = "Error" ∨
    getLevelString l = "Warning" ∨ getLevelString l = "Information" ∨
    getLevelString l = "Verbose" ∨ getLevelString l = "Unknown" := by
  unfold getLevelString
  split_ifs <;> simp

theorem processSyslog_live (l : Logger) (c : SyslogClient) (conn : Conn) (hostname : String)
    (now : Time) (env : NetEnv) (msg : LogMessage)
    (hc : l.syslogClient = some c) (hconn : c.conn = ConnRef.live conn)
    (hok : env.writeErr = none) :
    l.processSyslog hostname now env msg =
      .ok (l, [NetEffect.write
        (syslogMessage (getPriority msg.Level) now hostname msg.Source msg.Message)], []) := by
  have hw : c.Write env (getPriority msg.Level) now hostname msg.Source msg.Message =
      .ok (c, [NetEffect.write
        (syslogMessage (getPriority msg.Level) now hostname msg.Source msg.Message)], none) := by
    simp [SyslogClient.Write, SyslogClient.send, hconn, hok]
  unfold Logger.processSyslog
  simp only [hc, hw]
  congr 2
  cases l
  simp_all

/-- C23: for every Windows event level string, `getPriority` applied to the
name `getLevelString` gives is 6, none of the six names being one of the cases of
`getPriority`; so the record `processEvent` hands to the logger for syslog, once
taken by `processSyslog` on a connected client, is written with priority 6
whatever the level of the event. -/
theorem windows_event_priority_is_informational :
    (∀ l : String, getPriority (getLevelString l) = 6) ∧
    (∀ (config : Config) (evt : XMLEvent) (jsonEvent : String),
      config.Syslog.Enabled = true →
      forwardSyslog config evt jsonEvent =
        [.log "Syslog" (getLevelString evt.Level) jsonEvent]) ∧
    (∀ (lg : Logger) (c : SyslogClient) (conn : Conn) (hostname : String) (now : Time)
        (env : NetEnv) (evt : XMLEvent) (jsonEvent : String),
      lg.syslogClient = some c → c.conn = ConnRef.live conn → env.writeErr = none →
      lg.processSyslog hostname now env
          (LogMessage.mk "Syslog" (getLevelString evt.Level) jsonEvent) =
        .ok (lg, [NetEffect.write ("<" ++ toString (6 : Int) ++ ">" ++ now.RFC3339 ++ " " ++
          hostname ++ " " ++ "Syslog" ++ ": " ++ jsonEvent ++ "\n")], [])) := by
  have h6 : ∀ l : String, getPriority (getLevelString l) = 6 := by
    intro l
    rcases getLevelString_cases l with h | h | h | h | h | h <;> rw [h] <;> rfl
  refine ⟨h6, ?_, ?_⟩
  · intro config evt jsonEvent h
    simp [forwardSyslog, h]
  · intro lg c conn hostname now env evt jsonEvent hc hconn hok
    rw [processSyslog_live lg c conn hostname now env _ hc hconn hok]
    simp only [h6]
    rfl

/-- C27: for every record taken from the syslog buffer by a logger whose client
holds a connection, the line written is `<priority>timestamp hostname source:
message`: the tag field is the source of the record and the hostname is the one
`os.Hostname()` returned.  The syslog tag of the configuration is read neither
by `NewSyslogClient` nor by `NewLogger`, so the logger, and with it every line,
is the same for every value of the tag. -/
theorem syslog_line_tag_is_source (config : Config) (tag : String) (dialErr : Option String)
    (hostname : String) (now : Time) (env : NetEnv) (msg : LogMessage) :
    NewSyslogClient { config.Syslog with Tag := tag } dialErr =
      NewSyslogClient config.Syslog dialErr ∧
    NewLogger { config with Syslog := { config.Syslog with Tag := tag } } dialErr =
      NewLogger config dialErr ∧
    (NewLogger { config with Syslog := { config.Syslog with Tag := tag } } dialErr).1.processSyslog
        hostname now env msg =
      (NewLogger config dialErr).1.processSyslog hostname now env msg ∧
    (∀ (lg : Logger) (c : SyslogClient) (conn : Conn),
      lg.syslogClient = some c → c.conn = ConnRef.live conn → env.writeErr = none →
      lg.processSyslog hostname now env msg =
        .ok (lg, [NetEffect.write ("<" ++ toString (getPriority msg.Level) ++ ">" ++
          now.RFC3339 ++ " " ++ hostname ++ " " ++ msg.Source ++ ": " ++ msg.Message ++
          "\n")], [])) := by
  have h1 : NewSyslogClient { config.Syslog with Tag := tag } dialErr =
      NewSyslogClient config.Syslog dialErr := rfl
  have h2 : NewLogger { config with Syslog := { config.Syslog with Tag := tag } } dialErr =
      NewLogger config dialErr := rfl
  refine ⟨h1, h2, by rw [h2], ?_⟩
  intro lg c conn hc hconn hok
  exact processSyslog_live lg c conn hostname now env msg hc hconn hok

/-- C28: whenever `sendToOutputs` returns, the last record it has written is
the status line, at level ERROR when the recorded status is 400 or more and at
level INFO otherwise; `handleError` records status -1, so the status line of a
check that failed before obtaining a response is at level INFO. -/
theorem status_line_level (config : Config) (api : WebAPI) (env : OutputEnv) :
    (∀ response : WebAPIResponse,
      (sendToOutputs config api response env).2 = .returned →
      ∃ level,
        (sendToOutputs config api response env).1.getLast? =
          some (.log "WebAPI" level (api.Name ++ " [" ++ toString response.Status ++ "] - " ++
            response.Duration ++ "s")) ∧
        (level = "ERROR" ∨ level = "INFO") ∧
        (level = "ERROR" ↔ response.Status ≥ 400)) ∧
    (∀ err : String,
      (handleError config api err env).2 = .returned →
      (handleError config api err env).1.getLast? =
        some (.log "WebAPI" "INFO" (api.Name ++ " [" ++ toString (-1 : Int) ++ "] - " ++
          "0.00" ++ "s"))) := by
  have key : ∀ response : WebAPIResponse,
      (sendToOutputs config api response env).2 = .returned →
      (sendToOutputs config api response env).1.getLast? =
        some (.log "WebAPI" (if response.Status ≥ 400 then "ERROR" else "INFO")
          (api.Name ++ " [" ++ toString response.Status ++ "] - " ++
            response.Duration ++ "s")) := by
    intro response h
    unfold sendToOutputs at h ⊢
    generalize remoteOutput config api response env = r at h ⊢
    rcases r with ⟨fx, fl⟩
    cases fl
    · simp [localOutput]
    · cases h
  constructor
  · intro response h
    refine ⟨_, key response h, ?_, ?_⟩
    · by_cases hs : response.Status ≥ 400
      · left; simp [hs]
      · right; simp [hs]
    · by_cases hs : response.Status ≥ 400
      · simp [hs]
      · simp [hs]
  · intro err h
    exact key _ h

/-- C28 at a concrete check: the endpoint whose connection is refused. -/
theorem status_line_level_witness :
    (handleError remoteConfig ordersAPI "request failed: connection refused"
        refusedEndpoint.out).1.getLast? =
      some (.log "WebAPI" "INFO" (ordersAPI.Name ++ " [" ++ toString (-1 : Int) ++ "] - " ++
        "0.00" ++ "s")) :=
  (status_line_level remoteConfig ordersAPI refusedEndpoint.out).2
    "request failed: connection refused" rfl


/-- C27 at a concrete record: with the syslog section `udpSyslog` (tag
`jarvis`), or the same section with the tag `other`, the record of source
`Service` is written with the tag field `Service` and the hostname `host1`. -/
theorem syslog_line_tag_is_source_witness :
    (NewLogger { remoteConfig with Syslog := { udpSyslog with Tag := "other" } } none).1.processSyslog
        "host1" (Time.mk "2026-11-04T10:00:00Z") (NetEnv.mk none none)
        (LogMessage.mk "Service" "INFO" "up") =
      (NewLogger { remoteConfig with Syslog := udpSyslog } none).1.processSyslog
        "host1" (Time.mk "2026-11-04T10:00:00Z") (NetEnv.mk none none)
        (LogMessage.mk "Service" "INFO" "up") ∧
    (NewLogger { remoteConfig with Syslog := udpSyslog } none).1.processSyslog
        "host1" (Time.mk "2026-11-04T10:00:00Z") (NetEnv.mk none none)
        (LogMessage.mk "Service" "INFO" "up") =
      .ok ((NewLogger { remoteConfig with Syslog := udpSyslog } none).1,
        [NetEffect.write "<6>2026-11-04T10:00:00Z host1 Service: up\n"], []) :=
  ⟨(syslog_line_tag_is_source { remoteConfig with Syslog := udpSyslog } "other" none "host1"
      (Time.mk "2026-11-04T10:00:00Z") (NetEnv.mk none none)
      (LogMessage.mk "Service" "INFO" "up")).2.2.1,
   ((syslog_line_tag_is_source { remoteConfig with Syslog := udpSyslog } "other" none "host1"
      (Time.mk "2026-11-04T10:00:00Z") (NetEnv.mk none none)
      (LogMessage.mk "Service" "INFO" "up")).2.2.2
        (NewLogger { remoteConfig with Syslog := udpSyslog } none).1
        { protocol := "udp", address := "logs:514",
          conn := ConnRef.live (Conn.mk "udp" "logs:514" false), tlsConfig := none }
        (Conn.mk "udp" "logs:514" false) rfl rfl rfl).trans (by decide)⟩

/-! ## The result of a call, and requests after `Close` -/

theorem resultInv_init (n wg0 : Nat) : ResultInv (NewAPIClient n wg0) := by
  constructor
  · intro r hr
    simp [World.queue, NewAPIClient, Chan.make] at hr
  · intro i r h
    simp only [heldAt, NewAPIClient] at h
    cases hp : (List.replicate n Worker.idle)[i]? with
    | none => simp [hp] at h
    | some x =>
      have hx : x = Worker.idle := by
        have := List.getElem?_eq_some.mp hp
        obtain ⟨_, h2⟩ := this
        simpa using h2.symm
      subst hx
      simp [hp, Worker.req?] at h

theorem resultInv_pool {w w1 : World} (hi : ResultInv w) (hq : w1.queue = w.queue)
    (hp : ∀ j r, heldAt w1.pool j = some r → heldAt w.pool j = some r) : ResultInv w1 :=
  ⟨fun r hr => hi.queued r (hq ▸ hr), fun j r h => hi.held j r (hp j r h)⟩

theorem resultInv_return {w w1 : World} {i : Nat} (hi : ResultInv w)
    (h : workerReturn w i = .ok w1) : ResultInv w1 := by
  obtain ⟨_, h1⟩ := workerReturn_ok h
  subst h1
  refine resultInv_pool hi rfl ?_
  intro j r hj
  rcases heldAt_set_cases hj with ⟨_, hx⟩ | ⟨_, hx⟩
  · simp [Worker.req?] at hx
  · exact hx

theorem resultInv_step {w w1 : World} (e : Event) (hi : ResultInv w)
    (h : step w e = .ok w1) : ResultInv w1 := by
  cases e with
  | send payload config pick =>
    rcases (sendRequest_ok (step_send_ok h)).2 with h1 | ⟨ch, hch, _, _, h1⟩
    · subst h1
      exact resultInv_pool hi rfl (fun _ _ hj => hj)
    · subst h1
      constructor
      · intro r hr
        simp only [World.queue, List.mem_append, List.mem_singleton] at hr
        rcases hr with hr | hr
        · exact hi.queued r (by simpa [World.queue, hch] using hr)
        · subst hr
          rfl
      · exact hi.held
  | select i pick =>
    rcases (workerSelect_ok h).2 with h1 | ⟨ch, req, rest, hch, hbuf, h1⟩
    · exact resultInv_return hi h1
    · subst h1
      have hreq : req ∈ w.queue := by simp [World.queue, hch, hbuf]
      constructor
      · intro r hr
        simp only [World.queue] at hr
        exact hi.queued r (by simp [World.queue, hch, hbuf, hr])
      · intro j r hj
        rcases heldAt_set_cases hj with ⟨_, hx⟩ | ⟨_, hx⟩
        · simp only [Worker.req?, Option.some.injEq] at hx
          subst hx
          exact hi.queued _ hreq
        · exact hi.held j r hx
  | callDone i resp err =>
    obtain ⟨req, hp, h1 | ⟨_, _, h1⟩ | ⟨_, id, _, h1⟩⟩ := workerCallDone_ok h
    · exact resultInv_return hi h1.2
    · subst h1
      refine resultInv_pool hi rfl ?_
      intro j r hj
      rcases heldAt_set_cases hj with ⟨_, hx⟩ | ⟨_, hx⟩
      · simp [Worker.req?] at hx
      · exact hx
    · subst h1
      refine resultInv_pool hi rfl ?_
      intro j r hj
      rcases heldAt_set_cases hj with ⟨hji, hx⟩ | ⟨_, hx⟩
      · subst hji
        simp only [Worker.req?, Option.some.injEq] at hx
        subst hx
        simp [heldAt, hp, Worker.req?]
      · exact hx
  | respond i =>
    obtain ⟨req, resp, id, rc, hw, hid, hrc, _, _, h1⟩ := workerRespond_ok h
    subst h1
    refine resultInv_pool hi rfl ?_
    intro j r hj
    rcases heldAt_set_cases hj with ⟨_, hx⟩ | ⟨_, hx⟩
    · simp [Worker.req?] at hx
    · exact hx
  | closeCancel =>
    obtain ⟨_, h1⟩ := closeCancel_ok h
    subst h1
    exact resultInv_pool hi rfl (fun _ _ hj => hj)
  | closeChannel =>
    obtain ⟨_, ⟨_, h1⟩ | ⟨ch, hch, _, h1⟩⟩ := closeChannel_ok h
    · subst h1
      exact resultInv_pool hi rfl (fun _ _ hj => hj)
    · subst h1
      exact resultInv_pool hi (by simp [World.queue, hch]) (fun _ _ hj => hj)
  | closeClear =>
    obtain ⟨_, h1⟩ := closeClear_ok h
    subst h1
    exact ⟨fun r hr => by simp [World.queue] at hr, hi.held⟩
  | closeWait =>
    obtain ⟨_, _, h1⟩ := closeWait_ok h
    subst h1
    exact resultInv_pool hi rfl (fun _ _ hj => hj)

theorem Reachable.resultInv {w : World} (h : Reachable w) : ResultInv w := by
  induction h with
  | init n wg0 => exact resultInv_init n wg0
  | next e _ hs ih => exact resultInv_step e ih hs


theorem shut_step {w w1 : World} (e : Event) (hs : w.shut) (h : step w e = .ok w1) :
    w1.shut := by
  obtain ⟨hc, hn⟩ := hs
  cases e with
  | send payload config pick =>
    rcases (sendRequest_ok (step_send_ok h)).2 with h1 | ⟨ch, hch, _, _, h1⟩
    · subst h1
      exact ⟨hc, hn⟩
    · rw [hn] at hch
      cases hch
  | select i pick =>
    rcases (workerSelect_ok h).2 with h1 | ⟨ch, req, rest, hch, hbuf, h1⟩
    · obtain ⟨_, h2⟩ := workerReturn_ok h1
      subst h2
      exact ⟨hc, hn⟩
    · rw [hn] at hch
      cases hch
  | callDone i resp err =>
    obtain ⟨req, hp, h1 | ⟨_, _, h1⟩ | ⟨_, id, _, h1⟩⟩ := workerCallDone_ok h
    · obtain ⟨_, h2⟩ := workerReturn_ok h1.2
      subst h2
      exact ⟨hc, hn⟩
    · subst h1
      exact ⟨hc, hn⟩
    · subst h1
      exact ⟨hc, hn⟩
  | respond i =>
    obtain ⟨req, resp, id, rc, hw, hid, hrc, _, _, h1⟩ := workerRespond_ok h
    subst h1
    exact ⟨hc, hn⟩
  | closeCancel =>
    obtain ⟨_, h1⟩ := closeCancel_ok h
    subst h1
    exact ⟨rfl, hn⟩
  | closeChannel =>
    obtain ⟨_, ⟨_, h1⟩ | ⟨ch, hch, _, h1⟩⟩ := closeChannel_ok h
    · subst h1
      exact ⟨hc, hn⟩
    · rw [hn] at hch
      cases hch
  | closeClear =>
    obtain ⟨_, h1⟩ := closeClear_ok h
    subst h1
    exact ⟨hc, rfl⟩
  | closeWait =>
    obtain ⟨_, _, h1⟩ := closeWait_ok h
    subst h1
    exact ⟨hc, hn⟩

theorem shut_run {w w1 : World} (evs : List Event) (hs : w.shut) (h : run w evs = .ok w1) :
    w1.shut := by
  induction evs generalizing w with
  | nil =>
    simp only [run, Res.ok.injEq] at h
    subst h
    exact hs
  | cons e es ih =>
    simp only [run] at h
    cases hst : step w e with
    | ok w2 =>
      rw [hst] at h
      exact ih (shut_step e hs hst) h
    | blocked => rw [hst] at h; cases h
    | panic m => rw [hst] at h; cases h

theorem sendRequest_shut (w : World) (hs : w.shut) (payload : Option String)
    (config : APILogRemote) (pick : Nat) :
    SendRequest w payload config pick =
      .ok ({ w with chans := w.chans ++ [RespChan.dropped] }, w.chans.length) := by
  obtain ⟨hc, hn⟩ := hs
  simp [SendRequest, sendReady, hc, hn, chooseCase_singleton]

theorem fresh_never_received (cases : List WaitCase) (shutdown : Bool) (elapsed pick : Nat) :
    await cases { ch := RespChan.fresh.ch, shutdown := shutdown, elapsed := elapsed,
                  pick := pick } ≠ some WaitCase.response := by
  intro h
  have hm := await_mem _ _ _ h
  simp [waitReady, RespChan.fresh, Chan.make, Chan.canRecv] at hm

/-- C24: when the cancellation signal is raised while worker `i` performs the
outbound call of a request, the response channel of that request is untouched;
whatever the call returns, its completion makes the worker exit and leaves the
channel untouched; and in every later state the channel still has had no send and
no close and no worker is about to answer on it, so a caller waiting on it, in
whatever `select`, never takes the response case. -/
theorem completed_call_result_is_discarded (w : World) (i : Nat) (req : APIRequest)
    (hr : Reachable w) (hc : w.client.cancelled = true)
    (hp : w.pool[i]? = some (Worker.calling req)) :
    ∃ id, req.ResponseCh = some id ∧ w.chans[id]? = some RespChan.fresh ∧
      (∀ resp err : Option String, ∃ w1, step w (Event.callDone i resp err) = .ok w1 ∧
        w1.pool[i]? = some Worker.exited ∧ w1.chans[id]? = some RespChan.fresh) ∧
      (∀ (evs : List Event) (w1 : World), run w evs = .ok w1 →
        (∃ rc, w1.chans[id]? = some rc ∧ rc.sent = [] ∧ rc.closedBy = [] ∧
          rc.ch.buf = [] ∧ rc.ch.closed = false ∧
          ∀ (cases : List WaitCase) (shutdown : Bool) (elapsed pick : Nat),
            await cases { ch := rc.ch, shutdown := shutdown, elapsed := elapsed,
                          pick := pick } ≠ some WaitCase.response) ∧
        (∀ (j : Nat) (r : APIRequest) (resp : APIResponse),
          w1.pool[j]? = some (Worker.writing r resp) → r.ResponseCh ≠ some id)) := by
  have hlt : i < w.pool.length := (List.getElem?_eq_some.mp hp).1
  have hheld : heldAt w.pool i = some req := by simp [heldAt, hp, Worker.req?]
  obtain ⟨id, hid, hfresh⟩ := hr.chanInv.held i req hheld
  have hsilent : w.silent id := by
    refine ⟨hc, hfresh, ?_⟩
    intro j r resp hj hrid
    have hjheld : heldAt w.pool j = some r := by simp [heldAt, hj, Worker.req?]
    have hji : j ≠ i := by
      intro e
      subst e
      rw [hp] at hj
      cases hj
    exact hr.chanInv.distinct j i r req hji hjheld hheld (by rw [hrid, hid])
  refine ⟨id, hid, hfresh, ?_, ?_⟩
  · intro resp err
    obtain ⟨base, hb⟩ := hr.closeInv.counter
    have hpos := liveWorkers_pos hp rfl
    have hwg : ¬ (w.client.wg - 1 < 0) := by omega
    refine ⟨{ w with client := { w.client with wg := w.client.wg - 1 },
                     pool := w.pool.set i Worker.exited }, ?_, ?_, hfresh⟩
    · simp [step, workerCallDone, hp, hc, workerReturn, wgDone, hwg]
    · exact List.getElem?_set_self hlt
  · intro evs w1 hrun
    obtain ⟨_, hf1, hw1⟩ := silent_run evs hsilent hrun
    exact ⟨⟨RespChan.fresh, hf1, rfl, rfl, rfl, rfl, fresh_never_received⟩, hw1⟩

/-- Witness for C24: the worker of `midCallWorld`, whose request has response
channel 0. -/
theorem completed_call_result_is_discarded_witness :
    ∃ id, (sampleRequest 0).ResponseCh = some id ∧
      midCallWorld.chans[id]? = some RespChan.fresh ∧
      (∀ resp err : Option String, ∃ w1,
        step midCallWorld (Event.callDone 0 resp err) = .ok w1 ∧
        w1.pool[0]? = some Worker.exited ∧ w1.chans[id]? = some RespChan.fresh) ∧
      (∀ (evs : List Event) (w1 : World), run midCallWorld evs = .ok w1 →
        (∃ rc, w1.chans[id]? = some rc ∧ rc.sent = [] ∧ rc.closedBy = [] ∧
          rc.ch.buf = [] ∧ rc.ch.closed = false ∧
          ∀ (cases : List WaitCase) (shutdown : Bool) (elapsed pick : Nat),
            await cases { ch := rc.ch, shutdown := shutdown, elapsed := elapsed,
                          pick := pick } ≠ some WaitCase.response) ∧
        (∀ (j : Nat) (r : APIRequest) (resp : APIResponse),
          w1.pool[j]? = some (Worker.writing r resp) → r.ResponseCh ≠ some id)) :=
  completed_call_result_is_discarded midCallWorld 0 (sampleRequest 0)
    midCallWorld_reachable rfl rfl

theorem s_Request_no_result (env : CallEnv) (req : APIRequest) (httpReq : HTTPRequest)
    (resp : HTTPResponse) (hres : req.Result = none)
    (hb : buildRequest env req = .ok httpReq) (ht : env.transport = .ok resp)
    (h2 : 200 ≤ resp.StatusCode) (h3 : resp.StatusCode < 300) :
    s_Request env req = (none, none) := by
  have hn : ¬ (resp.StatusCode < 200 ∨ resp.StatusCode ≥ 300) := by omega
  simp [s_Request, hb, ht, hn, hres]

/-- C25: in every reachable state of the dispatcher, a call of `SendRequest`
leaves only requests with a nil `Result` in the queue, and every request that
is queued or held by a worker has a nil `Result`.  For a worker performing the
call of such a request, when the call is made and completes with a status in
200..299, `s_Request` returns a nil result and a nil error whatever decoding the
body would give; and if cancellation is not raised, the worker then sends exactly
the response with nil `Error` and nil `Data` on the request's channel and closes
it. -/
theorem enqueued_requests_have_no_result (w : World) (hr : Reachable w) :
    (∀ (payload : Option String) (config : APILogRemote) (pick : Nat) (w1 : World) (id : Nat),
      SendRequest w payload config pick = .ok (w1, id) → ∀ r ∈ w1.queue, r.Result = none) ∧
    (∀ r ∈ w.queue, r.Result = none) ∧
    (∀ (i : Nat) (r : APIRequest), heldAt w.pool i = some r → r.Result = none) ∧
    (∀ (i : Nat) (req : APIRequest) (env : CallEnv) (httpReq : HTTPRequest)
        (resp : HTTPResponse),
      w.pool[i]? = some (Worker.calling req) →
      buildRequest env req = .ok httpReq → env.transport = .ok resp →
      200 ≤ resp.StatusCode → resp.StatusCode < 300 →
      (∀ d, s_Request { env with decode := d } req = (none, none)) ∧
      s_Request env req = (none, none) ∧
      (w.client.cancelled = false →
        ∃ id w1 w2, req.ResponseCh = some id ∧
          step w (Event.callDone i (s_Request env req).1 (s_Request env req).2) = .ok w1 ∧
          w1.pool[i]? = some (Worker.writing req { Error := none, Data := none }) ∧
          step w1 (Event.respond i) = .ok w2 ∧
          w2.chans[id]? = some (RespChan.answered i { Error := none, Data := none }))) := by
  refine ⟨?_, hr.resultInv.queued, hr.resultInv.held, ?_⟩
  · intro payload config pick w1 id hs
    have hstep : step w (Event.send payload config pick) = .ok w1 := by
      simp [step, hs]
    exact (resultInv_step _ hr.resultInv hstep).queued
  · intro i req env httpReq resp hp hb ht h2 h3
    have hlt : i < w.pool.length := (List.getElem?_eq_some.mp hp).1
    have hheld : heldAt w.pool i = some req := by simp [heldAt, hp, Worker.req?]
    have hres : req.Result = none := hr.resultInv.held i req hheld
    have hs := s_Request_no_result env req httpReq resp hres hb ht h2 h3
    refine ⟨?_, hs, ?_⟩
    · intro d
      exact s_Request_no_result { env with decode := d } req httpReq resp hres hb ht h2 h3
    · intro hc
      obtain ⟨id, hid, hfresh⟩ := hr.chanInv.held i req hheld
      have hidlt : id < w.chans.length := (List.getElem?_eq_some.mp hfresh).1
      refine ⟨id,
        World.mk w.client (w.pool.set i (Worker.writing req (APIResponse.mk none none)))
          w.chans w.closer,
        World.mk w.client
          ((w.pool.set i (Worker.writing req (APIResponse.mk none none))).set i Worker.idle)
          (w.chans.set id (RespChan.answered i (APIResponse.mk none none))) w.closer,
        hid, ?_, ?_, ?_, ?_⟩
      · rw [hs]
        simp [step, workerCallDone, hp, hc, hid]
      · exact List.getElem?_set_self hlt
      · have hp1 : (w.pool.set i (Worker.writing req { Error := none, Data := none }))[i]? =
            some (Worker.writing req { Error := none, Data := none }) :=
          List.getElem?_set_self hlt
        simp [step, workerRespond, hp1, hid, hfresh, RespChan.fresh, Chan.make, Chan.send,
          Chan.close, RespChan.answered]
      · exact List.getElem?_set_self hidlt

/-- Witness for C25: the worker of `busyWorld`, whose call is answered with
status 200 and a body that would not decode. -/
theorem enqueued_requests_have_no_result_witness :
    s_Request garbledEnv (sampleRequest 0) = (none, none) ∧
    ∃ id w1 w2, (sampleRequest 0).ResponseCh = some id ∧
      step busyWorld (Event.callDone 0 (s_Request garbledEnv (sampleRequest 0)).1
        (s_Request garbledEnv (sampleRequest 0)).2) = .ok w1 ∧
      w1.pool[0]? = some (Worker.writing (sampleRequest 0) { Error := none, Data := none }) ∧
      step w1 (Event.respond 0) = .ok w2 ∧
      w2.chans[id]? = some (RespChan.answered 0 { Error := none, Data := none }) :=
  ⟨((enqueued_requests_have_no_result busyWorld busyWorld_reachable).2.2.2 0
      (sampleRequest 0) garbledEnv _ (HTTPResponse.mk 200 "<html>") rfl rfl rfl
      (by decide) (by decide)).2.1,
   ((enqueued_requests_have_no_result busyWorld busyWorld_reachable).2.2.2 0
      (sampleRequest 0) garbledEnv _ (HTTPResponse.mk 200 "<html>") rfl rfl rfl
      (by decide) (by decide)).2.2 rfl⟩

/-- C26: once a call of `Close` has returned, in that state and in every state
reached from it, every `SendRequest` call, for every payload, config and choice
of the `select`, returns without blocking a new response channel that is closed
and empty, and leaves the dispatcher as it was: the queue field stays nil and
nothing is enqueued. -/
theorem sendRequest_after_close_drops (w w1 w2 : World) (evs evs2 : List Event)
    (hr : Reachable w)
    (hrun : run w ((Event.closeCancel :: evs) ++ [Event.closeWait]) = .ok w1)
    (hrun2 : run w1 evs2 = .ok w2) :
    w2.queue = [] ∧
    ∀ (payload : Option String) (config : APILogRemote) (pick : Nat),
      ∃ w3 id, SendRequest w2 payload config pick = .ok (w3, id) ∧
        w3.chans[id]? = some RespChan.dropped ∧
        RespChan.dropped.ch.closed = true ∧ RespChan.dropped.ch.buf = [] ∧
        w3.client = w2.client ∧ w3.pool = w2.pool ∧ w3.queue = [] ∧
        w3 = { w2 with chans := w2.chans ++ [RespChan.dropped] } := by
  have hshut1 : w1.shut := by
    obtain ⟨w0, hrun0, hstep⟩ := run_snoc _ _ hrun
    have hr0 := Reachable.run _ hr hrun0
    obtain ⟨hc, hn, _⟩ := close_return_state hr0 hstep
    exact ⟨hc, hn⟩
  have hshut2 := shut_run evs2 hshut1 hrun2
  have hq : w2.queue = [] := by simp [World.queue, hshut2.2]
  refine ⟨hq, ?_⟩
  intro payload config pick
  refine ⟨_, _, sendRequest_shut w2 hshut2 payload config pick, ?_, rfl, rfl, rfl, rfl, ?_,
    rfl⟩
  · simp
  · simp [World.queue, hshut2.2]

/-- Witness for C26: a one-worker dispatcher closed right after it was made,
then asked to send twice. -/
theorem sendRequest_after_close_drops_witness :
    ∃ w2, run (NewAPIClient 1 0)
        ([Event.closeCancel, Event.select 0 0, Event.closeChannel, Event.closeClear,
          Event.closeWait] ++ [Event.send (some "status") sampleConfig 0]) = .ok w2 ∧
      w2.queue = [] ∧
      ∀ (payload : Option String) (config : APILogRemote) (pick : Nat),
        ∃ w3 id, SendRequest w2 payload config pick = .ok (w3, id) ∧
          w3.chans[id]? = some RespChan.dropped ∧
          RespChan.dropped.ch.closed = true ∧ RespChan.dropped.ch.buf = [] ∧
          w3.client = w2.client ∧ w3.pool = w2.pool ∧ w3.queue = [] ∧
          w3 = { w2 with chans := w2.chans ++ [RespChan.dropped] } :=
  ⟨_, rfl, sendRequest_after_close_drops (NewAPIClient 1 0) _ _
    [Event.select 0 0, Event.closeChannel, Event.closeClear]
    [Event.send (some "status") sampleConfig 0] (Reachable.init 1 0) rfl rfl⟩

/-! ## Log rotation -/

theorem toDigitsCore_append (b f n : Nat) (ds : List Char) :
    Nat.toDigitsCore b f n ds = Nat.toDigitsCore b f n [] ++ ds := by
  induction f generalizing n ds with
  | zero => simp [Nat.toDigitsCore]
  | succ f ih =>
    simp only [Nat.toDigitsCore]
    split
    · simp
    · rw [ih (n / b) (Nat.digitChar (n % b) :: ds), ih (n / b) [Nat.digitChar (n % b)]]
      simp

theorem digit_digitChar (k : Nat) (h : k < 10) : (Nat.digitChar k).toNat - 48 = k := by
  interval_cases k <;> rfl

theorem digitsValue_snoc (l : List Char) (c : Char) :
    digitsValue (l ++ [c]) = 10 * digitsValue l + (c.toNat - 48) := by
  simp [digitsValue, List.foldl_append]

theorem digitsValue_toDigitsCore (f n : Nat) (h : n < f) :
    digitsValue (Nat.toDigitsCore 10 f n []) = n := by
  induction f generalizing n with
  | zero => omega
  | succ f ih =>
    simp only [Nat.toDigitsCore]
    split
    · rename_i h0
      have hlt : n % 10 < 10 := Nat.mod_lt _ (by decide)
      have := digit_digitChar (n % 10) hlt
      simp only [digitsValue, List.foldl_cons, List.foldl_nil, Nat.mul_zero, Nat.zero_add]
      omega
    · rename_i h0
      rw [toDigitsCore_append, digitsValue_snoc, ih (n / 10) (by omega),
        digit_digitChar (n % 10) (Nat.mod_lt _ (by decide))]
      omega

theorem toString_nat_inj {i j : Nat} (h : toString i = toString j) : i = j := by
  have h1 : Nat.repr i = Nat.repr j := h
  have h2 : digitsValue (Nat.toDigits 10 i) = digitsValue (Nat.toDigits 10 j) :=
    congrArg (fun s : String => digitsValue s.data) h1
  simp only [Nat.toDigits] at h2
  rw [digitsValue_toDigitsCore _ _ (Nat.lt_succ_self i),
    digitsValue_toDigitsCore _ _ (Nat.lt_succ_self j)] at h2
  exact h2

theorem rotatedName_inj (filename : String) {i j : Nat}
    (h : rotatedName filename i = rotatedName filename j) : i = j := by
  have h1 := congrArg String.data h
  simp only [rotatedName, String.data_append, List.append_assoc,
    List.append_cancel_left_eq] at h1
  exact toString_nat_inj (String.ext h1)

theorem rotatedName_ne (filename : String) (i : Nat) : rotatedName filename i ≠ filename := by
  intro h
  have h1 := congrArg String.length h
  simp only [rotatedName, String.length_append] at h1
  have : ".".length = 1 := rfl
  omega

theorem rotatedName_one (filename : String) : filename ++ ".1" = rotatedName filename 1 := by
  unfold rotatedName
  rw [String.append_assoc]
  rfl


theorem rename_none (d : Dir) (o n : String) (h : d o = none) : d.rename o n = d := by
  simp [Dir.rename, h]

theorem rename_some (d : Dir) (o n x : String) (c : String) (h : d o = some c) :
    d.rename o n x = if x = n then some c else if x = o then none else d x := by
  simp [Dir.rename, h]

/-- The indices of the rotated files the loop visits from `m` down to 1. -/
theorem range_rev_succ (m : Nat) :
    (List.range (m + 1)).reverse.map (· + 1) = (m + 1) :: (List.range m).reverse.map (· + 1) := by
  simp [List.range_succ]

theorem rotateLoop_spec (f : String) (m : Nat) (d : Dir) (moved : List (String × String)) :
    (∀ n, (∀ j, 1 ≤ j → j ≤ m + 1 → n ≠ rotatedName f j) →
      (rotateLoop f m (d, moved)).1 n = d n) ∧
    (1 ≤ m → (rotateLoop f m (d, moved)).1 (rotatedName f 1) = none) ∧
    (∀ j, 2 ≤ j → j ≤ m →
      (rotateLoop f m (d, moved)).1 (rotatedName f j) = d (rotatedName f (j - 1))) ∧
    (1 ≤ m → (rotateLoop f m (d, moved)).1 (rotatedName f (m + 1)) =
      (d (rotatedName f m)).orElse (fun _ => d (rotatedName f (m + 1)))) ∧
    (rotateLoop f m (d, moved)).2 = moved ++
      (((List.range m).reverse.map (· + 1)).filter
        (fun i => (d (rotatedName f i)).isSome)).map
        (fun i => (rotatedName f i, rotatedName f (i + 1))) := by
  induction m generalizing d moved with
  | zero =>
    refine ⟨fun _ _ => rfl, fun h => by omega, fun j h2 h0 => by omega, fun h => by omega, ?_⟩
    simp [rotateLoop]
  | succ m ih =>
    -- the directory and the renames after the first pass of the loop body
    obtain ⟨d1, moved1, hloop, hF1, hF2, hF3, hmoved⟩ :
        ∃ (d1 : Dir) (moved1 : List (String × String)),
          rotateLoop f (m + 1) (d, moved) = rotateLoop f m (d1, moved1) ∧
          (∀ n, n ≠ rotatedName f (m + 1) → n ≠ rotatedName f (m + 2) → d1 n = d n) ∧
          d1 (rotatedName f (m + 1)) = none ∧
          d1 (rotatedName f (m + 2)) =
            (d (rotatedName f (m + 1))).orElse (fun _ => d (rotatedName f (m + 2))) ∧
          moved1 = moved ++ (if (d (rotatedName f (m + 1))).isSome then
            [(rotatedName f (m + 1), rotatedName f (m + 2))] else []) := by
      have hne : rotatedName f (m + 1) ≠ rotatedName f (m + 2) := by
        intro h
        have := rotatedName_inj f h
        omega
      cases hx : d (rotatedName f (m + 1)) with
      | none =>
        refine ⟨d, moved, ?_, fun _ _ _ => rfl, hx, ?_, ?_⟩
        · simp [rotateLoop, hx]
        · simp
        · simp
      | some c =>
        refine ⟨d.rename (rotatedName f (m + 1)) (rotatedName f (m + 2)),
          moved ++ [(rotatedName f (m + 1), rotatedName f (m + 2))], ?_, ?_, ?_, ?_, ?_⟩
        · simp [rotateLoop, hx]
        · intro n h1 h2
          rw [rename_some d _ _ n c hx]
          simp [h1, h2]
        · rw [rename_some d _ _ _ c hx]
          simp [hne]
        · rw [rename_some d _ _ _ c hx]
          simp
        · simp
    obtain ⟨ia, ib, ic, idd, ie⟩ := ih d1 moved1
    rw [hloop]
    refine ⟨?_, ?_, ?_, ?_, ?_⟩
    · intro n hn
      rw [ia n (fun j h1 h2 => hn j h1 (by omega))]
      exact hF1 n (hn (m + 1) (by omega) (by omega)) (hn (m + 2) (by omega) (by omega))
    · intro _
      by_cases hm : 1 ≤ m
      · exact ib hm
      · have hm0 : m = 0 := by omega
        subst hm0
        simpa [rotateLoop] using hF2
    · intro j h2 hj
      have hd1 : d1 (rotatedName f (j - 1)) = d (rotatedName f (j - 1)) := by
        apply hF1
        · intro h
          have := rotatedName_inj f h
          omega
        · intro h
          have := rotatedName_inj f h
          omega
      by_cases hjm : j ≤ m
      · rw [ic j h2 hjm, hd1]
      · have hjeq : j = m + 1 := by omega
        subst hjeq
        have hm : 1 ≤ m := by omega
        rw [idd hm, hF2]
        have hm1 : m + 1 - 1 = m := by omega
        rw [hm1] at hd1 ⊢
        rw [hd1]
        cases d (rotatedName f m) <;> rfl
    · intro _
      rw [ia (rotatedName f (m + 1 + 1))]
      · exact hF3
      · intro j h1 h2 h
        have := rotatedName_inj f h
        omega
    · rw [ie, hmoved, range_rev_succ, List.filter_cons]
      have hcongr : ((List.range m).reverse.map (· + 1)).filter
            (fun i => (d1 (rotatedName f i)).isSome) =
          ((List.range m).reverse.map (· + 1)).filter
            (fun i => (d (rotatedName f i)).isSome) := by
        apply List.filter_congr
        intro i hi
        simp only [List.mem_map, List.mem_reverse, List.mem_range] at hi
        obtain ⟨a, ha, rfl⟩ := hi
        have : d1 (rotatedName f (a + 1)) = d (rotatedName f (a + 1)) := by
          apply hF1
          · intro h
            have := rotatedName_inj f h
            omega
          · intro h
            have := rotatedName_inj f h
            omega
        rw [this]
      rw [hcongr]
      cases hx : (d (rotatedName f (m + 1))).isSome <;> simp [hx]


theorem rotateLogs_small (d : Dir) (filename : String) (maxSize keepFiles : Int)
    (h : d filename = none ∨ ∃ c, d filename = some c ∧ (c.utf8ByteSize : Int) ≤ maxSize) :
    rotateLogs d filename maxSize keepFiles = (d, []) := by
  unfold rotateLogs
  rcases h with h | ⟨c, h, hs⟩
  · simp [h]
  · have : ¬ ((c.utf8ByteSize : Int) > maxSize) := by omega
    simp [h, this]

theorem rotateLogs_large (d : Dir) (filename : String) (maxSize keepFiles : Int) (c : String)
    (h : d filename = some c) (hs : (c.utf8ByteSize : Int) > maxSize) :
    rotateLogs d filename maxSize keepFiles =
      ((rotateLoop filename (keepFiles - 1).toNat (d, [])).1.rename filename
          (rotatedName filename 1),
        (rotateLoop filename (keepFiles - 1).toNat (d, [])).2 ++
          [(filename, rotatedName filename 1)]) := by
  unfold rotateLogs
  simp [h, hs, rotatedName_one]

/-- C22: with the log directory a map from file name to content and `keepFiles`
at least 1: when the current log file exists and is larger than `maxSize`,
`setupLogging` renames, for `i` from `keepFiles - 1` down to 1, each file
`filename.i` that exists to `filename.(i+1)`, and then the current file to
`filename.1`, and makes no other rename.  Afterwards the content of the current
file is under index 1 and the content of every file of index `i` below
`keepFiles` is under index `i+1`; the index `keepFiles` holds the content of
index `keepFiles - 1` if that file existed and keeps its own otherwise; every
other file is untouched; so every content of the directory other than that of
index `keepFiles` is still there.  The current name is free after the rotation
and `os.OpenFile` creates it empty.  When the current file is absent or not
larger than `maxSize`, no file is renamed and the directory is unchanged. -/
theorem setupLogging_rotates_log_files (d : Dir) (filename : String) (maxSize keepFiles : Int)
    (openErr : Option String) (hk : 1 ≤ keepFiles) :
    (∀ c, d filename = some c → (c.utf8ByteSize : Int) > maxSize →
      (setupLogging d filename maxSize keepFiles openErr).2.1 =
        (((List.range (keepFiles.toNat - 1)).reverse.map (· + 1)).filter
          (fun i => (d (rotatedName filename i)).isSome)).map
          (fun i => (rotatedName filename i, rotatedName filename (i + 1))) ++
        [(filename, filename ++ ".1")] ∧
      filename ++ ".1" = rotatedName filename 1 ∧
      (rotateLogs d filename maxSize keepFiles).1 filename = none ∧
      (rotateLogs d filename maxSize keepFiles).1 (rotatedName filename 1) = some c ∧
      (∀ i, 1 ≤ i → i < keepFiles.toNat → ∀ x, d (rotatedName filename i) = some x →
        (rotateLogs d filename maxSize keepFiles).1 (rotatedName filename (i + 1)) = some x) ∧
      (∀ j, 2 ≤ j → j < keepFiles.toNat →
        (rotateLogs d filename maxSize keepFiles).1 (rotatedName filename j) =
          d (rotatedName filename (j - 1))) ∧
      (2 ≤ keepFiles.toNat →
        (rotateLogs d filename maxSize keepFiles).1 (rotatedName filename keepFiles.toNat) =
          (d (rotatedName filename (keepFiles.toNat - 1))).orElse
            (fun _ => d (rotatedName filename keepFiles.toNat))) ∧
      (∀ n, n ≠ filename → (∀ i, 1 ≤ i → i ≤ keepFiles.toNat → n ≠ rotatedName filename i) →
        (rotateLogs d filename maxSize keepFiles).1 n = d n) ∧
      (∀ n x, d n = some x → n ≠ rotatedName filename keepFiles.toNat →
        ∃ n1, (rotateLogs d filename maxSize keepFiles).1 n1 = some x) ∧
      (openErr = none →
        (setupLogging d filename maxSize keepFiles openErr).1 filename = some "" ∧
        ∀ n, n ≠ filename → (setupLogging d filename maxSize keepFiles openErr).1 n =
          (rotateLogs d filename maxSize keepFiles).1 n)) ∧
    ((d filename = none ∨ ∃ c, d filename = some c ∧ (c.utf8ByteSize : Int) ≤ maxSize) →
      (setupLogging d filename maxSize keepFiles openErr).2.1 = [] ∧
      ∀ n, (rotateLogs d filename maxSize keepFiles).1 n = d n) := by
  have hsl : (setupLogging d filename maxSize keepFiles openErr).2.1 =
      (rotateLogs d filename maxSize keepFiles).2 := by
    unfold setupLogging
    cases openErr <;> rfl
  constructor
  · intro c hc hs
    have hm : (keepFiles - 1).toNat = keepFiles.toNat - 1 := by omega
    have hk1 : 1 ≤ keepFiles.toNat := by omega
    have hm1 : keepFiles.toNat - 1 + 1 = keepFiles.toNat := by omega
    obtain ⟨sa, sb, sc, sd, se⟩ := rotateLoop_spec filename (keepFiles.toNat - 1) d []
    have hlarge := rotateLogs_large d filename maxSize keepFiles c hc hs
    rw [hm] at hlarge
    rw [hm1] at sa sd
    -- the directory when the loop is over
    have hcur : (rotateLoop filename (keepFiles.toNat - 1) (d, [])).1 filename = some c := by
      rw [sa filename (fun j _ _ h => rotatedName_ne filename j h.symm)]
      exact hc
    have hdir : ∀ n, (rotateLogs d filename maxSize keepFiles).1 n =
        if n = rotatedName filename 1 then some c else if n = filename then none
        else (rotateLoop filename (keepFiles.toNat - 1) (d, [])).1 n := by
      intro n
      rw [hlarge]
      exact rename_some _ _ _ n c hcur
    have hfar : ∀ j, 2 ≤ j → (rotateLogs d filename maxSize keepFiles).1 (rotatedName filename j) =
        (rotateLoop filename (keepFiles.toNat - 1) (d, [])).1 (rotatedName filename j) := by
      intro j hj
      rw [hdir]
      have h1 : rotatedName filename j ≠ rotatedName filename 1 := by
        intro h
        have := rotatedName_inj filename h
        omega
      simp [h1, rotatedName_ne]
    have hnext : ∀ i, 1 ≤ i → i < keepFiles.toNat →
        (rotateLogs d filename maxSize keepFiles).1 (rotatedName filename (i + 1)) =
          (d (rotatedName filename i)).orElse
            (fun _ => if i + 1 = keepFiles.toNat then d (rotatedName filename (i + 1))
              else none) := by
      intro i h1 h2
      rw [hfar (i + 1) (by omega)]
      by_cases hi : i + 1 = keepFiles.toNat
      · have hi2 : i = keepFiles.toNat - 1 := by omega
        rw [hi, sd (by omega), ← hi2]
        simp [hi]
      · rw [sc (i + 1) (by omega) (by omega)]
        simp only [Nat.add_sub_cancel, hi, if_false]
        cases d (rotatedName filename i) <;> rfl
    have hpres : ∀ i, 1 ≤ i → i < keepFiles.toNat → ∀ x, d (rotatedName filename i) = some x →
        (rotateLogs d filename maxSize keepFiles).1 (rotatedName filename (i + 1)) = some x := by
      intro i h1 h2 x hx
      rw [hnext i h1 h2, hx]
      rfl
    have hrest : ∀ n, n ≠ filename →
        (∀ i, 1 ≤ i → i ≤ keepFiles.toNat → n ≠ rotatedName filename i) →
        (rotateLogs d filename maxSize keepFiles).1 n = d n := by
      intro n hn hni
      rw [hdir]
      simp only [hni 1 (le_refl 1) hk1, hn, if_false]
      exact sa n hni
    refine ⟨?_, rotatedName_one filename, ?_, ?_, hpres, ?_, ?_, hrest, ?_, ?_⟩
    · rw [hsl, hlarge, se, rotatedName_one]
      simp
    · rw [hdir]
      simp [rotatedName_ne, Ne.symm (rotatedName_ne filename 1)]
    · rw [hdir]
      simp
    · intro j h2 hj
      rw [hfar j h2]
      exact sc j h2 (by omega)
    · intro h2
      rw [hfar _ h2]
      exact sd (by omega)
    · intro n x hx hn
      by_cases hcurn : n = filename
      · subst hcurn
        rw [hc] at hx
        cases hx
        exact ⟨rotatedName n 1, by rw [hdir]; simp⟩
      · by_cases hex : ∃ i, 1 ≤ i ∧ i ≤ keepFiles.toNat ∧ n = rotatedName filename i
        · obtain ⟨i, h1, h2, rfl⟩ := hex
          have hlt : i < keepFiles.toNat := by
            rcases Nat.lt_or_ge i keepFiles.toNat with h | h
            · exact h
            · have : i = keepFiles.toNat := by omega
              subst this
              exact absurd rfl hn
          exact ⟨_, hpres i h1 hlt x hx⟩
        · refine ⟨n, ?_⟩
          rw [hrest n hcurn (fun i h1 h2 h => hex ⟨i, h1, h2, h⟩)]
          exact hx
    · intro ho
      subst ho
      have hnone : (rotateLogs d filename maxSize keepFiles).1 filename = none := by
        rw [hdir]
        simp [rotatedName_ne, Ne.symm (rotatedName_ne filename 1)]
      constructor
      · simp [setupLogging, hnone]
      · intro n hn
        simp [setupLogging, hnone, hn]
  · intro h
    rw [hsl, rotateLogs_small d filename maxSize keepFiles h]
    exact ⟨rfl, fun _ => rfl⟩


/-- Witness for C22: the directory `sampleDir` with `maxSize` 5 and `keepFiles`
3: the ten-byte current file goes to index 1, index 1 to index 2 and index 2 to
index 3. -/
theorem setupLogging_rotates_log_files_witness :
    (setupLogging sampleDir "a.log" 5 3 none).2.1 =
      (((List.range ((3 : Int).toNat - 1)).reverse.map (· + 1)).filter
        (fun i => (sampleDir (rotatedName "a.log" i)).isSome)).map
        (fun i => (rotatedName "a.log" i, rotatedName "a.log" (i + 1))) ++
      [("a.log", "a.log" ++ ".1")] ∧
    (rotateLogs sampleDir "a.log" 5 3).1 "a.log" = none ∧
    (rotateLogs sampleDir "a.log" 5 3).1 (rotatedName "a.log" 1) = some "0123456789" ∧
    (rotateLogs sampleDir "a.log" 5 3).1 (rotatedName "a.log" (1 + 1)) = some "old1" ∧
    (rotateLogs sampleDir "a.log" 5 3).1 (rotatedName "a.log" (2 + 1)) = some "old2" :=
  ⟨((setupLogging_rotates_log_files sampleDir "a.log" 5 3 none (by decide)).1
      "0123456789" rfl (by decide)).1,
   ((setupLogging_rotates_log_files sampleDir "a.log" 5 3 none (by decide)).1
      "0123456789" rfl (by decide)).2.2.1,
   ((setupLogging_rotates_log_files sampleDir "a.log" 5 3 none (by decide)).1
      "0123456789" rfl (by decide)).2.2.2.1,
   ((setupLogging_rotates_log_files sampleDir "a.log" 5 3 none (by decide)).1
      "0123456789" rfl (by decide)).2.2.2.2.1 1 (by decide) (by decide) "old1" (by decide),
   ((setupLogging_rotates_log_files sampleDir "a.log" 5 3 none (by decide)).1
      "0123456789" rfl (by decide)).2.2.2.2.1 2 (by decide) (by decide) "old2" (by decide)⟩

/-- The same run computed: the three renames in order, and the files afterwards. -/
theorem rotate_sampleDir :
    (setupLogging sampleDir "a.log" 5 3 none).2.1 =
      [("a.log.2", "a.log.3"), ("a.log.1", "a.log.2"), ("a.log", "a.log.1")] ∧
    (setupLogging sampleDir "a.log" 5 3 none).1 "a.log" = some "" ∧
    (setupLogging sampleDir "a.log" 5 3 none).1 "a.log.1" = some "0123456789" ∧
    (setupLogging sampleDir "a.log" 5 3 none).1 "a.log.2" = some "old1" ∧
    (setupLogging sampleDir "a.log" 5 3 none).1 "a.log.3" = some "old2" ∧
    (setupLogging sampleDir "a.log" 20 3 none).2.1 = [] ∧
    (setupLogging sampleDir "a.log" 10 3 none).2.1 = [] := by
  refine ⟨by decide, by decide, by decide, by decide, by decide, by decide, by decide⟩

/-- With `keepFiles` 0 (or less) the loop makes no pass and the rename of the
current file replaces the file of index 1. -/
theorem rotate_without_kept_files :
    (setupLogging sampleDir "a.log" 5 0 none).2.1 = [("a.log", "a.log.1")] ∧
    (setupLogging sampleDir "a.log" 5 0 none).1 "a.log.1" = some "0123456789" ∧
    (setupLogging sampleDir "a.log" 5 0 none).1 "a.log.2" = some "old2" := by
  refine ⟨by decide, by decide, by decide⟩

/-! ## Levels of the log records -/

theorem levelOK_error (s m : String) : (Effect.log s "ERROR" m).levelOK = true := rfl

theorem levelOK_info (s m : String) : (Effect.log s "INFO" m).levelOK = true := rfl

theorem levelOK_warn (s m : String) : (Effect.log s "WARN" m).levelOK = true := rfl

theorem levelOK_submit (p : Payload) (c : APILogRemote) : (Effect.submit p c).levelOK = true :=
  rfl

theorem getLevelString_not_level (l : String) : getLevelString l ∉ logLevels := by
  rcases getLevelString_cases l with h | h | h | h | h | h <;> rw [h] <;> decide

theorem sendLogMessage_levels (config : Config) (msg : BaseMessage) (env : WaitEnv) :
    (SendLogMessage config msg env).1.all Effect.levelOK = true := by
  unfold SendLogMessage
  repeat' split
  all_goals simp [Effect.levelOK]

theorem checkService_levels (serviceName : String) (config : Config) (env : ServiceEnv) :
    (checkService serviceName config env).1.all Effect.levelOK = true := by
  unfold checkService
  repeat' first | (simp [Effect.levelOK, logLevels]; done) | split | dsimp only

theorem monitorServicesTick_levels (config : Config) (env : String → Bool × ServiceEnv)
    (services : List String) :
    (monitorServicesTick config env services).1.all Effect.levelOK = true := by
  induction services with
  | nil => rfl
  | cons s rest ih =>
    have hs := checkService_levels s config (env s).2
    unfold monitorServicesTick
    rcases hc : checkService s config (env s).2 with ⟨fx, fl⟩
    rw [hc] at hs
    split
    · rfl
    · cases fl
      · simp only [List.all_append, Bool.and_eq_true]
        exact ⟨hs, ih⟩
      · exact hs

theorem periodic_levels {τ : Type} (line : String) (body : τ → List Effect × Loop)
    (h : ∀ t, (body t).1.all Effect.levelOK = true) (iterations : List (Option τ)) :
    (periodic line body iterations).1.all Effect.levelOK = true := by
  induction iterations with
  | nil => rfl
  | cons it rest ih =>
    cases it with
    | none => rfl
    | some t =>
      have ht := h t
      unfold periodic
      rcases hb : body t with ⟨fx, l⟩
      rw [hb] at ht
      cases l
      · simp only [List.all_append, Bool.and_eq_true]
        exact ⟨ht, ih⟩
      · exact ht
      · exact ht

theorem collectMetrics_levels (config : Config) (env : MetricsEnv) :
    (collectMetrics config env).1.all Effect.levelOK = true := by
  have ht : (collectTemperature config env).1.all Effect.levelOK = true := by
    unfold collectTemperature
    repeat' split
    all_goals rfl
  unfold collectMetrics
  cases collectCPU config env with
  | error e => rfl
  | ok cpu =>
    cases collectMemory config env with
    | error e => rfl
    | ok memory =>
      cases collectNetwork config env with
      | error e => rfl
      | ok network =>
        simp only
        have hs := sendLogMessage_levels config
          { CreateBaseMessage config "system_monitor" "metrics" "info"
              "System metrics collected" with Data := metricsData cpu memory } env.wait
        generalize SendLogMessage config _ env.wait = r at hs ⊢
        rcases r with ⟨fx, fl⟩
        cases fl <;> simp only [List.all_append, Bool.and_eq_true] <;> exact ⟨ht, hs⟩

theorem monitorSystemTick_levels (config : Config) (env : SystemEnv) :
    (monitorSystemTick config env).1.all Effect.levelOK = true := by
  have hc := collectMetrics_levels config env.metrics
  unfold monitorSystemTick
  generalize collectMetrics config env.metrics = r at hc ⊢
  rcases r with ⟨fx, c⟩
  simp only at hc
  cases c with
  | waiting => exact hc
  | failed err => simp [List.all_append, hc, Effect.levelOK, logLevels]
  | metrics m =>
    simp only
    repeat' first
      | (simp [List.all_append, hc, levelOK_error, levelOK_info, levelOK_submit]; done)
      | split

theorem checkWebsite_levels (url : String) (config : Config) (env : WebEnv) :
    (checkWebsite url config env).1.all Effect.levelOK = true := by
  have hw : (webStatusOf url env).2.levelOK = true := by
    unfold webStatusOf
    repeat' split
    all_goals rfl
  unfold checkWebsite
  repeat' first
    | (simp [List.all_append, hw, levelOK_error, levelOK_info, levelOK_submit]; done)
    | split
    | dsimp only

theorem monitorWebsitesTick_levels (config : Config) (env : WebTickEnv) :
    (monitorWebsitesTick config env).1.all Effect.levelOK = true := by
  simp only [monitorWebsitesTick, List.all_eq_true, List.mem_flatten, List.mem_map]
  rintro e ⟨fx, ⟨r, ⟨url, _, rfl⟩, rfl⟩, he⟩
  have hr : (siteCheck config env url).1.all Effect.levelOK = true := by
    unfold siteCheck
    split
    · rfl
    · exact checkWebsite_levels url config _
  exact List.all_eq_true.mp hr e he

theorem sendToOutputs_levels (config : Config) (api : WebAPI) (response : WebAPIResponse)
    (env : OutputEnv) :
    (sendToOutputs config api response env).1.all Effect.levelOK = true := by
  have hr : (remoteOutput config api response env).1.all Effect.levelOK = true := by
    unfold remoteOutput
    split
    · exact sendLogMessage_levels config _ env.wait
    · rfl
  have hl : (localOutput config api response env).all Effect.levelOK = true := by
    unfold localOutput
    by_cases hs : response.Status ≥ 400 <;> cases config.Syslog.Enabled <;>
      simp [hs, Effect.levelOK, logLevels]
  unfold sendToOutputs
  generalize remoteOutput config api response env = r at hr ⊢
  rcases r with ⟨fx, fl⟩
  cases fl
  · simp only [List.all_append, Bool.and_eq_true]
    exact ⟨hr, hl⟩
  · exact hr

theorem checkEndpoint_levels (config : Config) (api : WebAPI) (env : EndpointEnv) :
    (checkEndpoint config api env).1.all Effect.levelOK = true := by
  unfold checkEndpoint handleError
  repeat' split
  all_goals exact sendToOutputs_levels config api _ env.out

theorem startPass_levels (config : Config) (env : WebAPI → Option EndpointEnv)
    (tickers : List WebAPI) :
    (startPass config env tickers).1.all Effect.levelOK = true := by
  induction tickers with
  | nil => rfl
  | cons api rest ih =>
    unfold startPass
    cases he : env api with
    | none => exact ih
    | some e =>
      have hc := checkEndpoint_levels config api e
      simp only
      generalize checkEndpoint config api e = r at hc ⊢
      rcases r with ⟨fx, fl⟩
      cases fl
      · simp only [List.all_append, Bool.and_eq_true]
        exact ⟨hc, ih⟩
      · exact hc

theorem start_levels (config : Config)
    (iterations : List (Option (WebAPI → Option EndpointEnv))) :
    (WebAPIMonitor.Start config iterations).1.all Effect.levelOK = true := by
  have hloop : ∀ tickers : List WebAPI,
      (startLoop config tickers iterations).1.all Effect.levelOK = true := by
    intro tickers
    induction iterations with
    | nil => rfl
    | cons it rest ih =>
      cases it with
      | none => rfl
      | some env =>
        have hp := startPass_levels config env tickers
        unfold startLoop
        generalize startPass config env tickers = r at hp ⊢
        rcases r with ⟨fx, fl⟩
        cases fl
        · simp only [List.all_append, Bool.and_eq_true]
          exact ⟨hp, ih⟩
        · exact hp
  unfold WebAPIMonitor.Start
  split
  · rfl
  · exact hloop _


theorem forwardSyslog_records (config : Config) (evt : XMLEvent) (jsonEvent : String) :
    ∀ e ∈ forwardSyslog config evt jsonEvent, e.levelOK = true ∨ e.syslogForward := by
  intro e he
  unfold forwardSyslog at he
  split at he
  · simp only [List.mem_singleton] at he
    exact Or.inr ⟨evt.Level, jsonEvent, he⟩
  · cases he

theorem syslogForward_not_level (e : Effect) (h : e.syslogForward) : e.levelOK = false := by
  obtain ⟨l, message, rfl⟩ := h
  have hn := getLevelString_not_level l
  simp only [Effect.levelOK]
  simpa using hn

theorem levels_of_all {fx : List Effect} (h : fx.all Effect.levelOK = true) :
    ∀ e ∈ fx, e.levelOK = true ∨ e.syslogForward :=
  fun e he => Or.inl (List.all_eq_true.mp h e he)

theorem levels_append {a b : List Effect}
    (ha : ∀ e ∈ a, e.levelOK = true ∨ e.syslogForward)
    (hb : ∀ e ∈ b, e.levelOK = true ∨ e.syslogForward) :
    ∀ e ∈ a ++ b, e.levelOK = true ∨ e.syslogForward := by
  intro e he
  rcases List.mem_append.mp he with h | h
  · exact ha e h
  · exact hb e h

theorem processEvent_levels (evt : XMLEvent) (channel : String) (config : Config)
    (env : EventEnv) :
    ∀ e ∈ (processEvent evt channel config env).1, e.levelOK = true ∨ e.syslogForward := by
  have hf := forwardSyslog_records config evt
  unfold processEvent
  repeat' first
    | exact levels_of_all rfl
    | exact levels_append (levels_of_all rfl) (hf _)
    | exact levels_append (levels_append (levels_of_all rfl) (levels_of_all rfl)) (hf _)
    | split

theorem handleEvent_levels (evt : XMLEvent) (channel : String) (config : Config)
    (env : EventEnv) :
    ∀ e ∈ (handleEvent evt channel config env).1, e.levelOK = true ∨ e.syslogForward := by
  have hp := processEvent_levels evt channel config env
  unfold handleEvent
  generalize processEvent evt channel config env = r at hp ⊢
  rcases r with ⟨fx, fl, err⟩
  cases fl
  · cases err
    · exact hp
    · intro e he
      simp only [List.mem_append, List.mem_singleton] at he
      rcases he with he | he
      · exact hp e he
      · subst he
        exact Or.inl rfl
  · exact hp

theorem monitorChannel_levels (channel : String) (config : Config) (steps : List ChannelStep) :
    ∀ e ∈ (monitorChannel channel config steps).1, e.levelOK = true ∨ e.syslogForward := by
  have hloop : ∀ e ∈ (monitorChannelLoop channel config steps).1,
      e.levelOK = true ∨ e.syslogForward := by
    induction steps with
    | nil => intro e he; cases he
    | cons st rest ih =>
      cases st with
      | stop =>
        intro e he
        simp only [monitorChannelLoop, List.mem_singleton] at he
        subst he
        exact Or.inl rfl
      | noEvent => exact ih
      | event evt env stopped pick =>
        have hh := handleEvent_levels evt channel config env
        unfold monitorChannelLoop
        split
        · intro e he
          simp only [List.mem_append] at he
          rcases he with he | he
          · exact hh e he
          · exact ih e he
        · intro e he
          simp only [List.mem_append, List.mem_singleton] at he
          rcases he with he | he
          · exact hh e he
          · subst he
            exact Or.inl rfl
        · exact hh
  intro e he
  simp only [monitorChannel, List.mem_cons] at he
  rcases he with he | he
  · subst he
    exact Or.inl rfl
  · exact hloop e he

/-- C21, the code at the failing input: every record the service monitor, the
system monitor, the web monitor and the web-API monitor pass to `Logger.Log` has
a level among DEBUG, INFO, WARN, ERROR, and so has every record of the event-log
monitor except the one `processEvent` writes for syslog, whose level is the name
`getLevelString` gives for the level of the event (Critical, Error, Warning,
Information, Verbose or Unknown), never one of the four.  With syslog enabled,
an event of level 2 gives a record of source `Syslog` at level `Error`. -/
theorem syslog_forward_level_outside_set :
    (∀ (services : List String) (config : Config)
        (iterations : List (Option (String → Bool × ServiceEnv))),
      (monitorServices services config iterations).1.all Effect.levelOK = true) ∧
    (∀ (config : Config) (iterations : List (Option SystemEnv)),
      (monitorSystem config iterations).1.all Effect.levelOK = true) ∧
    (∀ (config : Config) (iterations : List (Option WebTickEnv)),
      (monitorWebsites config iterations).1.all Effect.levelOK = true) ∧
    (∀ (config : Config) (iterations : List (Option (WebAPI → Option EndpointEnv))),
      (WebAPIMonitor.Start config iterations).1.all Effect.levelOK = true) ∧
    (∀ (channel : String) (config : Config) (steps : List ChannelStep),
      ∀ e ∈ (monitorChannel channel config steps).1, e.levelOK = true ∨ e.syslogForward) ∧
    (∀ l : String, getLevelString l ∉ logLevels) ∧
    (∀ e : Effect, e.syslogForward → e.levelOK = false) ∧
    monitorChannel "System" syslogOnlyConfig
        [ChannelStep.event (XMLEvent.mk "2" "PC1") plainEvent false 0] =
      ([.log "WindowsLogs" "INFO" "Starting monitoring of channel: System",
        .log "WindowsLogs" "INFO" "event@System",
        .log "Syslog" "Error" "event@System"], .continues) ∧
    (Effect.log "Syslog" "Error" "event@System").levelOK = false := by
  refine ⟨?_, ?_, ?_, ?_, monitorChannel_levels, getLevelString_not_level,
    syslogForward_not_level, by decide, by decide⟩
  · intro services config iterations
    exact periodic_levels _ _ (fun env => monitorServicesTick_levels config env services) _
  · intro config iterations
    exact periodic_levels _ _ (monitorSystemTick_levels config) _
  · intro config iterations
    exact periodic_levels _ _ (monitorWebsitesTick_levels config) _
  · exact start_levels

/-! ## The closed request channel -/

theorem closed_step {w w1 : World} (e : Event)
    (hi : ∀ ch, w.client.requestCh = some ch → ch.closed = true → w.closer = Closer.afterClose)
    (h : step w e = .ok w1) :
    ∀ ch, w1.client.requestCh = some ch → ch.closed = true → w1.closer = Closer.afterClose := by
  have hret : ∀ {i : Nat}, workerReturn w i = .ok w1 →
      ∀ ch, w1.client.requestCh = some ch → ch.closed = true →
        w1.closer = Closer.afterClose := by
    intro i hr
    obtain ⟨_, h1⟩ := workerReturn_ok hr
    subst h1
    exact hi
  cases e with
  | send payload config pick =>
    rcases (sendRequest_ok (step_send_ok h)).2 with h1 | ⟨ch, hch, hcl, _, h1⟩
    · subst h1; exact hi
    · subst h1
      intro ch1 hq hc
      simp only [Option.some.injEq] at hq
      subst hq
      simp only at hc
      rw [hcl] at hc
      cases hc
  | select i pick =>
    obtain ⟨hp, h1 | ⟨ch, req, rest, hch, hbuf, h1⟩⟩ := workerSelect_ok h
    · exact hret h1
    · subst h1
      intro ch1 hq hc
      simp only [Option.some.injEq] at hq
      subst hq
      exact hi ch hch hc
  | callDone i resp err =>
    obtain ⟨req, hp, h1 | ⟨_, _, h1⟩ | ⟨_, id, _, h1⟩⟩ := workerCallDone_ok h
    · exact hret h1.2
    · subst h1; exact hi
    · subst h1; exact hi
  | respond i =>
    obtain ⟨req, resp, id, rc, hp, _, _, _, _, h1⟩ := workerRespond_ok h
    subst h1
    exact hi
  | closeCancel =>
    obtain ⟨hc, h1⟩ := closeCancel_ok h
    subst h1
    intro ch hq hcl
    have := hi ch hq hcl
    rw [hc] at this
    cases this
  | closeChannel =>
    obtain ⟨_, ⟨hn, h1⟩ | ⟨ch, hch, _, h1⟩⟩ := closeChannel_ok h
    · subst h1
      intro ch hq
      rw [hn] at hq
      cases hq
    · subst h1
      intro _ _ _
      rfl
  | closeClear =>
    obtain ⟨_, h1⟩ := closeClear_ok h
    subst h1
    intro ch hq
    cases hq
  | closeWait =>
    obtain ⟨hw, hz, h1⟩ := closeWait_ok h
    subst h1
    intro ch hq hcl
    have := hi ch hq hcl
    rw [hw] at this
    cases this

/-- The request channel is closed only while `Close` is between
`close(c.requestCh)` and `c.requestCh = nil`. -/
theorem Reachable.closedMidClose {w : World} (h : Reachable w) :
    ∀ ch, w.client.requestCh = some ch → ch.closed = true → w.closer = Closer.afterClose := by
  induction h with
  | init n wg0 =>
    intro ch hq hc
    simp only [NewAPIClient, Option.some.injEq] at hq
    subst hq
    cases hc
  | next e _ hs ih => exact closed_step e ih hs

/-- The actions of `Close` before `wg.Wait()` are never blocked and never panic,
whatever the other goroutines have done. -/
theorem close_actions_proceed {w : World} (hr : Reachable w) :
    (w.closer = Closer.idle → ∃ w1, step w Event.closeCancel = .ok w1) ∧
    (w.closer = Closer.afterCancel → ∃ w1, step w Event.closeChannel = .ok w1) ∧
    (w.closer = Closer.afterClose → ∃ w1, step w Event.closeClear = .ok w1) := by
  refine ⟨?_, ?_, ?_⟩
  · intro h
    exact ⟨_, by simp only [step, closeCancel, h]; rfl⟩
  · intro h
    cases hq : w.client.requestCh with
    | none => exact ⟨_, by simp only [step, closeChannel, h, hq]; rfl⟩
    | some ch =>
      have ho : ch.closed = false := by
        cases hcl : ch.closed with
        | false => rfl
        | true =>
          have := hr.closedMidClose ch hq hcl
          rw [h] at this
          cases this
      exact ⟨_, by simp only [step, closeChannel, h, hq, Chan.close, ho]; rfl⟩
  · intro h
    exact ⟨_, by simp only [step, closeClear, h]; rfl⟩

/-! ## A full queue while `Close` runs -/

theorem queuedWorld_send (n : Nat) (h : n < 1000) :
    step (queuedWorld n) (Event.send (some "status") sampleConfig 0) =
      .ok (queuedWorld (n + 1)) := by
  have hready : sendReady (queuedWorld n).client = [SendCase.enqueue] := by
    simp [sendReady, queuedWorld, Chan.canSend, h]
  have hlen : (queuedWorld n).chans.length = n := by simp [queuedWorld]
  simp only [step, SendRequest, hready, chooseCase_singleton, hlen]
  simp [queuedWorld, Chan.send, h, List.range_succ, List.replicate_succ', sampleRequest]

theorem queuedWorld_reachable (n : Nat) (h : n ≤ 1000) : Reachable (queuedWorld n) := by
  induction n with
  | zero => exact Reachable.init 3 0
  | succ n ih => exact Reachable.next _ (ih (by omega)) (queuedWorld_send n (by omega))

theorem fullWorld_reachable : Reachable fullWorld :=
  queuedWorld_reachable 1000 (le_refl _)

theorem step_closeCancel_idle (w : World) (h : w.closer = Closer.idle) :
    step w Event.closeCancel =
      .ok { w with client := { w.client with cancelled := true },
                   closer := Closer.afterCancel } := by
  simp [step, closeCancel, h]

theorem step_closeChannel_open (w : World) (ch : Chan APIRequest)
    (h : w.closer = Closer.afterCancel) (hq : w.client.requestCh = some ch)
    (ho : ch.closed = false) :
    step w Event.closeChannel =
      .ok { w with client := { w.client with requestCh := some { ch with closed := true } },
                   closer := Closer.afterClose } := by
  simp [step, closeChannel, h, hq, Chan.close, ho]

set_option maxRecDepth 100000 in
theorem closingFullWorld_reachable : Reachable closingFullWorld := by
  have h1 := Reachable.next Event.closeCancel fullWorld_reachable
    (step_closeCancel_idle fullWorld rfl)
  exact Reachable.next Event.closeChannel h1
    (step_closeChannel_open _ (Chan.mk ((List.range 1000).map sampleRequest) 1000 false)
      rfl rfl rfl)

theorem sendRequest_closed_queue (w : World) (ch : Chan APIRequest)
    (payload : Option String) (config : APILogRemote) (pick : Nat)
    (hq : w.client.requestCh = some ch) (hclosed : ch.closed = true)
    (hc : w.client.cancelled = true) :
    SendRequest w payload config pick =
      (if pick % 2 = 0 then
        .ok ({ w with chans := w.chans ++ [RespChan.dropped] }, w.chans.length)
      else .panic "send on closed channel") := by
  have hready : sendReady w.client = [SendCase.ctxDone, SendCase.enqueue] := by
    simp [sendReady, hq, Chan.canSend, hclosed, hc]
  unfold SendRequest
  rw [hready]
  have hlt : pick % 2 < 2 := Nat.mod_lt _ (by decide)
  by_cases h0 : pick % 2 = 0
  · simp [chooseCase, h0]
  · have h1 : pick % 2 = 1 := by omega
    simp [chooseCase, h1, hq, Chan.send, hclosed]

/-- C1, the code at the failing input: in every reachable state whose queue
holds 1000 requests `SendRequest` never blocks and never enqueues, but it does
not always return: while the queue is open it takes `ctx.Done()` or `default` and
returns a new channel that is closed and empty, leaving the dispatcher as it
was; while `Close` is between `close(c.requestCh)` and `c.requestCh = nil`, the
send case can proceed too, and when the `select` takes it the send panics.  The
state `closingFullWorld` is reached by 1000 sends followed by the first two
actions of `Close`; there the choice 1 panics and the choice 0 drops. -/
theorem sendRequest_full_queue_drops_or_panics :
    (∀ (w : World) (payload : Option String) (config : APILogRemote) (pick : Nat),
      Reachable w → w.queue.length = 1000 →
      SendRequest w payload config pick =
          .ok ({ w with chans := w.chans ++ [RespChan.dropped] }, w.chans.length) ∨
        (w.client.cancelled = true ∧ w.closer = Closer.afterClose ∧
          (∃ ch, w.client.requestCh = some ch ∧ ch.closed = true) ∧
          SendRequest w payload config pick = .panic "send on closed channel")) ∧
    (∀ (w : World) (ch : Chan APIRequest) (payload : Option String) (config : APILogRemote)
        (pick : Nat),
      Reachable w → w.client.requestCh = some ch → ch.closed = false →
      ch.buf.length = 1000 →
      SendRequest w payload config pick =
        .ok ({ w with chans := w.chans ++ [RespChan.dropped] }, w.chans.length)) ∧
    Reachable closingFullWorld ∧
    closingFullWorld.queue.length = 1000 ∧
    (∀ (payload : Option String) (config : APILogRemote),
      SendRequest closingFullWorld payload config 1 = .panic "send on closed channel") ∧
    (∀ (payload : Option String) (config : APILogRemote),
      SendRequest closingFullWorld payload config 0 =
        .ok ({ closingFullWorld with chans := closingFullWorld.chans ++ [RespChan.dropped] },
          closingFullWorld.chans.length)) := by
  have hopen : ∀ (w : World) (ch : Chan APIRequest) (payload : Option String)
      (config : APILogRemote) (pick : Nat),
      Reachable w → w.client.requestCh = some ch → ch.closed = false →
      ch.buf.length = 1000 →
      SendRequest w payload config pick =
        .ok ({ w with chans := w.chans ++ [RespChan.dropped] }, w.chans.length) := by
    intro w ch payload config pick hr hq ho hfull
    have hcap := hr.queueInv.cap ch hq
    have hready : sendReady w.client =
        if w.client.cancelled then [SendCase.ctxDone] else [] := by
      simp [sendReady, hq, Chan.canSend, ho, hcap, hfull]
    unfold SendRequest
    rw [hready]
    by_cases hc : w.client.cancelled = true
    · rw [if_pos hc, chooseCase_singleton]
    · rw [if_neg hc, chooseCase_nil]
  refine ⟨?_, hopen, closingFullWorld_reachable, ?_, ?_, ?_⟩
  · intro w payload config pick hr hlen
    cases hq : w.client.requestCh with
    | none => simp [World.queue, hq] at hlen
    | some ch =>
      have hbuf : ch.buf.length = 1000 := by simpa [World.queue, hq] using hlen
      cases hcl : ch.closed with
      | false => exact Or.inl (hopen w ch payload config pick hr hq hcl hbuf)
      | true =>
        have hc : w.client.cancelled = true := by
          by_contra hn
          have hn2 : w.client.cancelled = false := by simpa using hn
          obtain ⟨_, ch2, hq2, ho2⟩ := hr.queueInv.live hn2
          rw [hq] at hq2
          cases hq2
          rw [hcl] at ho2
          cases ho2
        rw [sendRequest_closed_queue w ch payload config pick hq hcl hc]
        by_cases h0 : pick % 2 = 0
        · left; simp [h0]
        · right; exact ⟨hc, hr.closedMidClose ch hq hcl, ⟨ch, rfl, hcl⟩, by simp [h0]⟩
  · simp only [closingFullWorld, World.queue, List.length_map, List.length_range]
  · intro payload config
    rw [sendRequest_closed_queue closingFullWorld _ payload config 1 rfl rfl rfl]
    rfl
  · intro payload config
    rw [sendRequest_closed_queue closingFullWorld _ payload config 0 rfl rfl rfl]
    rfl

/-! ## `Close`, call to return -/

theorem close_eq_run (w : World) : Close w = run w (closeEvents w) := by
  obtain ⟨⟨rq, n, wg, c⟩, pool, chans, closer⟩ := w
  by_cases hz : wg = 0 <;> cases closer <;> cases rq with
  | none => simp [Close, run, step, closeEvents, closeCancel, closeChannel, closeWait, hz]
  | some ch =>
    cases hcl : ch.closed <;>
      simp [Close, run, step, closeEvents, closeCancel, closeChannel, closeClear, closeWait,
        Chan.close, hcl, hz]

theorem cancelled_run {w w1 : World} (evs : List Event) (hc : w.client.cancelled = true)
    (h : run w evs = .ok w1) : w1.client.cancelled = true := by
  induction evs generalizing w with
  | nil =>
    simp only [run, Res.ok.injEq] at h
    subst h
    exact hc
  | cons e es ih =>
    simp only [run] at h
    cases hst : step w e with
    | ok w2 =>
      rw [hst] at h
      exact ih (cancelled_step e hc hst) h
    | blocked => rw [hst] at h; cases h
    | panic m => rw [hst] at h; cases h

theorem pendingWorld_reachable (wg0 : Nat) : Reachable (pendingWorld wg0) := by
  refine Reachable.next (Event.send (some "status") sampleConfig 0) (Reachable.init 1 wg0) ?_
  simp [step, SendRequest, sendReady, NewAPIClient, Chan.make, Chan.canSend, chooseCase,
    Chan.send, pendingWorld, sampleRequest, RespChan.fresh]

/-- The part of the WaitGroup counter that is not this dispatcher's workers
never changes. -/
theorem counter_base_step {w w1 : World} (e : Event) (h : step w e = .ok w1) :
    w1.client.wg - liveWorkers w1.pool = w.client.wg - liveWorkers w.pool := by
  have hret : ∀ {i : Nat} {y : Worker}, w.pool[i]? = some y → y.alive = 1 →
      workerReturn w i = .ok w1 →
      w1.client.wg - liveWorkers w1.pool = w.client.wg - liveWorkers w.pool := by
    intro i y hp hy hr
    obtain ⟨_, h1⟩ := workerReturn_ok hr
    subst h1
    have hl := liveWorkers_set (x := Worker.exited) hp
    rw [hy] at hl
    have he : Worker.exited.alive = 0 := rfl
    rw [he] at hl
    show w.client.wg - 1 - (liveWorkers (w.pool.set i Worker.exited) : Int) = _
    omega
  have hmove : ∀ (x : Worker) {i : Nat} {y : Worker}, w.pool[i]? = some y → y.alive = 1 →
      x.alive = 1 → (liveWorkers (w.pool.set i x) : Int) = liveWorkers w.pool := by
    intro x i y hp hy hx
    have hl := liveWorkers_set (x := x) hp
    rw [hy, hx] at hl
    omega
  cases e with
  | send payload config pick =>
    rcases (sendRequest_ok (step_send_ok h)).2 with h1 | ⟨ch, hch, _, _, h1⟩ <;> subst h1 <;> rfl
  | select i pick =>
    obtain ⟨hp, h1 | ⟨ch, req, rest, hch, hbuf, h1⟩⟩ := workerSelect_ok h
    · exact hret hp rfl h1
    · subst h1
      show w.client.wg - (liveWorkers (w.pool.set i (Worker.calling req)) : Int) = _
      rw [hmove (Worker.calling req) hp rfl rfl]
  | callDone i resp err =>
    obtain ⟨req, hp, h1 | ⟨_, _, h1⟩ | ⟨_, id, _, h1⟩⟩ := workerCallDone_ok h
    · exact hret hp rfl h1.2
    · subst h1
      show w.client.wg - (liveWorkers (w.pool.set i Worker.idle) : Int) = _
      rw [hmove Worker.idle hp rfl rfl]
    · subst h1
      show w.client.wg - (liveWorkers (w.pool.set i (Worker.writing req _)) : Int) = _
      rw [hmove (Worker.writing req _) hp rfl rfl]
  | respond i =>
    obtain ⟨req, resp, id, rc, hp, _, _, _, _, h1⟩ := workerRespond_ok h
    subst h1
    show w.client.wg - (liveWorkers (w.pool.set i Worker.idle) : Int) = _
    rw [hmove Worker.idle hp rfl rfl]
  | closeCancel =>
    obtain ⟨_, h1⟩ := closeCancel_ok h
    subst h1
    rfl
  | closeChannel =>
    obtain ⟨_, ⟨hn, h1⟩ | ⟨ch, hch, _, h1⟩⟩ := closeChannel_ok h <;> subst h1 <;> rfl
  | closeClear =>
    obtain ⟨_, h1⟩ := closeClear_ok h
    subst h1
    rfl
  | closeWait =>
    obtain ⟨hw, hz, h1⟩ := closeWait_ok h
    subst h1
    rfl

theorem counter_base_run {w w1 : World} (evs : List Event) (h : run w evs = .ok w1) :
    w1.client.wg - liveWorkers w1.pool = w.client.wg - liveWorkers w.pool := by
  induction evs generalizing w with
  | nil =>
    simp only [run, Res.ok.injEq] at h
    subst h
    rfl
  | cons e es ih =>
    simp only [run] at h
    cases hst : step w e with
    | ok w2 =>
      rw [hst] at h
      rw [ih h, counter_base_step e hst]
    | blocked => rw [hst] at h; cases h
    | panic m => rw [hst] at h; cases h

/-- On a dispatcher made while another task is counted on the WaitGroup, the
counter stays positive and `wg.Wait()` cannot return. -/
theorem shared_counter_blocks_wait (n wg0 : Nat) (evs : List Event) (w1 : World)
    (h0 : 1 ≤ wg0) (h : run (NewAPIClient n wg0) evs = .ok w1) :
    1 ≤ w1.client.wg ∧ step w1 Event.closeWait = .blocked := by
  have hb := counter_base_run evs h
  have hinit : (NewAPIClient n wg0).client.wg - liveWorkers (NewAPIClient n wg0).pool = wg0 := by
    simp [NewAPIClient, liveWorkers_replicate_idle]
  rw [hinit] at hb
  have hpos : 1 ≤ w1.client.wg := by omega
  refine ⟨hpos, ?_⟩
  have hne : ¬ (w1.client.wg = 0) := by omega
  simp only [step, closeWait]
  split
  · simp [hne]
  · rfl

/-- The actions of `Close` before `wg.Wait()`, run with no other goroutine in
between. -/
theorem close_before_wait (w : World) (hr : Reachable w) (hidle : w.closer = Closer.idle) :
    run w (closeEvents w).dropLast =
      .ok { w with client := { w.client with requestCh := none, cancelled := true },
                   closer := Closer.waiting } ∧
    Close w = closeWait { w with client := { w.client with requestCh := none,
                                                            cancelled := true },
                                 closer := Closer.waiting } := by
  have hclose := close_eq_run w
  obtain ⟨⟨rq, n, wg, c⟩, pool, chans, closer⟩ := w
  simp only at hidle
  subst hidle
  cases hc : c with
  | false =>
    subst hc
    obtain ⟨_, ch, hq, ho⟩ := hr.queueInv.live rfl
    simp only at hq
    subst hq
    rw [hclose]
    simp [closeEvents, run, step, closeCancel, closeChannel, closeClear, Chan.close, ho]
    generalize closeWait _ = r
    cases r <;> rfl
  | true =>
    subst hc
    obtain ⟨hn, _⟩ := hr.closeInv.returned rfl rfl
    simp only at hn
    subst hn
    rw [hclose]
    simp [closeEvents, run, step, closeCancel, closeChannel]
    generalize closeWait _ = r
    cases r <;> rfl

/-- C6: for every reachable dispatcher on which `Close` is called while no
other call of `Close` is running (each dispatcher is closed by the one goroutine
that made it): `Close` is the run of its actions in program order; the actions
before `wg.Wait()` never block or panic, and after them the cancellation signal
is raised, the queue field is nil so that no queued request remains, and the
workers and the counter are untouched; what is left of `Close` is `wg.Wait()` in
that state, which stays blocked while the counter is not zero, and `Close`
returns only with counter zero and every worker exited.  With other goroutines
running in between, the signal is raised from the first action on and the next
action of `Close` before `wg.Wait()` can always be taken; from the moment `Close`
waits the queue is gone and a worker that enters its `select` can only return,
so no request is handed to a worker any more; and when `Close` returns every
worker has exited.  On a dispatcher made while another task is counted on the
WaitGroup, `wg.Wait()` never returns. -/
theorem close_cancels_drains_and_waits (w : World) (hr : Reachable w)
    (hidle : w.closer = Closer.idle) :
    Close w = run w (closeEvents w) ∧
    (∃ w3, run w (closeEvents w).dropLast = .ok w3 ∧
      w3.client.cancelled = true ∧ w3.client.requestCh = none ∧ w3.queue = [] ∧
      w3.pool = w.pool ∧ w3.client.wg = w.client.wg ∧ w3.closer = Closer.waiting ∧
      Close w = closeWait w3) ∧
    (w.client.wg ≠ 0 → Close w = .blocked) ∧
    (∀ w1, Close w = .ok w1 →
      w.client.wg = 0 ∧ w1.client.cancelled = true ∧ w1.client.requestCh = none ∧
      w1.queue = [] ∧ (∀ p ∈ w1.pool, p = Worker.exited) ∧ w1.closer = Closer.idle) ∧
    (∀ (evs : List Event) (w1 : World), run w (Event.closeCancel :: evs) = .ok w1 →
      w1.client.cancelled = true ∧
      (w1.closer = Closer.afterCancel → ∃ w2, step w1 Event.closeChannel = .ok w2) ∧
      (w1.closer = Closer.afterClose → ∃ w2, step w1 Event.closeClear = .ok w2) ∧
      (w1.closer = Closer.waiting ∨ w1.closer = Closer.idle →
        w1.client.requestCh = none ∧ w1.queue = [] ∧
        ∀ (i pick : Nat) (w2 : World), step w1 (Event.select i pick) = .ok w2 →
          w2.pool[i]? = some Worker.exited)) ∧
    (∀ (evs : List Event) (w1 : World),
      run w ((Event.closeCancel :: evs) ++ [Event.closeWait]) = .ok w1 →
      w1.client.cancelled = true ∧ w1.client.requestCh = none ∧ w1.queue = [] ∧
      w1.client.wg = 0 ∧ (∀ p ∈ w1.pool, p = Worker.exited) ∧ w1.closer = Closer.idle) ∧
    (∀ (n wg0 : Nat) (evs : List Event) (w1 : World), 1 ≤ wg0 →
      run (NewAPIClient n wg0) evs = .ok w1 → step w1 Event.closeWait = .blocked) := by
  obtain ⟨hpre, hwait⟩ := close_before_wait w hr hidle
  have hseq : ∀ w1, Close w = .ok w1 →
      w.client.wg = 0 ∧
      w1 = { w with client := { w.client with requestCh := none, cancelled := true },
                    closer := Closer.idle } := by
    intro w1 h
    rw [hwait] at h
    obtain ⟨_, hz, h1⟩ := closeWait_ok h
    exact ⟨hz, h1⟩
  refine ⟨close_eq_run w, ⟨_, hpre, rfl, rfl, rfl, rfl, rfl, rfl, hwait⟩, ?_, ?_, ?_, ?_, ?_⟩
  · intro hne
    rw [hwait]
    simp [closeWait, hne]
  · intro w1 h
    obtain ⟨hz, h1⟩ := hseq w1 h
    subst h1
    obtain ⟨base, hb⟩ := hr.closeInv.counter
    have hlive : liveWorkers w.pool = 0 := by omega
    exact ⟨hz, rfl, rfl, rfl, liveWorkers_eq_zero hlive, rfl⟩
  · intro evs w1 hrun
    have hr1 : Reachable w1 := Reachable.run _ hr hrun
    simp only [run] at hrun
    cases hst : step w Event.closeCancel with
    | ok w0 =>
      rw [hst] at hrun
      have hc0 : w0.client.cancelled = true := by rw [(closeCancel_ok hst).2]
      have hc1 := cancelled_run evs hc0 hrun
      refine ⟨hc1, (close_actions_proceed hr1).2.1, (close_actions_proceed hr1).2.2, ?_⟩
      have hnil : w1.client.requestCh = none →
          w1.client.requestCh = none ∧ w1.queue = [] ∧
          ∀ (i pick : Nat) (w2 : World), step w1 (Event.select i pick) = .ok w2 →
            w2.pool[i]? = some Worker.exited := by
        intro hn
        refine ⟨hn, by simp [World.queue, hn], ?_⟩
        intro i pick w2 hs
        obtain ⟨hp, h2 | ⟨ch, _, _, hch, _, _⟩⟩ := workerSelect_ok hs
        · obtain ⟨_, h3⟩ := workerReturn_ok h2
          subst h3
          exact List.getElem?_set_self (List.getElem?_eq_some.mp hp).1
        · rw [hn] at hch
          cases hch
      rintro (h | h)
      · exact hnil (hr1.closeInv.waiting h)
      · exact hnil (hr1.closeInv.returned h hc1).1
    | blocked => rw [hst] at hrun; cases hrun
    | panic m => rw [hst] at hrun; cases hrun
  · intro evs w1 hrun
    obtain ⟨w0, h0, h1⟩ := run_snoc _ _ hrun
    have hr0 : Reachable w0 := Reachable.run _ hr h0
    obtain ⟨hc, hn, hz, hp, hcl⟩ := close_return_state hr0 h1
    exact ⟨hc, hn, by simp [World.queue, hn], hz, hp, hcl⟩
  · intro n wg0 evs w1 h0 hrun
    exact (shared_counter_blocks_wait n wg0 evs w1 h0 hrun).2

/-- Witness for C6: a one-worker dispatcher with one request queued.  Called on
it with no other goroutine running, `Close` raises the signal and clears the
queue and then waits for the worker; when the worker takes `ctx.Done()` in
between, `Close` returns, and the queued request is gone. -/
theorem close_cancels_drains_and_waits_witness :
    (pendingWorld 0).queue = [sampleRequest 0] ∧
    Close (pendingWorld 0) = run (pendingWorld 0) (closeEvents (pendingWorld 0)) ∧
    Close (pendingWorld 0) = .blocked ∧
    (∀ w1, run (pendingWorld 0)
        ((Event.closeCancel :: [Event.select 0 0, Event.closeChannel, Event.closeClear]) ++
          [Event.closeWait]) = .ok w1 →
      w1.client.cancelled = true ∧ w1.client.requestCh = none ∧ w1.queue = [] ∧
      w1.client.wg = 0 ∧ (∀ p ∈ w1.pool, p = Worker.exited) ∧ w1.closer = Closer.idle) ∧
    run (pendingWorld 0)
        ((Event.closeCancel :: [Event.select 0 0, Event.closeChannel, Event.closeClear]) ++
          [Event.closeWait]) = .ok closedOneWorld :=
  ⟨rfl,
   (close_cancels_drains_and_waits (pendingWorld 0) (pendingWorld_reachable 0) rfl).1,
   (close_cancels_drains_and_waits (pendingWorld 0) (pendingWorld_reachable 0) rfl).2.2.1
     (by decide),
   (close_cancels_drains_and_waits (pendingWorld 0) (pendingWorld_reachable 0) rfl).2.2.2.2.2.1
     [Event.select 0 0, Event.closeChannel, Event.closeClear],
   rfl⟩

/-! ## Plugins with the same unit name -/

theorem mem_mapSet (m : List (String × String)) (k v n p : String) :
    (n, p) ∈ mapSet m k v ↔ (n = k ∧ p = v) ∨ (n ≠ k ∧ (n, p) ∈ m) := by
  simp only [mapSet, List.mem_append, List.mem_filter, List.mem_singleton, Prod.mk.injEq,
    bne_iff_ne, ne_eq]
  constructor
  · rintro (⟨h1, h2⟩ | h)
    · exact Or.inr ⟨h2, h1⟩
    · exact Or.inl h
  · rintro (h | ⟨h1, h2⟩)
    · exact Or.inr h
    · exact Or.inl ⟨h2, h1⟩

theorem nodup_keys_mapSet (m : List (String × String)) (k v : String)
    (h : (m.map Prod.fst).Nodup) : ((mapSet m k v).map Prod.fst).Nodup := by
  simp only [mapSet, List.map_append, List.map_cons, List.map_nil]
  rw [List.nodup_append]
  refine ⟨?_, List.nodup_singleton k, ?_⟩
  · exact List.Nodup.sublist (List.Sublist.map _ (List.filter_sublist _)) h
  · intro a ha hk
    simp only [List.mem_singleton] at hk
    subst hk
    simp only [List.mem_map, List.mem_filter, bne_iff_ne, ne_eq] at ha
    obtain ⟨q, ⟨_, hq⟩, hqa⟩ := ha
    exact hq hqa

theorem lastLoaded_cons (f : PluginFile) (fs : List PluginFile) (name : String) :
    lastLoaded (f :: fs) name =
      match lastLoaded fs name with
      | some p => some p
      | none => if f.loads = true ∧ f.name = name then some f.path else none := by
  simp only [lastLoaded, List.reverse_cons, List.find?_append]
  cases hfs : fs.reverse.find? (fun f => f.loads && f.name == name) with
  | some g => simp
  | none =>
    by_cases h : f.loads = true ∧ f.name = name
    · simp [List.find?, h.1, h.2, h]
    · simp only [Option.none_or, Option.map_none', if_neg h]
      have : (f.loads && f.name == name) = false := by
        rcases Bool.eq_false_or_eq_true f.loads with hl | hl
        · by_cases hn : f.name = name
          · exact absurd ⟨hl, hn⟩ h
          · simp [hn]
        · simp [hl]
      simp [List.find?, this]

theorem loadAll_registry (pm : PluginManager) (files : List PluginFile)
    (hnd : (pm.plugins.map Prod.fst).Nodup) :
    ((loadAll pm files).1.plugins.map Prod.fst).Nodup ∧
    ∀ name path, (name, path) ∈ (loadAll pm files).1.plugins ↔
      lastLoaded files name = some path ∨
        (lastLoaded files name = none ∧ (name, path) ∈ pm.plugins) := by
  induction files generalizing pm with
  | nil =>
    refine ⟨hnd, ?_⟩
    intro name path
    simp [loadAll, lastLoaded]
  | cons f fs ih =>
    cases h : f.loads with
    | true =>
      rw [loadAll_cons_loads pm f fs h]
      obtain ⟨h1, h2⟩ := ih { pm with plugins := mapSet pm.plugins f.name f.path }
        (nodup_keys_mapSet _ _ _ hnd)
      refine ⟨h1, ?_⟩
      intro name path
      rw [h2 name path, lastLoaded_cons, mem_mapSet]
      cases hl : lastLoaded fs name with
      | some q => simp
      | none =>
        by_cases hn : f.name = name
        · subst hn
          simp [h]
          constructor
          · intro hp; exact hp.symm
          · intro hp; exact hp.symm
        · have hn2 : ¬ (name = f.name) := fun e => hn e.symm
          simp [h, hn, hn2]
    | false =>
      obtain ⟨e, _, he⟩ := loadAll_cons_fails pm f fs h
      rw [he]
      obtain ⟨h1, h2⟩ := ih pm hnd
      refine ⟨h1, ?_⟩
      intro name path
      rw [h2 name path, lastLoaded_cons]
      cases hl : lastLoaded fs name with
      | some q => simp
      | none => simp [h]

theorem lastLoaded_none (fs : List PluginFile) (name : String)
    (h : lastLoaded fs name = none) : ∀ g ∈ fs, g.loads = true → g.name ≠ name := by
  intro g hg hl hn
  simp only [lastLoaded, Option.map_eq_none', List.find?_eq_none, List.mem_reverse] at h
  have := h g hg
  simp [hl, hn] at this

theorem lastLoaded_some_iff (fs : List PluginFile) (name path : String) :
    lastLoaded fs name = some path ↔
      ∃ pre f post, fs = pre ++ f :: post ∧ f.loads = true ∧ f.name = name ∧ f.path = path ∧
        ∀ g ∈ post, g.loads = true → g.name ≠ name := by
  induction fs generalizing path with
  | nil => simp [lastLoaded]
  | cons f fs ih =>
    rw [lastLoaded_cons]
    cases hl : lastLoaded fs name with
    | some q =>
      simp only [Option.some.injEq]
      constructor
      · intro hq
        subst hq
        obtain ⟨pre, g, post, h1, h2, h3, h4, h5⟩ := (ih q).mp hl
        exact ⟨f :: pre, g, post, by rw [h1]; rfl, h2, h3, h4, h5⟩
      · rintro ⟨pre, g, post, h1, h2, h3, h4, h5⟩
        cases pre with
        | nil =>
          simp only [List.nil_append, List.cons.injEq] at h1
          obtain ⟨_, hpost⟩ := h1
          subst hpost
          obtain ⟨pre1, g1, post1, k1, k2, k3, _, _⟩ := (ih q).mp hl
          exact absurd k3 (h5 g1 (by rw [k1]; simp) k2)
        | cons a pre1 =>
          simp only [List.cons_append, List.cons.injEq] at h1
          have := (ih path).mpr ⟨pre1, g, post, h1.2, h2, h3, h4, h5⟩
          rw [hl] at this
          exact Option.some.inj this
    | none =>
      constructor
      · intro h
        by_cases hc : f.loads = true ∧ f.name = name
        · simp only [if_pos hc, Option.some.injEq] at h
          exact ⟨[], f, fs, rfl, hc.1, hc.2, h, lastLoaded_none fs name hl⟩
        · simp [if_neg hc] at h
      · rintro ⟨pre, g, post, h1, h2, h3, h4, h5⟩
        cases pre with
        | nil =>
          simp only [List.nil_append, List.cons.injEq] at h1
          obtain ⟨hfg, _⟩ := h1
          subst hfg
          simp [h2, h3, h4]
        | cons a pre1 =>
          simp only [List.cons_append, List.cons.injEq] at h1
          have := (ih path).mpr ⟨pre1, g, post, h1.2, h2, h3, h4, h5⟩
          rw [hl] at this
          cases this

/-- C11, counterexample: two plugin files that both load and give the same unit
name leave one registered unit, the one of the file loaded last, and no
warning, where the units of the files that loaded are two. -/
theorem same_name_plugins_register_once :
    goodFile.loads = true ∧ rebuiltFile.loads = true ∧
    goodFile.name = "Metric" ∧ rebuiltFile.name = "Metric" ∧
    LoadPluginsFromDir NewPluginManager (.ok [goodFile, rebuiltFile]) =
      ({ plugins := [("Metric", "plugins/metric-v2.so")] },
       ["plugins/metric.so", "plugins/metric-v2.so"], [], none) ∧
    ([goodFile, rebuiltFile].filter PluginFile.loads).map (fun f => (f.name, f.path)) =
      [("Metric", "plugins/metric.so"), ("Metric", "plugins/metric-v2.so")] := by
  decide

/-- C11, amended: for every list of candidate plugin files, each of which either
loads, giving a unit name, or fails at one of the stages (open, `New` symbol,
signature, nil constructor result, `Init`), `LoadPluginsFromDir` on a new manager
hands every file to `LoadPlugin`, logs one warning per failing file, returns no
error, and leaves a registry with one entry per unit name of the files that
loaded: under each such name it holds the unit of the last loaded file with that
name (a later file replaces an earlier one of the same name, without a
warning), and it holds nothing else.  When the names of the loaded files are
distinct the registry holds exactly the units of the loaded files, so one valid
plus one malformed file, in either order, give one registered unit and one
warning. -/
theorem load_plugins_last_unit_per_name (files : List PluginFile) :
    ∃ pm warns,
      LoadPluginsFromDir NewPluginManager (.ok files) =
        (pm, files.map PluginFile.path, warns, none) ∧
      warns.length = (files.filter (fun f => !f.loads)).length ∧
      (∀ w ∈ warns, ∃ f ∈ files, f.loads = false ∧
        ∃ e, w = "Failed to load plugin " ++ f.path ++ ": " ++ e) ∧
      (pm.plugins.map Prod.fst).Nodup ∧
      (∀ name, name ∈ pm.plugins.map Prod.fst ↔ ∃ f ∈ files, f.loads = true ∧ f.name = name) ∧
      (∀ name path, (name, path) ∈ pm.plugins ↔ lastLoaded files name = some path) ∧
      (∀ name path, (name, path) ∈ pm.plugins ↔
        ∃ pre f post, files = pre ++ f :: post ∧ f.loads = true ∧ f.name = name ∧
          f.path = path ∧ ∀ g ∈ post, g.loads = true → g.name ≠ name) ∧
      (((files.filter PluginFile.loads).map PluginFile.name).Nodup →
        pm.plugins = (files.filter PluginFile.loads).map (fun f => (f.name, f.path))) ∧
      (∀ good bad : PluginFile, files = [good, bad] ∨ files = [bad, good] →
        good.loads = true → bad.loads = false →
        pm.plugins = [(good.name, good.path)] ∧ warns.length = 1) := by
  have hexact : ((files.filter PluginFile.loads).map PluginFile.name).Nodup →
      (loadAll NewPluginManager files).1.plugins =
        (files.filter PluginFile.loads).map (fun f => (f.name, f.path)) := by
    intro hnd
    have := loadAll_exact NewPluginManager files hnd (fun f _ _ => by simp [NewPluginManager])
    simpa [NewPluginManager] using this
  have hwarn := loadAll_warns NewPluginManager files
  have hreg := loadAll_registry NewPluginManager files (by simp [NewPluginManager])
  have hlast : ∀ name path, (name, path) ∈ (loadAll NewPluginManager files).1.plugins ↔
      lastLoaded files name = some path := by
    intro name path
    rw [hreg.2 name path]
    simp [NewPluginManager]
  refine ⟨(loadAll NewPluginManager files).1, (loadAll NewPluginManager files).2.2, ?_,
    hwarn.1, hwarn.2, hreg.1, ?_, hlast, ?_, hexact, ?_⟩
  · simp only [LoadPluginsFromDir]
    rw [← loadAll_tried NewPluginManager files]
  · intro name
    rw [loadAll_keys]
    simp [NewPluginManager]
  · intro name path
    rw [hlast name path, lastLoaded_some_iff]
  · intro good bad hfiles hg hb
    rcases hfiles with h | h
    · subst h
      refine ⟨?_, ?_⟩
      · rw [hexact (by simp [List.filter_cons, hg, hb])]
        simp [List.filter_cons, hg, hb]
      · rw [hwarn.1]
        simp [List.filter_cons, hg, hb]
    · subst h
      refine ⟨?_, ?_⟩
      · rw [hexact (by simp [List.filter_cons, hg, hb])]
        simp [List.filter_cons, hg, hb]
      · rw [hwarn.1]
        simp [List.filter_cons, hg, hb]

/-! ## The outbound call of a request held by a worker -/

/-- The request `http.NewRequest` builds for a config without a method has the
method `GET`. -/
theorem buildRequest_empty_method :
    buildRequest garbledEnv
        { sampleRequest 0 with Config := { sampleConfig with APIMethod := "" } } =
      .ok { Method := "GET", URL := "http://collector/api", Body := some "status",
            Header := [] } := by
  rfl

/-- C16: for every request that a worker of the dispatcher has dequeued and
hands to `s_Request` (in any reachable state of the dispatcher), once the
outbound request is built: a transport error is returned as the error "error
sending request: ..." with a nil result; and when the call completes at the
transport level with status code s, `s_Request` returns a nil error exactly when
200 <= s < 300 (with a nil result, since the requests the dispatcher builds ask
for none), and for every other status it returns a nil result and the error
"API request failed with status s: body". -/
theorem held_request_success_iff_2xx (w : World) (i : Nat) (req : APIRequest) (env : CallEnv)
    (httpReq : HTTPRequest) (hr : Reachable w)
    (hp : w.pool[i]? = some (Worker.calling req))
    (hb : buildRequest env req = .ok httpReq) :
    (∀ e, env.transport = .error e →
      s_Request env req = (none, some ("error sending request: " ++ e))) ∧
    (∀ resp, env.transport = .ok resp →
      ((s_Request env req).2 = none ↔ 200 ≤ resp.StatusCode ∧ resp.StatusCode < 300) ∧
      (200 ≤ resp.StatusCode → resp.StatusCode < 300 → s_Request env req = (none, none)) ∧
      (resp.StatusCode < 200 ∨ 300 ≤ resp.StatusCode →
        s_Request env req =
          (none, some ("API request failed with status " ++ toString resp.StatusCode ++ ": " ++
            resp.Body)))) := by
  have hheld : heldAt w.pool i = some req := by simp [heldAt, hp, Worker.req?]
  have hres : req.Result = none := hr.resultInv.held i req hheld
  refine ⟨?_, ?_⟩
  · intro e ht
    simp only [s_Request, hb, ht]
  · intro resp ht
    have hbad : resp.StatusCode < 200 ∨ 300 ≤ resp.StatusCode →
        s_Request env req =
          (none, some ("API request failed with status " ++ toString resp.StatusCode ++ ": " ++
            resp.Body)) := by
      intro hs
      have hs1 : resp.StatusCode < 200 ∨ resp.StatusCode ≥ 300 := hs
      simp only [s_Request, hb, ht, hs1, if_true]
    have hgood : 200 ≤ resp.StatusCode → resp.StatusCode < 300 →
        s_Request env req = (none, none) :=
      fun h2 h3 => s_Request_no_result env req httpReq resp hres hb ht h2 h3
    refine ⟨?_, hgood, hbad⟩
    constructor
    · intro hok
      by_cases hs : resp.StatusCode < 200 ∨ 300 ≤ resp.StatusCode
      · rw [hbad hs] at hok
        cases hok
      · omega
    · rintro ⟨h1, h2⟩
      rw [hgood h1 h2]

/-- Witness for C16: the worker of `busyWorld` holds request 0; answered with
status 200 and a body that is not JSON, the call succeeds with a nil result. -/
theorem held_request_success_iff_2xx_witness :
    Reachable busyWorld ∧ busyWorld.pool[0]? = some (Worker.calling (sampleRequest 0)) ∧
    garbledEnv.transport = .ok (HTTPResponse.mk 200 "<html>") ∧
    s_Request garbledEnv (sampleRequest 0) = (none, none) :=
  ⟨busyWorld_reachable, rfl, rfl,
    ((held_request_success_iff_2xx busyWorld 0 (sampleRequest 0) garbledEnv _
        busyWorld_reachable rfl rfl).2 (HTTPResponse.mk 200 "<html>") rfl).2.1
      (by decide) (by decide)⟩

end Jarvis
